import Mathlib

/-!
# ENSIARY library management: catalogue, loans and reservations

A shallow embedding of the bookkeeping core of the ENSIARY library manager
(`src/models/*.cpp`, `src/services/library_manager.cpp`,
`src/services/persistence_service.cpp`) together with theorems about its borrowing,
returning, renewing and reserving operations and about its JSON documents.

Modelling conventions.

* `QString` is `String`; `std::vector<std::unique_ptr<T>>` is `List T`; a pointer
  obtained from a linear search designates the first matching element, so a
  mutation through it is `modifyFirst` and `erase(it)` is `List.eraseP`.
* `QDateTime` is an instant in milliseconds (`Int`); `addDays n` adds `n` days of
  86 400 000 ms. A default constructed (null) `QDateTime` is `none` where the
  source produces one. `QDateTime::currentDateTime()` is the argument `now` of
  the operation, read once per operation.
* `QUuid::createUuid()` is the argument `uuid` of the operation that draws it.
* A C++ exception is the `Except.error` component of the result; the manager
  returned next to it is the state at the moment of the throw.
* Qt signals are appended to the `emitted` log of the manager.
* A JSON document is a `QJsonObject`, a list of members with one entry per key.
  The ISO-8601 text of a date-time (`IsoDate`), the matching of the regular
  expressions written in the source and the validity of a URL (`QtText`) are Qt
  library code and enter as parameters.
* The manager keeps the base-class part of a resource (`Resource`); where the
  concrete class matters (the persistence service, `services/persistence_service.cpp`)
  a `Resource*` is an `AnyResource`, an object of one of the four classes `Book`,
  `Article`, `Thesis`, `DigitalContent`, each extending `Resource`.
-/

namespace Ensiary

/-! ## Basic types -/

/-- An instant, in milliseconds since the epoch. -/
abbrev QDateTime := Int

/-- Milliseconds in a day. -/
def msPerDay : Int := 86400000

/-- Counterpart of `QDateTime::addDays`. -/
def addDays (t : QDateTime) (days : Int) : QDateTime := t + days * msPerDay

/-- The exception classes thrown by the models and the manager. -/
inductive Exception where
  | ResourceException (message : String)
  | UserException (message : String)
  | LoanException (message : String)
  | ReservationException (message : String)
  | LibraryManagerException (message : String)
  | DigitalContentException (message : String)
  deriving DecidableEq, Repr

/-- Apply `f` to the first element satisfying `p` (mutation through the pointer
returned by `std::find_if`). -/
def modifyFirst {α : Type} (p : α → Bool) (f : α → α) : List α → List α
  | [] => []
  | a :: as => if p a then f a :: as else a :: modifyFirst p f as

/-! ## Resource (`models/resource.h`) -/

/-- Enumeration `Resource::Category`. -/
inductive ResourceCategory where
  | Book | Article | Thesis | DigitalContent | Other
  deriving DecidableEq, Repr

/-- Enumeration `Resource::Status`. -/
inductive ResourceStatus where
  | Available | Borrowed | Reserved | Maintenance | Lost
  deriving DecidableEq, Repr

/-- The fields of the base class `Resource`. -/
structure Resource where
  id : String
  title : String
  author : String
  publicationYear : Int
  category : ResourceCategory
  status : ResourceStatus
  dateAdded : QDateTime
  description : String
  deriving DecidableEq, Repr

namespace Resource

/-- Counterpart of `Resource::setStatus`. -/
def setStatus (r : Resource) (status : ResourceStatus) : Resource :=
  { r with status := status }

/-- Counterpart of `Resource::isAvailable`. -/
def isAvailable (r : Resource) : Bool := r.status == ResourceStatus.Available

/-- Counterpart of `Resource::isBorrowed`. -/
def isBorrowed (r : Resource) : Bool := r.status == ResourceStatus.Borrowed

end Resource

/-! ## Loan (`models/loan.cpp`) -/

/-- Enumeration `Loan::Status`. -/
inductive LoanStatus where
  | Active | Returned | Overdue | Renewed | Lost
  deriving DecidableEq, Repr

/-- The fields of class `Loan`. -/
structure Loan where
  loanId : String
  userId : String
  resourceId : String
  resourceTitle : String
  borrowDate : QDateTime
  dueDate : QDateTime
  returnDate : Option QDateTime
  status : LoanStatus
  renewalCount : Int
  maxRenewals : Int
  fineAmount : Rat
  notes : String
  deriving DecidableEq, Repr

namespace Loan

/-- Counterpart of `Loan::isOverdue`. -/
def isOverdue (l : Loan) (now : QDateTime) : Bool :=
  if l.status == LoanStatus.Returned || l.status == LoanStatus.Lost then false
  else decide (now > l.dueDate)

/-- Counterpart of `Loan::canBeRenewed`. -/
def canBeRenewed (l : Loan) (now : QDateTime) : Bool :=
  (l.status == LoanStatus.Active || l.status == LoanStatus.Renewed) &&
    decide (l.renewalCount < l.maxRenewals) &&
    !l.isOverdue now

/-- Counterpart of `Loan::validateLoanData`. -/
def validateLoanData (l : Loan) : Except Exception Unit :=
  if l.loanId.isEmpty then .error (.LoanException "Loan ID cannot be empty")
  else if l.userId.isEmpty then .error (.LoanException "User ID cannot be empty")
  else if l.resourceId.isEmpty then .error (.LoanException "Resource ID cannot be empty")
  else if l.dueDate ≤ l.borrowDate then
    .error (.LoanException "Due date must be after borrow date")
  else if l.maxRenewals < 0 then
    .error (.LoanException "Maximum renewals cannot be negative")
  else .ok ()

/-- Counterpart of `Loan::updateStatus`. -/
def updateStatus (l : Loan) (now : QDateTime) : Loan :=
  if l.status == LoanStatus.Returned || l.status == LoanStatus.Lost then l
  else if l.isOverdue now then { l with status := LoanStatus.Overdue }
  else l

/-- Counterpart of the constructor `Loan::Loan`. -/
def new (loanId userId resourceId resourceTitle : String)
    (borrowDate dueDate : QDateTime) (maxRenewals : Int) (now : QDateTime) :
    Except Exception Loan :=
  let l : Loan :=
    { loanId := loanId, userId := userId, resourceId := resourceId,
      resourceTitle := resourceTitle, borrowDate := borrowDate, dueDate := dueDate,
      returnDate := none, status := LoanStatus.Active, renewalCount := 0,
      maxRenewals := maxRenewals, fineAmount := 0, notes := "" }
  match l.validateLoanData with
  | .error e => .error e
  | .ok _ => .ok (l.updateStatus now)

/-- Counterpart of `Loan::renewLoan`: the flag returned and the loan afterwards. -/
def renewLoan (l : Loan) (daysToExtend : Int) (now : QDateTime) : Bool × Loan :=
  if !l.canBeRenewed now then (false, l)
  else
    (true, { l with dueDate := addDays l.dueDate daysToExtend,
                    renewalCount := l.renewalCount + 1,
                    status := LoanStatus.Renewed })

/-- Counterpart of `QDateTime::daysTo` on instants. -/
def daysTo (a b : QDateTime) : Int := (b - a) / msPerDay

/-- Counterpart of `Loan::getDaysOverdue`. -/
def getDaysOverdue (l : Loan) (now : QDateTime) : Int :=
  if !l.isOverdue now then 0 else daysTo l.dueDate now

/-- Counterpart of `Loan::calculateFine`. -/
def calculateFine (l : Loan) (now : QDateTime) (dailyFineRate : Rat) : Loan :=
  let daysOverdue := l.getDaysOverdue now
  if daysOverdue > 0 then { l with fineAmount := daysOverdue * dailyFineRate } else l

/-- Counterpart of `Loan::returnItem`. -/
def returnItem (l : Loan) (now : QDateTime) : Loan :=
  let l1 : Loan := { l with returnDate := some now, status := LoanStatus.Returned }
  if l1.isOverdue now then l1.calculateFine now (1 / 2) else l1

/-- Counterpart of `Loan::generateLoanId`. -/
def generateLoanId (uuid : String) : String := "LOAN_" ++ uuid

end Loan

/-! ## User (`models/user.cpp`) -/

/-- Enumeration `User::UserType`. -/
inductive UserType where
  | Student | Teacher | Staff | Administrator | Guest
  deriving DecidableEq, Repr

/-- Enumeration `User::Status`. -/
inductive UserStatus where
  | Active | Inactive | Suspended | Expired
  deriving DecidableEq, Repr

/-- The fields of class `User`. -/
structure User where
  userId : String
  firstName : String
  lastName : String
  email : String
  phoneNumber : String
  address : String
  userType : UserType
  status : UserStatus
  registrationDate : QDateTime
  lastActivity : QDateTime
  maxBorrowLimit : Int
  notes : String
  year : Int
  currentLoans : List Loan
  loanHistory : List Loan
  deriving DecidableEq, Repr

namespace User

/-- Counterpart of `User::hasMaxLoansReached`. -/
def hasMaxLoansReached (u : User) : Bool :=
  decide ((u.currentLoans.length : Int) ≥ u.maxBorrowLimit)

/-- Counterpart of `User::canBorrow`. -/
def canBorrow (u : User) : Bool :=
  u.status == UserStatus.Active && !u.hasMaxLoansReached

/-- Counterpart of `User::getCurrentLoanCount`. -/
def getCurrentLoanCount (u : User) : Int := u.currentLoans.length

/-- Counterpart of `User::updateLastActivity`. -/
def updateLastActivity (u : User) (now : QDateTime) : User :=
  { u with lastActivity := now }

/-- Counterpart of `User::addCurrentLoan`; `none` is the null pointer. -/
def addCurrentLoan (u : User) (loan : Option Loan) (now : QDateTime) :
    Except Exception User :=
  match loan with
  | none => .error (.UserException "Cannot add null loan")
  | some l =>
    if u.hasMaxLoansReached then
      .error (.UserException "User has reached maximum loan limit")
    else
      .ok ({ u with currentLoans := u.currentLoans ++ [l] }.updateLastActivity now)

/-- Counterpart of `User::moveLoanToHistory`. -/
def moveLoanToHistory (u : User) (loanId : String) (now : QDateTime) : User :=
  match u.currentLoans.find? (fun l => l.loanId == loanId) with
  | some l =>
    { u with loanHistory := u.loanHistory ++ [l],
             currentLoans := u.currentLoans.eraseP (fun l => l.loanId == loanId)
      }.updateLastActivity now
  | none => u

end User

/-! ## Reservation (`models/reservation.cpp`) -/

/-- Enumeration `Reservation::Status`. -/
inductive ReservationStatus where
  | Active | Fulfilled | Expired | Cancelled
  deriving DecidableEq, Repr

/-- The fields of class `Reservation`. -/
structure Reservation where
  reservationId : String
  userId : String
  resourceId : String
  resourceTitle : String
  reservationDate : QDateTime
  expirationDate : QDateTime
  status : ReservationStatus
  notes : String
  deriving DecidableEq, Repr

namespace Reservation

/-- Counterpart of `Reservation::generateReservationId`. -/
def generateReservationId (uuid : String) : String := "RES_" ++ uuid

/-- Counterpart of the constructor `Reservation::Reservation`. -/
def new (userId resourceId resourceTitle : String) (expirationDays : Int)
    (now : QDateTime) (uuid : String) : Reservation :=
  { reservationId := generateReservationId uuid, userId := userId,
    resourceId := resourceId, resourceTitle := resourceTitle,
    reservationDate := now, expirationDate := addDays now expirationDays,
    status := ReservationStatus.Active, notes := "" }

/-- Counterpart of `Reservation::setStatus`. -/
def setStatus (r : Reservation) (status : ReservationStatus) : Reservation :=
  { r with status := status }

/-- Counterpart of `Reservation::isActive`. -/
def isActive (r : Reservation) : Bool := r.status == ReservationStatus.Active

/-- Counterpart of `Reservation::isExpired`. -/
def isExpired (r : Reservation) (now : QDateTime) : Bool :=
  decide (now > r.expirationDate) && r.status == ReservationStatus.Active

/-- Counterpart of `Reservation::canBeFulfilled`. -/
def canBeFulfilled (r : Reservation) (now : QDateTime) : Bool :=
  r.status == ReservationStatus.Active && !r.isExpired now

/-- Counterpart of `Reservation::cancelReservation`. -/
def cancelReservation (r : Reservation) : Except Exception Reservation :=
  if r.status == ReservationStatus.Fulfilled then
    .error (.ReservationException "Cannot cancel fulfilled reservation")
  else .ok { r with status := ReservationStatus.Cancelled }

end Reservation

/-! ## LibraryManager (`services/library_manager.cpp`) -/

/-- The Qt signals of `LibraryManager`. -/
inductive Signal where
  | resourceAdded (resourceId : String)
  | resourceRemoved (resourceId : String)
  | userAdded (userId : String)
  | userRemoved (userId : String)
  | resourceBorrowed (loanId userId resourceId : String)
  | resourceReturned (loanId userId resourceId : String)
  | loanRenewed (loanId : String) (newDueDate : QDateTime)
  | itemOverdue (loanId userId resourceId : String)
  | resourceReserved (reservationId userId resourceId : String)
  | reservationCancelled (reservationId userId resourceId : String)
  | reservationExpired (reservationId userId resourceId : String)
  | reservedResourceAvailable (reservationId userId resourceId : String)
  deriving DecidableEq, Repr

/-- The data members of `LibraryManager`, with the log of emitted signals. -/
structure LibraryManager where
  resources : List Resource
  users : List User
  activeLoans : List Loan
  loanHistory : List Loan
  activeReservations : List Reservation
  reservationHistory : List Reservation
  libraryName : String
  operatingHours : String
  upcomingEvents : List String
  defaultLoanPeriodDays : Int
  emitted : List Signal
  deriving DecidableEq, Repr

namespace LibraryManager

/-- Counterpart of the constructor `LibraryManager::LibraryManager`. -/
def empty : LibraryManager :=
  { resources := [], users := [], activeLoans := [], loanHistory := [],
    activeReservations := [], reservationHistory := [],
    libraryName := "ENSIARY Library Management System",
    operatingHours :=
      "Monday-Friday: 8:00 AM - 8:00 PM, Saturday-Sunday: 10:00 AM - 6:00 PM",
    upcomingEvents := [], defaultLoanPeriodDays := 14, emitted := [] }

/-- Append a signal to the log (`emit`). -/
def emit (m : LibraryManager) (s : Signal) : LibraryManager :=
  { m with emitted := m.emitted ++ [s] }

/-- Counterpart of `LibraryManager::findResourceById`. -/
def findResourceById (m : LibraryManager) (resourceId : String) : Option Resource :=
  m.resources.find? (fun r => r.id == resourceId)

/-- Counterpart of `LibraryManager::findUserById`. -/
def findUserById (m : LibraryManager) (userId : String) : Option User :=
  m.users.find? (fun u => u.userId == userId)

/-- Counterpart of `LibraryManager::findUserByEmail`. -/
def findUserByEmail (m : LibraryManager) (email : String) : Option User :=
  m.users.find? (fun u => u.email == email)

/-- Counterpart of `LibraryManager::findLoanIterator` (dereferenced). -/
def findLoan (m : LibraryManager) (loanId : String) : Option Loan :=
  m.activeLoans.find? (fun l => l.loanId == loanId)

/-- Counterpart of `LibraryManager::validateResourceData`. -/
def validateResourceData (r : Resource) : Except Exception Unit :=
  if r.id.isEmpty then .error (.LibraryManagerException "Resource ID cannot be empty")
  else if r.title.isEmpty then
    .error (.LibraryManagerException "Resource title cannot be empty")
  else if r.author.isEmpty then
    .error (.LibraryManagerException "Resource author cannot be empty")
  else .ok ()

/-- Counterpart of `LibraryManager::validateUserData`. -/
def validateUserData (u : User) : Except Exception Unit :=
  if u.userId.isEmpty then .error (.LibraryManagerException "User ID cannot be empty")
  else if u.firstName.isEmpty then
    .error (.LibraryManagerException "User first name cannot be empty")
  else if u.lastName.isEmpty then
    .error (.LibraryManagerException "User last name cannot be empty")
  else if u.email.isEmpty then
    .error (.LibraryManagerException "User email cannot be empty")
  else .ok ()

/-- Counterpart of `LibraryManager::addResource`; `none` is the null pointer. -/
def addResource (m : LibraryManager) (resource : Option Resource) :
    Except Exception Unit × LibraryManager :=
  match resource with
  | none => (.error (.LibraryManagerException "Cannot add null resource"), m)
  | some r =>
    match validateResourceData r with
    | .error e => (.error e, m)
    | .ok _ =>
      if (m.findResourceById r.id).isSome then
        (.error (.LibraryManagerException ("Resource with ID " ++ r.id ++ " already exists")), m)
      else
        (.ok (), ({ m with resources := m.resources ++ [r] }).emit (.resourceAdded r.id))

/-- Counterpart of `LibraryManager::removeResource`. -/
def removeResource (m : LibraryManager) (resourceId : String) :
    Except Exception Bool × LibraryManager :=
  match m.findResourceById resourceId with
  | none => (.ok false, m)
  | some r =>
    if r.isBorrowed then
      (.error (.LibraryManagerException "Cannot remove resource that is currently borrowed"), m)
    else
      (.ok true,
        ({ m with resources := m.resources.eraseP (fun r => r.id == resourceId) }).emit
          (.resourceRemoved resourceId))

/-- Counterpart of `LibraryManager::addUser`; `none` is the null pointer. -/
def addUser (m : LibraryManager) (user : Option User) :
    Except Exception Unit × LibraryManager :=
  match user with
  | none => (.error (.LibraryManagerException "Cannot add null user"), m)
  | some u =>
    match validateUserData u with
    | .error e => (.error e, m)
    | .ok _ =>
      if (m.findUserById u.userId).isSome then
        (.error (.LibraryManagerException ("User with ID " ++ u.userId ++ " already exists")), m)
      else if (m.findUserByEmail u.email).isSome then
        (.error (.LibraryManagerException ("User with email " ++ u.email ++ " already exists")), m)
      else
        (.ok (), ({ m with users := m.users ++ [u] }).emit (.userAdded u.userId))

/-- Counterpart of `LibraryManager::removeUser`. -/
def removeUser (m : LibraryManager) (userId : String) :
    Except Exception Bool × LibraryManager :=
  match m.findUserById userId with
  | none => (.ok false, m)
  | some u =>
    if u.getCurrentLoanCount > 0 then
      (.error (.LibraryManagerException "Cannot remove user with active loans"), m)
    else
      (.ok true,
        ({ m with users := m.users.eraseP (fun u => u.userId == userId) }).emit
          (.userRemoved userId))

/-- Counterpart of `LibraryManager::calculateDueDate`. -/
def calculateDueDate (m : LibraryManager) (loanPeriodDays : Int) (now : QDateTime) :
    QDateTime :=
  let days := if loanPeriodDays > 0 then loanPeriodDays else m.defaultLoanPeriodDays
  addDays now days

/-- Counterpart of `LibraryManager::borrowResource`. -/
def borrowResource (m : LibraryManager) (userId resourceId : String)
    (now : QDateTime) (uuid : String) : Except Exception String × LibraryManager :=
  match m.findUserById userId with
  | none => (.error (.LibraryManagerException ("User not found: " ++ userId)), m)
  | some user =>
    match m.findResourceById resourceId with
    | none => (.error (.LibraryManagerException ("Resource not found: " ++ resourceId)), m)
    | some resource =>
      if !user.canBorrow then
        (.error (.LibraryManagerException "User cannot borrow items at this time"), m)
      else if !resource.isAvailable then
        (.error (.LibraryManagerException "Resource is not available for borrowing"), m)
      else
        let loanId := Loan.generateLoanId uuid
        let borrowDate := now
        let dueDate := m.calculateDueDate 0 now
        match Loan.new loanId userId resourceId resource.title borrowDate dueDate 3 now with
        | .error e => (.error e, m)
        | .ok loan =>
          let resources1 :=
            modifyFirst (fun r => r.id == resourceId)
              (fun r => r.setStatus ResourceStatus.Borrowed) m.resources
          let m1 : LibraryManager := { m with resources := resources1 }
          match user.addCurrentLoan (some loan) now with
          | .error e => (.error e, m1)
          | .ok user1 =>
            let users1 := modifyFirst (fun u => u.userId == userId) (fun _ => user1) m1.users
            let m2 : LibraryManager := { m1 with users := users1 }
            let m3 : LibraryManager := { m2 with activeLoans := m2.activeLoans ++ [loan] }
            (.ok loanId, m3.emit (.resourceBorrowed loanId userId resourceId))

/-- Counterpart of `LibraryManager::processLoanReturn`, applied to the active loan
designated by `loanId`. -/
def processLoanReturn (m : LibraryManager) (loanId : String) (now : QDateTime) :
    LibraryManager :=
  match m.findLoan loanId with
  | none => m
  | some loan =>
    let loans1 :=
      modifyFirst (fun l => l.loanId == loanId) (fun l => l.returnItem now) m.activeLoans
    let m1 : LibraryManager := { m with activeLoans := loans1 }
    match m1.findUserById loan.userId with
    | none => m1
    | some _ =>
      let users1 :=
        modifyFirst (fun u => u.userId == loan.userId)
          (fun u => u.moveLoanToHistory loan.loanId now) m1.users
      { m1 with users := users1 }

/-- Counterpart of `LibraryManager::moveLoanToHistory`. -/
def moveLoanToHistory (m : LibraryManager) (loanId : String) : LibraryManager :=
  match m.findLoan loanId with
  | some l =>
    { m with loanHistory := m.loanHistory ++ [l],
             activeLoans := m.activeLoans.eraseP (fun l => l.loanId == loanId) }
  | none => m

/-- Counterpart of `LibraryManager::getResourceReservations`; the order among
reservations of equal date, which `std::sort` leaves open, is the one of insertion
sort. -/
def getResourceReservations (m : LibraryManager) (resourceId : String) :
    List Reservation :=
  (m.activeReservations.filter
      (fun r => r.resourceId == resourceId && r.isActive)).insertionSort
    (fun a b => a.reservationDate ≤ b.reservationDate)

/-- Counterpart of `LibraryManager::notifyWhenResourceAvailable`. -/
def notifyWhenResourceAvailable (m : LibraryManager) (resourceId : String)
    (now : QDateTime) : LibraryManager :=
  match m.getResourceReservations resourceId with
  | [] => m
  | firstReservation :: _ =>
    if firstReservation.canBeFulfilled now then
      m.emit (.reservedResourceAvailable firstReservation.reservationId
        firstReservation.userId resourceId)
    else m

/-- Counterpart of `LibraryManager::returnResource`. -/
def returnResource (m : LibraryManager) (loanId : String) (now : QDateTime) :
    Bool × LibraryManager :=
  match m.findLoan loanId with
  | none => (false, m)
  | some loan =>
    let resourceId := loan.resourceId
    let m1 : LibraryManager :=
      match m.findResourceById resourceId with
      | some _ =>
        let resources1 :=
          modifyFirst (fun r => r.id == resourceId)
            (fun r => r.setStatus ResourceStatus.Available) m.resources
        { m with resources := resources1 }
      | none => m
    let m2 := m1.processLoanReturn loanId now
    let m3 := m2.moveLoanToHistory loanId
    let m4 := m3.emit (.resourceReturned loanId loan.userId resourceId)
    (true, m4.notifyWhenResourceAvailable resourceId now)

/-- Counterpart of `LibraryManager::renewLoan`; `none` is the null `QDateTime`. -/
def renewLoan (m : LibraryManager) (loanId : String) (additionalDays : Int)
    (now : QDateTime) : Except Exception (Option QDateTime) × LibraryManager :=
  match m.findLoan loanId with
  | none => (.ok none, m)
  | some loan =>
    if !loan.canBeRenewed now then
      (.error (.LibraryManagerException "Loan cannot be renewed"), m)
    else
      let res := loan.renewLoan additionalDays now
      let loans1 := modifyFirst (fun l => l.loanId == loanId) (fun _ => res.2) m.activeLoans
      let m1 : LibraryManager := { m with activeLoans := loans1 }
      if res.1 then (.ok (some res.2.dueDate), m1.emit (.loanRenewed loanId res.2.dueDate))
      else (.ok none, m1)

/-- Counterpart of `LibraryManager::reserveResource`. -/
def reserveResource (m : LibraryManager) (userId resourceId : String)
    (now : QDateTime) (uuid : String) : Except Exception String × LibraryManager :=
  match m.findUserById userId with
  | none => (.error (.LibraryManagerException ("User not found: " ++ userId)), m)
  | some user =>
    match m.findResourceById resourceId with
    | none => (.error (.LibraryManagerException ("Resource not found: " ++ resourceId)), m)
    | some resource =>
      if !user.canBorrow then
        (.error (.LibraryManagerException "User cannot make reservations"), m)
      else if m.activeReservations.any
          (fun r => r.userId == userId && r.resourceId == resourceId && r.isActive) then
        (.error (.LibraryManagerException
          "User already has an active reservation for this resource"), m)
      else if resource.isAvailable then
        (.error (.LibraryManagerException
          "Resource is available for immediate borrowing - no reservation needed"), m)
      else
        let reservation := Reservation.new userId resourceId resource.title 7 now uuid
        let reservationId := reservation.reservationId
        let m1 : LibraryManager :=
          { m with activeReservations := m.activeReservations ++ [reservation] }
        (.ok reservationId, m1.emit (.resourceReserved reservationId userId resourceId))

/-- Counterpart of `LibraryManager::cancelReservation`. -/
def cancelReservation (m : LibraryManager) (reservationId : String) :
    Except Exception Bool × LibraryManager :=
  match m.activeReservations.find? (fun r => r.reservationId == reservationId) with
  | some r =>
    match r.cancelReservation with
    | .error e => (.error e, m)
    | .ok r1 =>
      let m1 : LibraryManager :=
        { m with reservationHistory := m.reservationHistory ++ [r1],
                 activeReservations :=
                   m.activeReservations.eraseP (fun r => r.reservationId == reservationId) }
      (.ok true, m1.emit (.reservationCancelled reservationId r.userId r.resourceId))
  | none => (.ok false, m)

/-- Counterpart of `LibraryManager::cancelUserReservation`. -/
def cancelUserReservation (m : LibraryManager) (userId resourceId : String) :
    Except Exception Bool × LibraryManager :=
  match m.activeReservations.find?
      (fun r => r.userId == userId && r.resourceId == resourceId && r.isActive) with
  | some r => m.cancelReservation r.reservationId
  | none => (.ok false, m)

/-- The `while` loop of `LibraryManager::processExpiredReservations`. The first list
is the part of the active reservations from the iterator to the end, `kept` the part
before the iterator; an expired reservation is marked `Expired`, pushed to the
history, erased and signalled, any other is stepped over. -/
def sweepExpired (now : QDateTime) :
    List Reservation → List Reservation → List Reservation → List Signal → Bool →
      List Reservation × List Reservation × List Signal × Bool
  | [], kept, history, emitted, hasExpired => (kept, history, emitted, hasExpired)
  | r :: rest, kept, history, emitted, hasExpired =>
    if r.isExpired now then
      sweepExpired now rest kept
        (history ++ [r.setStatus ReservationStatus.Expired])
        (emitted ++ [Signal.reservationExpired r.reservationId r.userId r.resourceId])
        true
    else
      sweepExpired now rest (kept ++ [r]) history emitted hasExpired

/-- Counterpart of `LibraryManager::processExpiredReservations`. -/
def processExpiredReservations (m : LibraryManager) (now : QDateTime) :
    Bool × LibraryManager :=
  let res := sweepExpired now m.activeReservations [] m.reservationHistory m.emitted false
  (res.2.2.2,
    { m with activeReservations := res.1, reservationHistory := res.2.1,
             emitted := res.2.2.1 })

/-- Counterpart of `LibraryManager::addActiveLoan` (used when loading persisted
data); `none` is the null pointer. -/
def addActiveLoan (m : LibraryManager) (loan : Option Loan) : LibraryManager :=
  match loan with
  | some l => { m with activeLoans := m.activeLoans ++ [l] }
  | none => m

/-! ## Sequences of manager operations -/

/-- A call of one of the state-changing operations of the manager, with the clock
reading and the UUID it draws where it needs them. -/
inductive Op where
  | addResource (resource : Option Resource)
  | removeResource (resourceId : String)
  | addUser (user : Option User)
  | removeUser (userId : String)
  | borrowResource (userId resourceId : String) (now : QDateTime) (uuid : String)
  | returnResource (loanId : String) (now : QDateTime)
  | renewLoan (loanId : String) (additionalDays : Int) (now : QDateTime)
  | reserveResource (userId resourceId : String) (now : QDateTime) (uuid : String)
  | cancelReservation (reservationId : String)
  | cancelUserReservation (userId resourceId : String)
  | processExpiredReservations (now : QDateTime)
  deriving DecidableEq, Repr

/-- The manager after one call (whether it returned or threw). -/
def applyOp (m : LibraryManager) : Op → LibraryManager
  | .addResource r => (m.addResource r).2
  | .removeResource id => (m.removeResource id).2
  | .addUser u => (m.addUser u).2
  | .removeUser id => (m.removeUser id).2
  | .borrowResource u r now uuid => (m.borrowResource u r now uuid).2
  | .returnResource l now => (m.returnResource l now).2
  | .renewLoan l d now => (m.renewLoan l d now).2
  | .reserveResource u r now uuid => (m.reserveResource u r now uuid).2
  | .cancelReservation id => (m.cancelReservation id).2
  | .cancelUserReservation u r => (m.cancelUserReservation u r).2
  | .processExpiredReservations now => (m.processExpiredReservations now).2

/-- The manager reached from the empty manager by a sequence of calls. -/
def run (ops : List Op) : LibraryManager := ops.foldl applyOp empty

/-- The number of reservations of the active collection with status `Active` held
by a user for a resource. -/
def activeReservationCount (m : LibraryManager) (userId resourceId : String) : Nat :=
  m.activeReservations.countP
    (fun r => r.userId == userId && r.resourceId == resourceId && r.isActive)

end LibraryManager

/-! ## Bookkeeping predicates -/

namespace LibraryManager

/-- The catalogue and the active loans agree: resource ids are pairwise distinct,
every `Borrowed` resource is referenced by exactly one active loan, and every active
loan references a `Borrowed` resource of the catalogue. -/
def LoanBookkeeping (m : LibraryManager) : Prop :=
  (m.resources.map (fun r => r.id)).Nodup ∧
  (∀ r ∈ m.resources, r.status = ResourceStatus.Borrowed →
    (m.activeLoans.map (fun l => l.resourceId)).count r.id = 1) ∧
  (∀ x ∈ m.activeLoans.map (fun l => l.resourceId),
    ∃ r ∈ m.resources, r.id = x ∧ r.status = ResourceStatus.Borrowed)

/-- The ids of the stored users and resources are non-empty (what the constructors of
`User` and `Resource` and the validation in `addUser` and `addResource` enforce). -/
def IdsNonEmpty (m : LibraryManager) : Prop :=
  (∀ x ∈ m.users.map (fun u => u.userId), x ≠ "") ∧
  (∀ x ∈ m.resources.map (fun r => r.id), x ≠ "")

/-- The resource ids, the user ids and the user e-mail addresses are pairwise
distinct. -/
def UniqueIds (m : LibraryManager) : Prop :=
  (m.resources.map (fun r => r.id)).Nodup ∧
  (m.users.map (fun u => u.userId)).Nodup ∧
  (m.users.map (fun u => u.email)).Nodup

/-- Every call of `addResource` in the sequence hands over a resource whose status
is not `Borrowed`. -/
def AddsNoBorrowed (ops : List Op) : Prop :=
  ∀ r : Resource, Op.addResource (some r) ∈ ops → r.status ≠ ResourceStatus.Borrowed

end LibraryManager

/-! ## Sample data -/

/-- A book of the catalogue, as its constructor leaves it (`Available`). -/
def sampleBook : Resource :=
  { id := "B1", title := "Algebra", author := "Lang", publicationYear := 2002,
    category := ResourceCategory.Book, status := ResourceStatus.Available,
    dateAdded := 0, description := "" }

/-- A book whose status was set to `Borrowed` in the resource dialog before it is
handed to `addResource`. -/
def sampleBorrowedBook : Resource :=
  { id := "B2", title := "Topology", author := "Munkres", publicationYear := 2000,
    category := ResourceCategory.Book, status := ResourceStatus.Borrowed,
    dateAdded := 0, description := "" }

/-- A student, as the constructor of `User` leaves it. -/
def sampleStudent : User :=
  { userId := "U1", firstName := "Ada", lastName := "Byron", email := "ada@ensia.edu.dz",
    phoneNumber := "", address := "", userType := UserType.Student,
    status := UserStatus.Active, registrationDate := 0, lastActivity := 0,
    maxBorrowLimit := 5, notes := "", year := 1, currentLoans := [], loanHistory := [] }

/-- A second student. -/
def sampleReader : User :=
  { userId := "U2", firstName := "Emmy", lastName := "Noether",
    email := "emmy@ensia.edu.dz", phoneNumber := "", address := "",
    userType := UserType.Student, status := UserStatus.Active, registrationDate := 0,
    lastActivity := 0, maxBorrowLimit := 5, notes := "", year := 2, currentLoans := [],
    loanHistory := [] }

/-- A student whose status was set to `Suspended` before `addUser`. -/
def sampleSuspended : User :=
  { userId := "U3", firstName := "Carl", lastName := "Gauss",
    email := "carl@ensia.edu.dz", phoneNumber := "", address := "",
    userType := UserType.Student, status := UserStatus.Suspended, registrationDate := 0,
    lastActivity := 0, maxBorrowLimit := 5, notes := "", year := 3, currentLoans := [],
    loanHistory := [] }

/-- A loan of `sampleBook` to `sampleStudent`, as `borrowResource` creates it at
time 1000 with UUID `a`. -/
def sampleLoan : Loan :=
  { loanId := "LOAN_a", userId := "U1", resourceId := "B1", resourceTitle := "Algebra",
    borrowDate := 1000, dueDate := 1209601000, returnDate := none,
    status := LoanStatus.Active, renewalCount := 0, maxRenewals := 3, fineAmount := 0,
    notes := "" }

/-- The calls that stock the library: one book and three users. -/
def stockOps : List LibraryManager.Op :=
  [.addResource (some sampleBook), .addUser (some sampleStudent),
   .addUser (some sampleReader), .addUser (some sampleSuspended)]

/-- The library with one book and three users, nothing lent. -/
def stockedLibrary : LibraryManager := LibraryManager.run stockOps

/-- The calls after which `sampleStudent` holds `sampleBook`. -/
def lendingOps : List LibraryManager.Op :=
  stockOps ++ [.borrowResource "U1" "B1" 1000 "a"]

/-- The library in which `sampleStudent` has borrowed `sampleBook` at time 1000. -/
def lendingLibrary : LibraryManager := LibraryManager.run lendingOps

/-- A manager loaded with a user and, through `addActiveLoan`, an active loan of that
user which is not among the current loans of the user. -/
def unsyncedLibrary : LibraryManager :=
  (LibraryManager.empty.addUser (some sampleStudent)).2.addActiveLoan (some sampleLoan)

/-- The calls after which `sampleReader` has reserved the lent book at time 2000. -/
def reservingOps : List LibraryManager.Op :=
  lendingOps ++ [.reserveResource "U2" "B1" 2000 "r"]

/-- The lending library with the reservation of `sampleReader`. -/
def reservedLibrary : LibraryManager := LibraryManager.run reservingOps

/-- A guest whose borrow limit was set to zero before `addUser`. -/
def sampleBarred : User :=
  { userId := "U4", firstName := "Sofia", lastName := "Kovalevskaya",
    email := "sofia@ensia.edu.dz", phoneNumber := "", address := "",
    userType := UserType.Guest, status := UserStatus.Active, registrationDate := 0,
    lastActivity := 0, maxBorrowLimit := 0, notes := "", year := -1, currentLoans := [],
    loanHistory := [] }

/-- The stocked library with the guest who may borrow nothing. -/
def barredLibrary : LibraryManager :=
  LibraryManager.run (stockOps ++ [.addUser (some sampleBarred)])

/-! ## JSON documents (`QJsonValue`, `QJsonObject`) and ISO-8601 text -/

/-- The values of a JSON document, as `QJsonValue` holds them; numbers are doubles. -/
inductive QJsonValue where
  | null
  | undefined
  | bool (b : Bool)
  | double (d : Rat)
  | string (s : String)
  | array (items : List QJsonValue)
  | object (members : List (String × QJsonValue))

/-- A JSON object: its members, one per key. -/
abbrev QJsonObject := List (String × QJsonValue)

namespace QJsonValue

/-- Counterpart of `QJsonValue::toString()`: the string, or the empty string when the
value is not a string. -/
def toString : QJsonValue → String
  | string s => s
  | _ => ""

/-- Counterpart of `QJsonValue::toInt(defaultValue)`: the integer when the value is a
number without fractional part, the default otherwise (the range of `int` is not
modelled, the integer fields being unbounded). -/
def toInt (v : QJsonValue) (defaultValue : Int) : Int :=
  match v with
  | double d => if d.den = 1 then d.num else defaultValue
  | _ => defaultValue

/-- Counterpart of `QJsonValue::toDouble()`. -/
def toDouble : QJsonValue → Rat
  | double d => d
  | _ => 0

end QJsonValue

namespace QJsonObject

/-- Counterpart of the assignment `json[key] = value`: the member is replaced when
the key is present and added otherwise. -/
def insert : QJsonObject → String → QJsonValue → QJsonObject
  | [], key, value => [(key, value)]
  | (k, v) :: rest, key, value =>
    if k == key then (key, value) :: rest else (k, v) :: insert rest key value

/-- Counterpart of the read access `json[key]`: `undefined` when the key is absent. -/
def value : QJsonObject → String → QJsonValue
  | [], _ => QJsonValue.undefined
  | (k, v) :: rest, key => if k == key then v else value rest key

end QJsonObject

/-- The rendering and the parsing of a date-time as ISO-8601 text by Qt,
`QDateTime::toString(Qt::ISODate)` and `QDateTime::fromString(text, Qt::ISODate)`,
which are library code outside the repository. -/
structure IsoDate where
  toString : QDateTime → String
  fromString : String → Option QDateTime

namespace IsoDate

/-- The instant cut to whole seconds, the precision of the ISO-8601 text. -/
def wholeSeconds (t : QDateTime) : QDateTime := t / 1000 * 1000

/-- What Qt documents of the ISO-8601 text: parsing the text of a date-time gives the
date-time at whole seconds, and the empty text gives the null date-time. -/
def RoundTrips (c : IsoDate) : Prop :=
  (∀ t : QDateTime, c.fromString (c.toString t) = some (wholeSeconds t)) ∧
  c.fromString "" = none

/-- The text of a date-time that may be null: the null date-time gives the empty
text. -/
def render (c : IsoDate) : Option QDateTime → String
  | none => ""
  | some t => c.toString t

end IsoDate

namespace Loan

/-- Counterpart of `Loan::statusToString`. -/
def statusToString : LoanStatus → String
  | LoanStatus.Active => "Active"
  | LoanStatus.Returned => "Returned"
  | LoanStatus.Overdue => "Overdue"
  | LoanStatus.Renewed => "Renewed"
  | LoanStatus.Lost => "Lost"

/-- Counterpart of `Loan::stringToStatus`. -/
def stringToStatus (statusStr : String) : LoanStatus :=
  if statusStr == "Active" then LoanStatus.Active
  else if statusStr == "Returned" then LoanStatus.Returned
  else if statusStr == "Overdue" then LoanStatus.Overdue
  else if statusStr == "Renewed" then LoanStatus.Renewed
  else if statusStr == "Lost" then LoanStatus.Lost
  else LoanStatus.Active

/-- Counterpart of `Loan::toJson`. -/
def toJson (c : IsoDate) (l : Loan) : QJsonObject :=
  let json : QJsonObject := []
  let json := json.insert "loanId" (.string l.loanId)
  let json := json.insert "userId" (.string l.userId)
  let json := json.insert "resourceId" (.string l.resourceId)
  let json := json.insert "resourceTitle" (.string l.resourceTitle)
  let json := json.insert "borrowDate" (.string (c.toString l.borrowDate))
  let json := json.insert "dueDate" (.string (c.toString l.dueDate))
  let json := json.insert "returnDate" (.string (c.render l.returnDate))
  let json := json.insert "status" (.string (statusToString l.status))
  let json := json.insert "renewalCount" (.double l.renewalCount)
  let json := json.insert "maxRenewals" (.double l.maxRenewals)
  let json := json.insert "fineAmount" (.double l.fineAmount)
  json.insert "notes" (.string l.notes)

/-- Counterpart of `Loan::fromJson`, which overwrites every field of the loan it is
called on. A loan whose borrow date or due date would be the null date-time is
outside the model: the result is then `none`. -/
def fromJson (c : IsoDate) (_self : Loan) (json : QJsonObject) : Option Loan :=
  match c.fromString (json.value "borrowDate").toString,
        c.fromString (json.value "dueDate").toString with
  | some borrowDate, some dueDate =>
    some
      { loanId := (json.value "loanId").toString,
        userId := (json.value "userId").toString,
        resourceId := (json.value "resourceId").toString,
        resourceTitle := (json.value "resourceTitle").toString,
        borrowDate := borrowDate,
        dueDate := dueDate,
        returnDate := c.fromString (json.value "returnDate").toString,
        status := stringToStatus (json.value "status").toString,
        renewalCount := (json.value "renewalCount").toInt 0,
        maxRenewals := (json.value "maxRenewals").toInt 0,
        fineAmount := (json.value "fineAmount").toDouble,
        notes := (json.value "notes").toString }
  | _, _ => none

end Loan

/-- A rendering of date-times as tally marks after a sign, one mark per second; it
shows that `IsoDate.RoundTrips` can be met. -/
def tallyDate : IsoDate :=
  { toString := fun t =>
      if 0 ≤ t / 1000 then String.mk ('+' :: List.replicate (t / 1000).toNat '|')
      else String.mk ('-' :: List.replicate (-(t / 1000)).toNat '|'),
    fromString := fun s =>
      match s.data with
      | '+' :: rest => some ((rest.length : Int) * 1000)
      | '-' :: rest => some (-(rest.length : Int) * 1000)
      | _ => none }

/-! ## Further operations of `Reservation` and of the manager -/

namespace Reservation

/-- Counterpart of `Reservation::fulfillReservation`. -/
def fulfillReservation (r : Reservation) (now : QDateTime) : Except Exception Reservation :=
  if !r.canBeFulfilled now then
    .error (.ReservationException "Cannot fulfill reservation: either expired or not active")
  else .ok { r with status := ReservationStatus.Fulfilled }

/-- Counterpart of `Reservation::extendReservation`. -/
def extendReservation (r : Reservation) (additionalDays : Int) :
    Except Exception Reservation :=
  if r.status != ReservationStatus.Active then
    .error (.ReservationException "Can only extend active reservations")
  else .ok { r with expirationDate := addDays r.expirationDate additionalDays }

end Reservation

namespace LibraryManager

/-- Counterpart of `LibraryManager::setDefaultLoanPeriod`. -/
def setDefaultLoanPeriod (m : LibraryManager) (days : Int) : LibraryManager :=
  { m with defaultLoanPeriodDays := days }

end LibraryManager

/-- The stocked library after `setDefaultLoanPeriod(0)`. -/
def hastyLibrary : LibraryManager := stockedLibrary.setDefaultLoanPeriod 0

/-- A reservation that the sweep has marked `Expired`. -/
def sampleExpired : Reservation :=
  { reservationId := "RES_x", userId := "U2", resourceId := "B1",
    resourceTitle := "Algebra", reservationDate := 2000, expirationDate := 604802000,
    status := ReservationStatus.Expired, notes := "" }

/-! ## Text patterns of Qt; construction and setters of `User` -/

/-- The pattern matching and the URL check of Qt that the validation code calls:
`QRegularExpression(p).match(s).hasMatch()` for the pattern `p` written in
`User::isValidEmail`, in `Book::isValidIsbn` and in `Article::isValidDoi`, and
`QUrl(s).isValid()`. They are library code outside the repository. -/
structure QtText where
  emailPattern : String → Bool
  isbnPattern : String → Bool
  doiPattern : String → Bool
  urlIsValid : String → Bool

namespace User

/-- Counterpart of `User::isValidEmail`. -/
def isValidEmail (q : QtText) (email : String) : Bool :=
  if email.isEmpty then false else q.emailPattern email

/-- Counterpart of `User::validateUserData`. -/
def validateUserData (q : QtText) (u : User) : Except Exception Unit :=
  if u.userId.isEmpty then .error (.UserException "User ID cannot be empty")
  else if u.firstName.isEmpty then .error (.UserException "First name cannot be empty")
  else if u.lastName.isEmpty then .error (.UserException "Last name cannot be empty")
  else if !isValidEmail q u.email then .error (.UserException "Invalid email format")
  else .ok ()

/-- Counterpart of `User::setDefaultBorrowLimit`. -/
def setDefaultBorrowLimit (u : User) : User :=
  match u.userType with
  | UserType.Student => { u with maxBorrowLimit := 5 }
  | UserType.Teacher => { u with maxBorrowLimit := 20 }
  | UserType.Staff => { u with maxBorrowLimit := 10 }
  | UserType.Administrator => { u with maxBorrowLimit := 15 }
  | UserType.Guest => { u with maxBorrowLimit := 2 }

/-- Counterpart of the constructor `User::User`; the borrow limit, not initialised
before `setDefaultBorrowLimit` assigns it, is written `0` until then. -/
def new (q : QtText) (userId firstName lastName email : String) (userType : UserType)
    (now : QDateTime) : Except Exception User :=
  let u : User :=
    { userId := userId, firstName := firstName, lastName := lastName, email := email,
      phoneNumber := "", address := "", userType := userType,
      status := UserStatus.Active, registrationDate := now, lastActivity := now,
      maxBorrowLimit := 0, notes := "",
      year := if userType == UserType.Student then 1 else -1,
      currentLoans := [], loanHistory := [] }
  match u.validateUserData q with
  | .error e => .error e
  | .ok _ => .ok (u.setDefaultBorrowLimit.updateLastActivity now)

/-- Counterpart of `User::setPhoneNumber`. -/
def setPhoneNumber (u : User) (phoneNumber : String) : User :=
  { u with phoneNumber := phoneNumber }

/-- Counterpart of `User::setAddress`. -/
def setAddress (u : User) (address : String) : User := { u with address := address }

/-- Counterpart of `User::setUserType`. -/
def setUserType (u : User) (userType : UserType) : User :=
  setDefaultBorrowLimit { u with userType := userType }

/-- Counterpart of `User::setStatus`. -/
def setStatus (u : User) (status : UserStatus) : User := { u with status := status }

/-- Counterpart of `User::setMaxBorrowLimit`. -/
def setMaxBorrowLimit (u : User) (limit : Int) : Except Exception User :=
  if limit < 0 then .error (.UserException "Borrow limit cannot be negative")
  else .ok { u with maxBorrowLimit := limit }

/-- Counterpart of `User::setNotes`. -/
def setNotes (u : User) (notes : String) : User := { u with notes := notes }

/-- Counterpart of `User::setYear`. -/
def setYear (u : User) (year : Int) : Except Exception User :=
  if u.userType == UserType.Student then
    if year < 1 || year > 5 then
      .error (.UserException "Student year must be between 1 and 5")
    else .ok { u with year := year }
  else .ok { u with year := -1 }

/-- What `user.h` says of `m_year`: "For students: 1st-5th year, -1 for
non-students". -/
def YearInRange (u : User) : Prop :=
  if u.userType = UserType.Student then 1 ≤ u.year ∧ u.year ≤ 5 else u.year = -1

instance (u : User) : Decidable u.YearInRange := by
  unfold YearInRange
  infer_instance

end User

/-- A call of `setUserType` or of `setYear` on a user. -/
inductive UserCall where
  | setUserType (userType : UserType)
  | setYear (year : Int)
  deriving DecidableEq, Repr

/-- The user after a call; a call that throws leaves the user as it was. -/
def UserCall.apply (u : User) : UserCall → User
  | .setUserType userType => u.setUserType userType
  | .setYear year =>
    match u.setYear year with
    | .ok u1 => u1
    | .error _ => u

/-- A stand-in for the text functions of Qt on the sample data: an e-mail address is
a text with an `@`, an ISBN or a DOI is any non-empty text, every URL is valid. -/
def sampleQt : QtText :=
  { emailPattern := fun s => s.data.contains '@',
    isbnPattern := fun s => !s.isEmpty,
    doiPattern := fun s => !s.isEmpty,
    urlIsValid := fun _ => true }

/-- A teacher, as `User("U5", "Alan", "Turing", "alan@ensia.edu.dz",
UserType::Teacher)` builds it at time 500. -/
def sampleTeacher : User :=
  { userId := "U5", firstName := "Alan", lastName := "Turing",
    email := "alan@ensia.edu.dz", phoneNumber := "", address := "",
    userType := UserType.Teacher, status := UserStatus.Active, registrationDate := 500,
    lastActivity := 500, maxBorrowLimit := 20, notes := "", year := -1,
    currentLoans := [], loanHistory := [] }

/-! ## The resource variants (`models/book.cpp`, `article.cpp`, `thesis.cpp`,
`digitalcontent.cpp`) and their JSON documents -/

namespace QJsonValue

/-- Counterpart of `QJsonValue::toBool()`. -/
def toBool : QJsonValue → Bool
  | bool b => b
  | _ => false

/-- Counterpart of `QJsonValue::toArray()`: the empty array when the value is not an
array. -/
def toArray : QJsonValue → List QJsonValue
  | array items => items
  | _ => []

/-- Counterpart of `QJsonValue::toObject()`: the empty object when the value is not an
object. -/
def toObject : QJsonValue → QJsonObject
  | object members => members
  | _ => []

/-- Counterpart of `QJsonValue::isObject()`. -/
def isObject : QJsonValue → Bool
  | object _ => true
  | _ => false

end QJsonValue

namespace Resource

/-- Counterpart of the constructor `Resource::Resource`; `currentYear` is the year of
`QDateTime::currentDateTime()`. -/
def new (id title author : String) (publicationYear : Int) (category : ResourceCategory)
    (now : QDateTime) (currentYear : Int) : Except Exception Resource :=
  if id.isEmpty then .error (.ResourceException "Resource ID cannot be empty")
  else if title.isEmpty then .error (.ResourceException "Resource title cannot be empty")
  else if author.isEmpty then
    .error (.ResourceException "Resource author cannot be empty")
  else if publicationYear < 1000 || publicationYear > currentYear then
    .error (.ResourceException "Invalid publication year")
  else
    .ok { id := id, title := title, author := author,
          publicationYear := publicationYear, category := category,
          status := ResourceStatus.Available, dateAdded := now, description := "" }

/-- Counterpart of `Resource::setTitle`. -/
def setTitle (r : Resource) (title : String) : Except Exception Resource :=
  if title.isEmpty then .error (.ResourceException "Title cannot be empty")
  else .ok { r with title := title }

/-- Counterpart of `Resource::setAuthor`. -/
def setAuthor (r : Resource) (author : String) : Except Exception Resource :=
  if author.isEmpty then .error (.ResourceException "Author cannot be empty")
  else .ok { r with author := author }

/-- Counterpart of `Resource::setPublicationYear`. -/
def setPublicationYear (r : Resource) (year : Int) (currentYear : Int) :
    Except Exception Resource :=
  if year < 1000 || year > currentYear then
    .error (.ResourceException
      ("Invalid publication year: must be between 1000 and " ++ toString currentYear))
  else .ok { r with publicationYear := year }

/-- Counterpart of `Resource::setCategory`. -/
def setCategory (r : Resource) (category : ResourceCategory) : Resource :=
  { r with category := category }

/-- Counterpart of `Resource::setDescription`. -/
def setDescription (r : Resource) (description : String) : Resource :=
  { r with description := description }

/-- Counterpart of `Resource::categoryToString`. -/
def categoryToString : ResourceCategory → String
  | ResourceCategory.Book => "Book"
  | ResourceCategory.Article => "Article"
  | ResourceCategory.Thesis => "Thesis"
  | ResourceCategory.DigitalContent => "Digital Content"
  | ResourceCategory.Other => "Other"

/-- Counterpart of `Resource::stringToCategory`. -/
def stringToCategory (categoryStr : String) : ResourceCategory :=
  if categoryStr == "Book" then ResourceCategory.Book
  else if categoryStr == "Article" then ResourceCategory.Article
  else if categoryStr == "Thesis" then ResourceCategory.Thesis
  else if categoryStr == "Digital Content" then ResourceCategory.DigitalContent
  else if categoryStr == "Other" then ResourceCategory.Other
  else ResourceCategory.Other

/-- Counterpart of `Resource::statusToString`. -/
def statusToString : ResourceStatus → String
  | ResourceStatus.Available => "Available"
  | ResourceStatus.Borrowed => "Borrowed"
  | ResourceStatus.Reserved => "Reserved"
  | ResourceStatus.Maintenance => "Maintenance"
  | ResourceStatus.Lost => "Lost"

/-- Counterpart of `Resource::stringToStatus`. -/
def stringToStatus (statusStr : String) : ResourceStatus :=
  if statusStr == "Available" then ResourceStatus.Available
  else if statusStr == "Borrowed" then ResourceStatus.Borrowed
  else if statusStr == "Reserved" then ResourceStatus.Reserved
  else if statusStr == "Maintenance" then ResourceStatus.Maintenance
  else if statusStr == "Lost" then ResourceStatus.Lost
  else ResourceStatus.Available

/-- The part of `toJson` that the four variants share: the fields of the base class
and the `type` tag. -/
def baseJson (c : IsoDate) (r : Resource) (resourceType : String) : QJsonObject :=
  let json : QJsonObject := []
  let json := json.insert "id" (.string r.id)
  let json := json.insert "type" (.string resourceType)
  let json := json.insert "title" (.string r.title)
  let json := json.insert "author" (.string r.author)
  let json := json.insert "publicationYear" (.double r.publicationYear)
  let json := json.insert "category" (.string (categoryToString r.category))
  let json := json.insert "status" (.string (statusToString r.status))
  let json := json.insert "dateAdded" (.string (c.toString r.dateAdded))
  json.insert "description" (.string r.description)

/-- The part of `fromJson` that the four variants share: the setters of the base
class, in the order of the source; `yearDefault` is the default of the `toInt` that
reads the year (none, that is `0`, in `Book` and `Article`, `2024` in `Thesis` and
`DigitalContent`). -/
def baseFromJson (r : Resource) (json : QJsonObject) (yearDefault : Int)
    (currentYear : Int) : Except Exception Resource :=
  match r.setTitle (json.value "title").toString with
  | .error e => .error e
  | .ok r1 =>
    match r1.setAuthor (json.value "author").toString with
    | .error e => .error e
    | .ok r2 =>
      match r2.setPublicationYear ((json.value "publicationYear").toInt yearDefault)
          currentYear with
      | .error e => .error e
      | .ok r3 =>
        let r4 := r3.setCategory (stringToCategory (json.value "category").toString)
        let r5 := r4.setStatus (stringToStatus (json.value "status").toString)
        .ok (r5.setDescription (json.value "description").toString)

end Resource

/-- The fields of class `Book`, after those of `Resource`. -/
structure Book extends Resource where
  isbn : String
  publisher : String
  pageCount : Int
  language : String
  genre : String
  isHardcover : Bool
  deriving DecidableEq, Repr

namespace Book

/-- Counterpart of `Book::isValidIsbn`. -/
def isValidIsbn (q : QtText) (isbn : String) : Bool :=
  if isbn.isEmpty then false
  else
    let cleanIsbn := String.mk (isbn.data.filter (fun ch => ch != '-' && ch != ' '))
    if cleanIsbn.length == 10 || cleanIsbn.length == 13 then q.isbnPattern cleanIsbn
    else false

/-- Counterpart of `Book::validateBookData`. -/
def validateBookData (q : QtText) (b : Book) : Except Exception Unit :=
  if !b.isbn.isEmpty && !isValidIsbn q b.isbn then
    .error (.ResourceException "Invalid ISBN format")
  else if b.publisher.isEmpty then .error (.ResourceException "Publisher cannot be empty")
  else if b.pageCount < 0 then .error (.ResourceException "Page count cannot be negative")
  else .ok ()

/-- Counterpart of the constructor `Book::Book`: the constructor of the base class
runs first. -/
def new (q : QtText) (id title author : String) (publicationYear : Int)
    (isbn publisher : String) (pageCount : Int) (language genre : String)
    (isHardcover : Bool) (now : QDateTime) (currentYear : Int) : Except Exception Book :=
  match Resource.new id title author publicationYear ResourceCategory.Book now
      currentYear with
  | .error e => .error e
  | .ok base =>
    let b : Book :=
      { toResource := base, isbn := isbn, publisher := publisher, pageCount := pageCount,
        language := language, genre := genre, isHardcover := isHardcover }
    match b.validateBookData q with
    | .error e => .error e
    | .ok _ => .ok b

/-- Counterpart of `Book::getResourceType`. -/
def getResourceType (_b : Book) : String := "Book"

/-- Counterpart of `Book::toJson`. -/
def toJson (c : IsoDate) (b : Book) : QJsonObject :=
  let json := b.toResource.baseJson c b.getResourceType
  let json := json.insert "isbn" (.string b.isbn)
  let json := json.insert "publisher" (.string b.publisher)
  let json := json.insert "pageCount" (.double b.pageCount)
  let json := json.insert "language" (.string b.language)
  let json := json.insert "genre" (.string b.genre)
  json.insert "isHardcover" (.bool b.isHardcover)

/-- Counterpart of `Book::fromJson`; the id is not read. -/
def fromJson (b : Book) (json : QJsonObject) (currentYear : Int) : Except Exception Book :=
  match b.toResource.baseFromJson json 0 currentYear with
  | .error e => .error e
  | .ok base =>
    .ok { toResource := base,
          isbn := (json.value "isbn").toString,
          publisher := (json.value "publisher").toString,
          pageCount := (json.value "pageCount").toInt 0,
          language := (json.value "language").toString,
          genre := (json.value "genre").toString,
          isHardcover := (json.value "isHardcover").toBool }

end Book

/-- The fields of class `Article`, after those of `Resource`. -/
structure Article extends Resource where
  journal : String
  volume : Int
  issue : Int
  pageRange : String
  doi : String
  abstract : String
  keywords : List String
  researchField : String
  deriving DecidableEq, Repr

namespace Article

/-- Counterpart of `Article::isValidDoi`. -/
def isValidDoi (q : QtText) (doi : String) : Bool :=
  if doi.isEmpty then true else q.doiPattern doi

/-- Counterpart of `Article::validateArticleData`. -/
def validateArticleData (q : QtText) (a : Article) : Except Exception Unit :=
  if a.journal.isEmpty then .error (.ResourceException "Journal name cannot be empty")
  else if a.volume < 0 then .error (.ResourceException "Volume number cannot be negative")
  else if a.issue < 0 then .error (.ResourceException "Issue number cannot be negative")
  else if !a.doi.isEmpty && !isValidDoi q a.doi then
    .error (.ResourceException "Invalid DOI format")
  else .ok ()

/-- Counterpart of the constructor `Article::Article`. -/
def new (q : QtText) (id title author : String) (publicationYear : Int)
    (journal : String) (volume issue : Int) (pageRange doi researchField : String)
    (now : QDateTime) (currentYear : Int) : Except Exception Article :=
  match Resource.new id title author publicationYear ResourceCategory.Article now
      currentYear with
  | .error e => .error e
  | .ok base =>
    let a : Article :=
      { toResource := base, journal := journal, volume := volume, issue := issue,
        pageRange := pageRange, doi := doi, abstract := "", keywords := [],
        researchField := researchField }
    match a.validateArticleData q with
    | .error e => .error e
    | .ok _ => .ok a

/-- Counterpart of `Article::getResourceType`. -/
def getResourceType (_a : Article) : String := "Article"

/-- Counterpart of `Article::toJson`. -/
def toJson (c : IsoDate) (a : Article) : QJsonObject :=
  let json := a.toResource.baseJson c a.getResourceType
  let json := json.insert "journal" (.string a.journal)
  let json := json.insert "volume" (.double a.volume)
  let json := json.insert "issue" (.double a.issue)
  let json := json.insert "pageRange" (.string a.pageRange)
  let json := json.insert "doi" (.string a.doi)
  let json := json.insert "abstract" (.string a.abstract)
  let json := json.insert "researchField" (.string a.researchField)
  json.insert "keywords" (.array (a.keywords.map QJsonValue.string))

/-- Counterpart of `Article::fromJson`; the id is not read. -/
def fromJson (a : Article) (json : QJsonObject) (currentYear : Int) :
    Except Exception Article :=
  match a.toResource.baseFromJson json 0 currentYear with
  | .error e => .error e
  | .ok base =>
    .ok { toResource := base,
          journal := (json.value "journal").toString,
          volume := (json.value "volume").toInt 0,
          issue := (json.value "issue").toInt 0,
          pageRange := (json.value "pageRange").toString,
          doi := (json.value "doi").toString,
          abstract := (json.value "abstract").toString,
          researchField := (json.value "researchField").toString,
          keywords := (json.value "keywords").toArray.map QJsonValue.toString }

end Article

/-- Enumeration `Thesis::DegreeLevel`. -/
inductive DegreeLevel where
  | Bachelors | Masters | PhD | Postdoc
  deriving DecidableEq, Repr

/-- The fields of class `Thesis`, after those of `Resource`. -/
structure Thesis extends Resource where
  supervisor : String
  university : String
  department : String
  degreeLevel : DegreeLevel
  keywords : String
  deriving DecidableEq, Repr

namespace Thesis

/-- Counterpart of `Thesis::degreeLevelToString`. -/
def degreeLevelToString : DegreeLevel → String
  | DegreeLevel.Bachelors => "Bachelor's"
  | DegreeLevel.Masters => "Master's"
  | DegreeLevel.PhD => "PhD"
  | DegreeLevel.Postdoc => "Postdoc"

/-- Counterpart of `Thesis::stringToDegreeLevel`. -/
def stringToDegreeLevel (levelStr : String) : DegreeLevel :=
  if levelStr == "Master's" then DegreeLevel.Masters
  else if levelStr == "PhD" then DegreeLevel.PhD
  else if levelStr == "Postdoc" then DegreeLevel.Postdoc
  else DegreeLevel.Bachelors

/-- Counterpart of `Thesis::initializeThesis`. -/
def initializeThesis (t : Thesis) : Thesis := { t with degreeLevel := DegreeLevel.Bachelors }

/-- Counterpart of `Thesis::validateThesisData`, whose body is empty. -/
def validateThesisData (_t : Thesis) : Except Exception Unit := .ok ()

/-- Counterpart of the constructor `Thesis::Thesis`. -/
def new (id title author : String) (publicationYear : Int) (now : QDateTime)
    (currentYear : Int) : Except Exception Thesis :=
  match Resource.new id title author publicationYear ResourceCategory.Thesis now
      currentYear with
  | .error e => .error e
  | .ok base =>
    let t : Thesis :=
      { toResource := base, supervisor := "", university := "", department := "",
        degreeLevel := DegreeLevel.Bachelors, keywords := "" }
    let t1 := t.initializeThesis
    match t1.validateThesisData with
    | .error e => .error e
    | .ok _ => .ok t1

/-- Counterpart of `Thesis::getResourceType`. -/
def getResourceType (_t : Thesis) : String := "Thesis"

/-- Counterpart of `Thesis::toJson`. -/
def toJson (c : IsoDate) (t : Thesis) : QJsonObject :=
  let json := t.toResource.baseJson c t.getResourceType
  let json := json.insert "supervisor" (.string t.supervisor)
  let json := json.insert "university" (.string t.university)
  let json := json.insert "department" (.string t.department)
  let json := json.insert "degreeLevel" (.string (degreeLevelToString t.degreeLevel))
  json.insert "keywords" (.string t.keywords)

/-- Counterpart of `Thesis::fromJson`; the id is not read. -/
def fromJson (t : Thesis) (json : QJsonObject) (currentYear : Int) :
    Except Exception Thesis :=
  match t.toResource.baseFromJson json 2024 currentYear with
  | .error e => .error e
  | .ok base =>
    .ok { toResource := base,
          supervisor := (json.value "supervisor").toString,
          university := (json.value "university").toString,
          department := (json.value "department").toString,
          degreeLevel := stringToDegreeLevel (json.value "degreeLevel").toString,
          keywords := (json.value "keywords").toString }

end Thesis

/-- Enumeration `DigitalContent::ContentType`. -/
inductive ContentType where
  | EBook | AudioBook | Video | Document | Software | Database | WebResource
  deriving DecidableEq, Repr

/-- Enumeration `DigitalContent::AccessType`. -/
inductive AccessType where
  | Online | Download | Streaming
  deriving DecidableEq, Repr

/-- The fields of class `DigitalContent`, after those of `Resource`; the `QUrl` is
kept as its text. -/
structure DigitalContent extends Resource where
  contentType : ContentType
  accessType : AccessType
  fileFormat : String
  fileSize : String
  url : String
  platform : String
  requiresAuthentication : Bool
  simultaneousUsers : Int
  systemRequirements : String
  deriving DecidableEq, Repr

namespace DigitalContent

/-- Counterpart of `DigitalContent::contentTypeToString`. -/
def contentTypeToString : ContentType → String
  | ContentType.EBook => "E-Book"
  | ContentType.AudioBook => "Audio Book"
  | ContentType.Video => "Video"
  | ContentType.Document => "Document"
  | ContentType.Software => "Software"
  | ContentType.Database => "Database"
  | ContentType.WebResource => "Web Resource"

/-- Counterpart of `DigitalContent::stringToContentType`. -/
def stringToContentType (typeStr : String) : ContentType :=
  if typeStr == "Audio Book" then ContentType.AudioBook
  else if typeStr == "Video" then ContentType.Video
  else if typeStr == "Document" then ContentType.Document
  else if typeStr == "Software" then ContentType.Software
  else if typeStr == "Database" then ContentType.Database
  else if typeStr == "Web Resource" then ContentType.WebResource
  else ContentType.EBook

/-- Counterpart of `DigitalContent::accessTypeToString`. -/
def accessTypeToString : AccessType → String
  | AccessType.Online => "Online"
  | AccessType.Download => "Download"
  | AccessType.Streaming => "Streaming"

/-- Counterpart of `DigitalContent::stringToAccessType`. -/
def stringToAccessType (typeStr : String) : AccessType :=
  if typeStr == "Download" then AccessType.Download
  else if typeStr == "Streaming" then AccessType.Streaming
  else AccessType.Online

/-- Counterpart of `DigitalContent::initializeDigitalContent`. -/
def initializeDigitalContent (d : DigitalContent) : DigitalContent :=
  { d with simultaneousUsers := 1, requiresAuthentication := false }

/-- Counterpart of `DigitalContent::validateDigitalContentData`. -/
def validateDigitalContentData (q : QtText) (d : DigitalContent) : Except Exception Unit :=
  if d.accessType == AccessType.Online && !q.urlIsValid d.url && !d.url.isEmpty then
    .error (.DigitalContentException "Invalid URL for online content")
  else .ok ()

/-- Counterpart of the constructor `DigitalContent::DigitalContent`. -/
def new (q : QtText) (id title author : String) (publicationYear : Int)
    (now : QDateTime) (currentYear : Int) : Except Exception DigitalContent :=
  match Resource.new id title author publicationYear ResourceCategory.DigitalContent now
      currentYear with
  | .error e => .error e
  | .ok base =>
    let d : DigitalContent :=
      { toResource := base, contentType := ContentType.EBook,
        accessType := AccessType.Online, fileFormat := "", fileSize := "", url := "",
        platform := "", requiresAuthentication := false, simultaneousUsers := 1,
        systemRequirements := "" }
    let d1 := d.initializeDigitalContent
    match d1.validateDigitalContentData q with
    | .error e => .error e
    | .ok _ => .ok d1

/-- Counterpart of `DigitalContent::getResourceType`. -/
def getResourceType (_d : DigitalContent) : String := "Digital Content"

/-- Counterpart of `DigitalContent::toJson`. -/
def toJson (c : IsoDate) (d : DigitalContent) : QJsonObject :=
  let json := d.toResource.baseJson c d.getResourceType
  let json := json.insert "contentType" (.string (contentTypeToString d.contentType))
  let json := json.insert "accessType" (.string (accessTypeToString d.accessType))
  let json := json.insert "fileFormat" (.string d.fileFormat)
  let json := json.insert "fileSize" (.string d.fileSize)
  let json := json.insert "url" (.string d.url)
  let json := json.insert "platform" (.string d.platform)
  let json := json.insert "requiresAuthentication" (.bool d.requiresAuthentication)
  let json := json.insert "simultaneousUsers" (.double d.simultaneousUsers)
  json.insert "systemRequirements" (.string d.systemRequirements)

/-- Counterpart of `DigitalContent::fromJson`; the id is not read. -/
def fromJson (d : DigitalContent) (json : QJsonObject) (currentYear : Int) :
    Except Exception DigitalContent :=
  match d.toResource.baseFromJson json 2024 currentYear with
  | .error e => .error e
  | .ok base =>
    .ok { toResource := base,
          contentType := stringToContentType (json.value "contentType").toString,
          accessType := stringToAccessType (json.value "accessType").toString,
          fileFormat := (json.value "fileFormat").toString,
          fileSize := (json.value "fileSize").toString,
          url := (json.value "url").toString,
          platform := (json.value "platform").toString,
          requiresAuthentication := (json.value "requiresAuthentication").toBool,
          simultaneousUsers := (json.value "simultaneousUsers").toInt 1,
          systemRequirements := (json.value "systemRequirements").toString }

end DigitalContent

/-- A resource behind a `Resource*`: an object of one of the four concrete
classes. -/
inductive AnyResource where
  | book (b : Book)
  | article (a : Article)
  | thesis (t : Thesis)
  | digitalContent (d : DigitalContent)
  deriving DecidableEq, Repr

namespace AnyResource

/-- The base-class part of the object. -/
def toResource : AnyResource → Resource
  | book b => b.toResource
  | article a => a.toResource
  | thesis t => t.toResource
  | digitalContent d => d.toResource

/-- The virtual call `resource->toJson()`. -/
def toJson (c : IsoDate) : AnyResource → QJsonObject
  | book b => b.toJson c
  | article a => a.toJson c
  | thesis t => t.toJson c
  | digitalContent d => d.toJson c

end AnyResource

/-! ## The persistence service (`services/persistence_service.cpp`) -/

namespace PersistenceService

/-- Counterpart of `PersistenceService::createResourceFromJson`; `none` is the null
pointer returned for an unknown `type`. -/
def createResourceFromJson (q : QtText) (json : QJsonObject) (now : QDateTime)
    (currentYear : Int) : Except Exception (Option AnyResource) :=
  let type := (json.value "type").toString
  if type == "Book" then
    match Book.new q "" "" "" 2000 "" "" 0 "English" "" false now currentYear with
    | .error e => .error e
    | .ok book =>
      match book.fromJson json currentYear with
      | .error e => .error e
      | .ok book1 => .ok (some (.book book1))
  else if type == "Article" then
    match Article.new q "" "" "" 2000 "" 0 0 "" "" "" now currentYear with
    | .error e => .error e
    | .ok article =>
      match article.fromJson json currentYear with
      | .error e => .error e
      | .ok article1 => .ok (some (.article article1))
  else if type == "Thesis" then
    match Thesis.new "" "" "" 2000 now currentYear with
    | .error e => .error e
    | .ok thesis =>
      match thesis.fromJson json currentYear with
      | .error e => .error e
      | .ok thesis1 => .ok (some (.thesis thesis1))
  else if type == "Digital Content" then
    match DigitalContent.new q "" "" "" 2000 now currentYear with
    | .error e => .error e
    | .ok digitalContent =>
      match digitalContent.fromJson json currentYear with
      | .error e => .error e
      | .ok digitalContent1 => .ok (some (.digitalContent digitalContent1))
  else .ok none

/-- Counterpart of `PersistenceService::resourcesToJsonArray`. -/
def resourcesToJsonArray (c : IsoDate) : List AnyResource → List QJsonValue
  | [] => []
  | resource :: rest => .object (resource.toJson c) :: resourcesToJsonArray c rest

/-- The document that `PersistenceService::saveResources` hands to
`writeJsonToFile`. -/
def saveResources (c : IsoDate) (resources : List AnyResource) (now : QDateTime) :
    QJsonObject :=
  let resourcesArray := resourcesToJsonArray c resources
  let root : QJsonObject := []
  let root := root.insert "version" (.string "1.0")
  let root := root.insert "type" (.string "resources")
  let root := root.insert "timestamp" (.string (c.toString now))
  let root := root.insert "count" (.double resourcesArray.length)
  root.insert "data" (.array resourcesArray)

/-- The loop of `PersistenceService::saveLibraryData` that fills `resourcesCopy` from
`getAllResources()`: the two `dynamic_cast` tests, `Book` then `Article`. -/
def resourcesCopy : List AnyResource → List AnyResource → List AnyResource
  | [], copy => copy
  | .book b :: rest, copy => resourcesCopy rest (copy ++ [.book b])
  | .article a :: rest, copy => resourcesCopy rest (copy ++ [.article a])
  | _ :: rest, copy => resourcesCopy rest copy

/-- The resources document of `PersistenceService::saveLibraryData`, for the
catalogue that `getAllResources()` returns. -/
def saveLibraryDataResources (c : IsoDate) (catalogue : List AnyResource)
    (now : QDateTime) : QJsonObject :=
  saveResources c (resourcesCopy catalogue []) now

end PersistenceService

namespace AnyResource

/-- The objects that pass one of the two `dynamic_cast` tests of `saveLibraryData`. -/
def isBookOrArticle : AnyResource → Bool
  | book _ => true
  | article _ => true
  | _ => false

end AnyResource

namespace User

/-- Counterpart of `User::userTypeToString`. -/
def userTypeToString : UserType → String
  | UserType.Student => "Student"
  | UserType.Teacher => "Teacher"
  | UserType.Staff => "Staff"
  | UserType.Administrator => "Administrator"
  | UserType.Guest => "Guest"

/-- Counterpart of `User::stringToUserType`. -/
def stringToUserType (typeStr : String) : UserType :=
  if typeStr == "Student" then UserType.Student
  else if typeStr == "Teacher" then UserType.Teacher
  else if typeStr == "Staff" then UserType.Staff
  else if typeStr == "Administrator" then UserType.Administrator
  else if typeStr == "Guest" then UserType.Guest
  else UserType.Student

/-- Counterpart of `User::statusToString`. -/
def statusToString : UserStatus → String
  | UserStatus.Active => "Active"
  | UserStatus.Inactive => "Inactive"
  | UserStatus.Suspended => "Suspended"
  | UserStatus.Expired => "Expired"

/-- Counterpart of `User::stringToStatus`. -/
def stringToStatus (statusStr : String) : UserStatus :=
  if statusStr == "Active" then UserStatus.Active
  else if statusStr == "Inactive" then UserStatus.Inactive
  else if statusStr == "Suspended" then UserStatus.Suspended
  else if statusStr == "Expired" then UserStatus.Expired
  else UserStatus.Active

/-- The loops of `User::toJson` that turn a list of loans into a JSON array. -/
def loansToJsonArray (c : IsoDate) : List Loan → List QJsonValue
  | [] => []
  | loan :: rest => .object (loan.toJson c) :: loansToJsonArray c rest

/-- Counterpart of `User::toJson`. -/
def toJson (c : IsoDate) (u : User) : QJsonObject :=
  let json : QJsonObject := []
  let json := json.insert "userId" (.string u.userId)
  let json := json.insert "firstName" (.string u.firstName)
  let json := json.insert "lastName" (.string u.lastName)
  let json := json.insert "email" (.string u.email)
  let json := json.insert "phoneNumber" (.string u.phoneNumber)
  let json := json.insert "address" (.string u.address)
  let json := json.insert "userType" (.string (userTypeToString u.userType))
  let json := json.insert "status" (.string (statusToString u.status))
  let json := json.insert "registrationDate" (.string (c.toString u.registrationDate))
  let json := json.insert "lastActivity" (.string (c.toString u.lastActivity))
  let json := json.insert "maxBorrowLimit" (.double u.maxBorrowLimit)
  let json := json.insert "notes" (.string u.notes)
  let json := json.insert "year" (.double u.year)
  let json := json.insert "currentLoans" (.array (loansToJsonArray c u.currentLoans))
  json.insert "loanHistory" (.array (loansToJsonArray c u.loanHistory))

end User

namespace Loan

/-- The placeholder `Loan("", "", "", "", QDateTime(), QDateTime())` that the
persistence code builds before it calls `fromJson`; the two null date-times, equal to
each other, are written as the instant `0`. -/
def placeholder (now : QDateTime) : Except Exception Loan :=
  Loan.new "" "" "" "" 0 0 3 now

end Loan

namespace PersistenceService

/-- The loop of `PersistenceService::createUserFromJson` over the `currentLoans`
array. The result `none` stands for a user holding a loan with a null borrow or due
date, which `Loan.fromJson` leaves outside the model. -/
def loadCurrentLoans (c : IsoDate) (now : QDateTime) :
    List QJsonValue → User → Except Exception (Option User)
  | [], user => .ok (some user)
  | value :: rest, user =>
    match Loan.placeholder now with
    | .error e => .error e
    | .ok loan =>
      match Loan.fromJson c loan value.toObject with
      | none => .ok none
      | some loan1 =>
        match user.addCurrentLoan (some loan1) now with
        | .error e => .error e
        | .ok user1 => loadCurrentLoans c now rest user1

/-- Counterpart of `PersistenceService::createUserFromJson`. -/
def createUserFromJson (q : QtText) (c : IsoDate) (json : QJsonObject)
    (now : QDateTime) : Except Exception (Option User) :=
  let userId := (json.value "userId").toString
  let firstName := (json.value "firstName").toString
  let lastName := (json.value "lastName").toString
  let email := (json.value "email").toString
  match User.new q userId firstName lastName email UserType.Student now with
  | .error e => .error e
  | .ok user =>
    let user1 := user.setPhoneNumber (json.value "phoneNumber").toString
    let user2 := user1.setAddress (json.value "address").toString
    let user3 := user2.setUserType (User.stringToUserType (json.value "userType").toString)
    let user4 := user3.setStatus (User.stringToStatus (json.value "status").toString)
    match user4.setMaxBorrowLimit ((json.value "maxBorrowLimit").toInt 0) with
    | .error e => .error e
    | .ok user5 =>
      let user6 := user5.setNotes (json.value "notes").toString
      match user6.setYear ((json.value "year").toInt (-1)) with
      | .error e => .error e
      | .ok user7 => loadCurrentLoans c now (json.value "currentLoans").toArray user7

end PersistenceService

/-- The book `Book("B1", "Algebra", "Lang", 2002, "", "Springer")` added at time 0. -/
def sampleBookObject : Book :=
  { toResource := sampleBook, isbn := "", publisher := "Springer", pageCount := 0,
    language := "English", genre := "", isHardcover := false }

/-- The thesis `Thesis("T1", "Computable numbers", "Turing", 1938)` added at
time 0. -/
def sampleThesis : Thesis :=
  { id := "T1", title := "Computable numbers", author := "Turing",
    publicationYear := 1938, category := ResourceCategory.Thesis,
    status := ResourceStatus.Available, dateAdded := 0, description := "",
    supervisor := "", university := "", department := "",
    degreeLevel := DegreeLevel.Bachelors, keywords := "" }

/-- The student of the lending library, who holds `sampleLoan`. -/
def sampleBorrower : User :=
  { sampleStudent with currentLoans := [sampleLoan], lastActivity := 1000 }

/-! ## Overdue loans, and the loans of a user against those of the manager -/

namespace User

/-- Counterpart of `User::hasOverdueItems`. -/
def hasOverdueItems (u : User) (now : QDateTime) : Bool :=
  u.currentLoans.any (fun loan => loan.isOverdue now)

end User

namespace LibraryManager

/-- Counterpart of `LibraryManager::getOverdueLoans`. -/
def getOverdueLoans (m : LibraryManager) (now : QDateTime) : List Loan :=
  m.activeLoans.filter (fun loan => loan.isOverdue now)

/-- Counterpart of `LibraryManager::getUsersWithOverdueItems`. -/
def getUsersWithOverdueItems (m : LibraryManager) (now : QDateTime) : List User :=
  m.users.filter (fun user => user.hasOverdueItems now)

/-- The current loans of every user are, id by id and in the same order, the active
loans of the manager that name the user, and every active loan names a user of the
manager. -/
def LoansMirrored (m : LibraryManager) : Prop :=
  (∀ u ∈ m.users,
    u.currentLoans.map (fun l => l.loanId) =
      (m.activeLoans.filter (fun l => l.userId == u.userId)).map (fun l => l.loanId)) ∧
  (∀ l ∈ m.activeLoans, l.userId ∈ m.users.map (fun u => u.userId))

/-- Every call of `addUser` in the sequence hands over a user without current
loans. -/
def AddsNoLoanHolders (ops : List Op) : Prop :=
  ∀ u : User, Op.addUser (some u) ∈ ops → u.currentLoans = []

end LibraryManager

/-- The lending library after the loan was renewed for 14 days at time 2000. -/
def renewedLibrary : LibraryManager :=
  LibraryManager.run (lendingOps ++ [.renewLoan "LOAN_a" 14 2000])

/-- The lending library after the loan was returned at time 3000. -/
def returnedLibrary : LibraryManager :=
  LibraryManager.run (lendingOps ++ [.returnResource "LOAN_a" 3000])

/-- The manager after `addUser` of a user who already holds a loan. -/
def preloadedLibrary : LibraryManager :=
  LibraryManager.run [.addUser (some sampleBorrower)]

/-! # Theorems -/

/-! ## Lemmas on lists -/

theorem modifyFirst_split {α : Type} (p : α → Bool) (f : α → α) :
    ∀ (l : List α) (a : α), l.find? p = some a →
      ∃ l₁ l₂, l = l₁ ++ a :: l₂ ∧ (∀ b ∈ l₁, p b = false) ∧ p a = true ∧
        modifyFirst p f l = l₁ ++ f a :: l₂ ∧ l.eraseP p = l₁ ++ l₂ := by
  intro l
  induction l with
  | nil => intro a h; simp at h
  | cons x xs ih =>
    intro a h
    by_cases hx : p x = true
    · have hxa : x = a := by simpa [List.find?, hx] using h
      subst hxa
      exact ⟨[], xs, by simp, by simp, hx, by simp [modifyFirst, hx], by simp [hx]⟩
    · have hx' : p x = false := by simpa using hx
      have h' : xs.find? p = some a := by simpa [List.find?, hx'] using h
      obtain ⟨l₁, l₂, h1, h2, h3, h4, h5⟩ := ih a h'
      refine ⟨x :: l₁, l₂, by simp [h1], ?_, h3, by simp [modifyFirst, hx', h4], ?_⟩
      · intro b hb
        rcases List.mem_cons.mp hb with rfl | hb
        · exact hx'
        · exact h2 b hb
      · simp [List.eraseP_cons, hx', h5]

theorem modifyFirst_of_find?_none {α : Type} (p : α → Bool) (f : α → α) :
    ∀ (l : List α), l.find? p = none → modifyFirst p f l = l := by
  intro l
  induction l with
  | nil => intro _; rfl
  | cons x xs ih =>
    intro h
    by_cases hx : p x = true
    · simp [List.find?, hx] at h
    · have hx' : p x = false := by simpa using hx
      have h' : xs.find? p = none := by simpa [List.find?, hx'] using h
      simp [modifyFirst, hx', ih h']

theorem find?_append_cons_of_first {α : Type} (p : α → Bool) (l₁ l₂ : List α) (a : α)
    (h1 : ∀ b ∈ l₁, p b = false) (ha : p a = true) :
    (l₁ ++ a :: l₂).find? p = some a := by
  induction l₁ with
  | nil => simp [List.find?, ha]
  | cons x xs ih =>
    have hx : p x = false := h1 x (by simp)
    have := ih (fun b hb => h1 b (by simp [hb]))
    simpa [List.find?, hx] using this

theorem find?_modifyFirst {α : Type} (p : α → Bool) (f : α → α) (l : List α) (a : α)
    (h : l.find? p = some a) (hf : p (f a) = true) :
    (modifyFirst p f l).find? p = some (f a) := by
  obtain ⟨l₁, l₂, _, h2, _, h4, _⟩ := modifyFirst_split p f l a h
  rw [h4]
  exact find?_append_cons_of_first p l₁ l₂ (f a) h2 hf

theorem string_isEmpty_eq_false {s : String} (h : s ≠ "") : s.isEmpty = false := by
  cases hs : s.isEmpty with
  | false => rfl
  | true => exact absurd ((String.isEmpty_iff s).mp hs) h

theorem generateLoanId_ne_empty (uuid : String) : Loan.generateLoanId uuid ≠ "" := by
  intro h
  have := congrArg String.length h
  simp [Loan.generateLoanId, String.length_append] at this
  exact absurd this.1 (by decide)


/-! ## Borrowing -/

theorem Loan.new_ok (loanId userId resourceId title : String) (now : QDateTime)
    (days : Int) (h1 : loanId ≠ "") (h2 : userId ≠ "") (h3 : resourceId ≠ "")
    (hd : 0 < days) :
    Loan.new loanId userId resourceId title now (addDays now days) 3 now =
      .ok { loanId := loanId, userId := userId, resourceId := resourceId,
            resourceTitle := title, borrowDate := now, dueDate := addDays now days,
            returnDate := none, status := LoanStatus.Active, renewalCount := 0,
            maxRenewals := 3, fineAmount := 0, notes := "" } := by
  have hlt : (now : Int) < addDays now days := by
    have hpos : (0 : Int) < days * msPerDay := Int.mul_pos hd (by decide)
    exact lt_add_of_pos_right now hpos
  have hnle : ¬ (addDays now days ≤ now) := not_le.mpr hlt
  have hngt : ¬ (now > addDays now days) := not_lt.mpr (le_of_lt hlt)
  simp [Loan.new, Loan.validateLoanData, Loan.updateStatus, Loan.isOverdue,
    string_isEmpty_eq_false h1, string_isEmpty_eq_false h2, string_isEmpty_eq_false h3,
    hnle, hngt]

theorem User.addCurrentLoan_ok (u : User) (l : Loan) (now : QDateTime)
    (h : u.canBorrow = true) :
    u.addCurrentLoan (some l) now =
      .ok { u with currentLoans := u.currentLoans ++ [l], lastActivity := now } := by
  have h2 : u.hasMaxLoansReached = false := by
    simp [User.canBorrow] at h
    exact h.2
  simp [User.addCurrentLoan, h2, User.updateLastActivity]

/-- C2: when the resource designated by `resourceId` exists and its status is not
`Available`, `borrowResource` throws and the manager (catalogue, users with their
loans, active loans, loan history, both reservation collections, signal log) is
unchanged. -/
theorem borrowResource_unavailable_fails (m : LibraryManager)
    (userId resourceId : String) (now : QDateTime) (uuid : String) (r : Resource)
    (hr : m.findResourceById resourceId = some r)
    (hs : r.status ≠ ResourceStatus.Available) :
    (∃ e, (m.borrowResource userId resourceId now uuid).1 = .error e) ∧
      (m.borrowResource userId resourceId now uuid).2 = m := by
  have hav : r.isAvailable = false := by simp [Resource.isAvailable, hs]
  unfold LibraryManager.borrowResource
  cases hu : m.findUserById userId with
  | none => simp
  | some user =>
    simp only [hr]
    cases hc : user.canBorrow with
    | false => simp
    | true => simp [hav]

theorem borrowResource_eq_of_ok (m : LibraryManager) (userId resourceId : String)
    (now : QDateTime) (uuid : String) (user : User) (resource : Resource)
    (hperiod : 0 < m.defaultLoanPeriodDays)
    (hu : m.findUserById userId = some user) (hcan : user.canBorrow = true)
    (hr : m.findResourceById resourceId = some resource)
    (havail : resource.status = ResourceStatus.Available)
    (huid : userId ≠ "") (hrid : resourceId ≠ "") :
    m.borrowResource userId resourceId now uuid =
      (.ok (Loan.generateLoanId uuid),
        { m with
          resources :=
            modifyFirst (fun r => r.id == resourceId)
              (fun r => r.setStatus ResourceStatus.Borrowed) m.resources,
          users :=
            modifyFirst (fun u => u.userId == userId)
              (fun _ =>
                { user with
                  currentLoans := user.currentLoans ++
                    [{ loanId := Loan.generateLoanId uuid, userId := userId,
                       resourceId := resourceId, resourceTitle := resource.title,
                       borrowDate := now,
                       dueDate := addDays now m.defaultLoanPeriodDays,
                       returnDate := none, status := LoanStatus.Active,
                       renewalCount := 0, maxRenewals := 3, fineAmount := 0,
                       notes := "" }],
                  lastActivity := now }) m.users,
          activeLoans := m.activeLoans ++
            [{ loanId := Loan.generateLoanId uuid, userId := userId,
               resourceId := resourceId, resourceTitle := resource.title,
               borrowDate := now, dueDate := addDays now m.defaultLoanPeriodDays,
               returnDate := none, status := LoanStatus.Active, renewalCount := 0,
               maxRenewals := 3, fineAmount := 0, notes := "" }],
          emitted := m.emitted ++
            [Signal.resourceBorrowed (Loan.generateLoanId uuid) userId resourceId] }) := by
  have hav : resource.isAvailable = true := by simp [Resource.isAvailable, havail]
  have hdue : m.calculateDueDate 0 now = addDays now m.defaultLoanPeriodDays := by
    simp [LibraryManager.calculateDueDate]
  unfold LibraryManager.borrowResource
  simp only [hu, hr, hcan, hav, hdue, Bool.not_true, Bool.false_eq_true, if_false,
    Loan.new_ok _ _ _ _ now _ (generateLoanId_ne_empty uuid) huid hrid hperiod,
    User.addCurrentLoan_ok _ _ now hcan, LibraryManager.emit]

/-- C3: with a positive default loan period, an existing user who is `Active` and
below the borrow limit, and an existing `Available` resource (ids non-empty, as
the constructors of `User` and `Resource` and `addUser`/`addResource` enforce),
`borrowResource` returns a new loan id; the active loans are the old ones followed
by one loan with that id, the given user and resource ids, the title of the
resource, `borrowDate = now`, `dueDate = now + defaultLoanPeriodDays` days, status
`Active` and no renewal; the resource becomes `Borrowed`; the same loan is appended
to the current loans of the user. -/
theorem borrowResource_succeeds (m : LibraryManager) (userId resourceId : String)
    (now : QDateTime) (uuid : String) (user : User) (resource : Resource)
    (hperiod : 0 < m.defaultLoanPeriodDays)
    (hu : m.findUserById userId = some user)
    (hactive : user.status = UserStatus.Active)
    (hlimit : (user.currentLoans.length : Int) < user.maxBorrowLimit)
    (hr : m.findResourceById resourceId = some resource)
    (havail : resource.status = ResourceStatus.Available)
    (huid : userId ≠ "") (hrid : resourceId ≠ "") :
    ∃ loan : Loan,
      (m.borrowResource userId resourceId now uuid).1 = .ok loan.loanId ∧
      loan.loanId = Loan.generateLoanId uuid ∧
      loan.userId = userId ∧ loan.resourceId = resourceId ∧
      loan.resourceTitle = resource.title ∧
      loan.borrowDate = now ∧
      loan.dueDate = addDays now m.defaultLoanPeriodDays ∧
      loan.returnDate = none ∧
      loan.status = LoanStatus.Active ∧ loan.renewalCount = 0 ∧
      (m.borrowResource userId resourceId now uuid).2.activeLoans =
        m.activeLoans ++ [loan] ∧
      (m.borrowResource userId resourceId now uuid).2.findResourceById resourceId =
        some { resource with status := ResourceStatus.Borrowed } ∧
      (m.borrowResource userId resourceId now uuid).2.findUserById userId =
        some { user with currentLoans := user.currentLoans ++ [loan],
                         lastActivity := now } := by
  have hcan : user.canBorrow = true := by
    simp [User.canBorrow, User.hasMaxLoansReached, hactive, hlimit]
  have hpu : (user.userId == userId) = true := by
    have := List.find?_some hu
    simpa using this
  have hpr : (resource.id == resourceId) = true := by
    have := List.find?_some hr
    simpa using this
  rw [borrowResource_eq_of_ok m userId resourceId now uuid user resource hperiod hu hcan
    hr havail huid hrid]
  refine ⟨_, rfl, rfl, rfl, rfl, rfl, rfl, rfl, rfl, rfl, rfl, rfl, ?_, ?_⟩
  · exact find?_modifyFirst _ _ m.resources resource hr hpr
  · exact find?_modifyFirst _ _ m.users user hu hpu

/-! ## Returning -/

theorem Loan.returnItem_eq (l : Loan) (now : QDateTime) :
    l.returnItem now =
      { l with returnDate := some now, status := LoanStatus.Returned } := by
  simp [Loan.returnItem, Loan.isOverdue]

theorem eraseP_append_cons_of_first {α : Type} (p : α → Bool) (l₁ l₂ : List α) (a : α)
    (h1 : ∀ b ∈ l₁, p b = false) (ha : p a = true) :
    (l₁ ++ a :: l₂).eraseP p = l₁ ++ l₂ := by
  induction l₁ with
  | nil => simp [ha]
  | cons x xs ih =>
    have hx : p x = false := h1 x (by simp)
    have := ih (fun b hb => h1 b (by simp [hb]))
    simp [List.eraseP_cons, hx, this]

theorem eraseP_modifyFirst {α : Type} (p : α → Bool) (f : α → α) (l : List α) (a : α)
    (h : l.find? p = some a) (hf : p (f a) = true) :
    (modifyFirst p f l).eraseP p = l.eraseP p := by
  obtain ⟨l₁, l₂, _, h2, _, h4, h5⟩ := modifyFirst_split p f l a h
  rw [h4, h5]
  exact eraseP_append_cons_of_first p l₁ l₂ (f a) h2 hf

theorem processLoanReturn_moveLoanToHistory (m : LibraryManager) (loanId : String)
    (now : QDateTime) (loan : Loan) (h : m.findLoan loanId = some loan) :
    (m.processLoanReturn loanId now).moveLoanToHistory loanId =
      { m with
        users :=
          modifyFirst (fun u => u.userId == loan.userId)
            (fun u => u.moveLoanToHistory loanId now) m.users,
        activeLoans := m.activeLoans.eraseP (fun l => l.loanId == loanId),
        loanHistory := m.loanHistory ++
          [{ loan with returnDate := some now, status := LoanStatus.Returned }] } := by
  have h' : m.activeLoans.find? (fun l => l.loanId == loanId) = some loan := h
  have hp : (loan.loanId == loanId) = true := by
    have := List.find?_some h'
    simpa using this
  have hid : loan.loanId = loanId := by simpa using hp
  have hp2 : ((loan.returnItem now).loanId == loanId) = true := by
    simpa [Loan.returnItem_eq] using hp
  have hfind := find?_modifyFirst (fun l : Loan => l.loanId == loanId)
    (fun l => l.returnItem now) m.activeLoans loan h' hp2
  have herase := eraseP_modifyFirst (fun l : Loan => l.loanId == loanId)
    (fun l => l.returnItem now) m.activeLoans loan h' hp2
  unfold LibraryManager.processLoanReturn
  simp only [h]
  simp only [LibraryManager.findUserById]
  cases hu : m.users.find? (fun u => u.userId == loan.userId) with
  | none =>
    have hm := modifyFirst_of_find?_none (fun u : User => u.userId == loan.userId)
      (fun u => u.moveLoanToHistory loanId now) m.users hu
    simp only [LibraryManager.moveLoanToHistory, LibraryManager.findLoan, hfind, herase, hm]
    simp only [Loan.returnItem_eq]
  | some u =>
    simp only [LibraryManager.moveLoanToHistory, LibraryManager.findLoan, hfind, herase]
    simp only [Loan.returnItem_eq, hid]

/-- The manager just before the reservation notification of `returnResource`. -/
theorem returnResource_eq (m : LibraryManager) (loanId : String) (now : QDateTime)
    (loan : Loan) (h : m.findLoan loanId = some loan) :
    m.returnResource loanId now =
      (true,
        LibraryManager.notifyWhenResourceAvailable
          { m with
            resources :=
              modifyFirst (fun r => r.id == loan.resourceId)
                (fun r => r.setStatus ResourceStatus.Available) m.resources,
            users :=
              modifyFirst (fun u => u.userId == loan.userId)
                (fun u => u.moveLoanToHistory loanId now) m.users,
            activeLoans := m.activeLoans.eraseP (fun l => l.loanId == loanId),
            loanHistory := m.loanHistory ++
              [{ loan with returnDate := some now, status := LoanStatus.Returned }],
            emitted := m.emitted ++
              [Signal.resourceReturned loanId loan.userId loan.resourceId] }
          loan.resourceId now) := by
  unfold LibraryManager.returnResource
  simp only [h]
  cases hf : m.findResourceById loan.resourceId with
  | some r =>
    have key := processLoanReturn_moveLoanToHistory
      ({ m with resources :=
          (modifyFirst (fun r => r.id == loan.resourceId)
            (fun r => r.setStatus ResourceStatus.Available) m.resources) })
      loanId now loan h
    simp only [key, LibraryManager.emit]
  | none =>
    have hm := modifyFirst_of_find?_none (fun r : Resource => r.id == loan.resourceId)
      (fun r => r.setStatus ResourceStatus.Available) m.resources hf
    have key := processLoanReturn_moveLoanToHistory m loanId now loan h
    simp only [key, hm, LibraryManager.emit]

theorem notifyWhenResourceAvailable_eq (m : LibraryManager) (resourceId : String)
    (now : QDateTime) :
    ∃ sigs, m.notifyWhenResourceAvailable resourceId now =
      { m with emitted := m.emitted ++ sigs } := by
  unfold LibraryManager.notifyWhenResourceAvailable
  split
  · exact ⟨[], by simp⟩
  · split
    · exact ⟨_, rfl⟩
    · exact ⟨[], by simp⟩

theorem returnResource_not_found (m : LibraryManager) (loanId : String) (now : QDateTime)
    (h : ∀ l ∈ m.activeLoans, l.loanId ≠ loanId) :
    m.returnResource loanId now = (false, m) := by
  have hnone : m.findLoan loanId = none := by
    unfold LibraryManager.findLoan
    rw [List.find?_eq_none]
    intro l hl
    simpa using h l hl
  unfold LibraryManager.returnResource
  simp only [hnone]

theorem returnResource_loans (m : LibraryManager) (loanId : String) (now : QDateTime)
    (loan : Loan) (h : m.findLoan loanId = some loan) :
    (m.returnResource loanId now).1 = true ∧
    (m.returnResource loanId now).2.loanHistory =
      m.loanHistory ++
        [{ loan with status := LoanStatus.Returned, returnDate := some now }] ∧
    (m.returnResource loanId now).2.activeLoans =
      m.activeLoans.eraseP (fun l => l.loanId == loanId) := by
  obtain ⟨sigs, hn⟩ := notifyWhenResourceAvailable_eq
    ({ m with
      resources :=
        (modifyFirst (fun r => r.id == loan.resourceId)
          (fun r => r.setStatus ResourceStatus.Available) m.resources),
      users :=
        (modifyFirst (fun u => u.userId == loan.userId)
          (fun u => u.moveLoanToHistory loanId now) m.users),
      activeLoans := m.activeLoans.eraseP (fun l => l.loanId == loanId),
      loanHistory := m.loanHistory ++
        [{ loan with returnDate := some now, status := LoanStatus.Returned }],
      emitted := m.emitted ++
        [Signal.resourceReturned loanId loan.userId loan.resourceId] })
    loan.resourceId now
  rw [returnResource_eq m loanId now loan h, hn]
  exact ⟨rfl, rfl, rfl⟩

theorem User.moveLoanToHistory_of_find (u : User) (loanId : String) (now : QDateTime)
    (c : Loan) (h : u.currentLoans.find? (fun l => l.loanId == loanId) = some c) :
    u.moveLoanToHistory loanId now =
      { u with loanHistory := u.loanHistory ++ [c],
               currentLoans := u.currentLoans.eraseP (fun l => l.loanId == loanId),
               lastActivity := now } := by
  simp [User.moveLoanToHistory, h, User.updateLastActivity]

theorem User.moveLoanToHistory_of_not_mem (u : User) (loanId : String) (now : QDateTime)
    (h : ∀ l ∈ u.currentLoans, l.loanId ≠ loanId) :
    u.moveLoanToHistory loanId now = u := by
  have hnone : u.currentLoans.find? (fun l => l.loanId == loanId) = none := by
    rw [List.find?_eq_none]
    intro l hl
    simpa using h l hl
  simp [User.moveLoanToHistory, hnone]

theorem User.moveLoanToHistory_userId (u : User) (loanId : String) (now : QDateTime) :
    (u.moveLoanToHistory loanId now).userId = u.userId := by
  unfold User.moveLoanToHistory
  split <;> rfl

theorem not_mem_eraseP_of_count_one {α : Type} (p : α → Bool) (l : List α)
    (h : l.countP p = 1) : ∀ b ∈ l.eraseP p, p b = false := by
  have hpos : 0 < l.countP p := by omega
  obtain ⟨a, ha, hpa⟩ := List.countP_pos_iff.mp hpos
  obtain ⟨a', l₁, l₂, h1, h2, h3, h4⟩ := List.exists_of_eraseP ha hpa
  rw [h3, List.countP_append, List.countP_cons_of_pos _ _ h2] at h
  intro b hb
  rw [h4] at hb
  have hc1 : l₁.countP p = 0 := by omega
  have hc2 : l₂.countP p = 0 := by omega
  rcases List.mem_append.mp hb with hb | hb
  · have := List.countP_eq_zero.mp hc1 b hb
    simpa using this
  · have := List.countP_eq_zero.mp hc2 b hb
    simpa using this

/-- C4 (amended): for a loan id present among the active loans, `returnResource`
returns `true`; the first resource with the referenced id, if any, becomes
`Available`; the (first) active loan with that id leaves the active loans and is
appended to the loan history with status `Returned` and `returnDate = now`; the
owning user, if present, has the first current loan with that id, if any, moved to
the end of the loan history of the user (when the user held exactly one, none
remains; when the user held none, the user is unchanged); all other resources,
users, loans and the reservations are unchanged. -/
theorem returnResource_effect (m : LibraryManager) (loanId : String) (now : QDateTime)
    (loan : Loan) (h : m.findLoan loanId = some loan) :
    (m.returnResource loanId now).1 = true ∧
    (m.returnResource loanId now).2.resources =
      modifyFirst (fun r => r.id == loan.resourceId)
        (fun r => { r with status := ResourceStatus.Available }) m.resources ∧
    (∀ r, m.findResourceById loan.resourceId = some r →
      (m.returnResource loanId now).2.findResourceById loan.resourceId =
        some { r with status := ResourceStatus.Available }) ∧
    (m.returnResource loanId now).2.loanHistory =
      m.loanHistory ++
        [{ loan with status := LoanStatus.Returned, returnDate := some now }] ∧
    (m.returnResource loanId now).2.activeLoans =
      m.activeLoans.eraseP (fun l => l.loanId == loanId) ∧
    (m.returnResource loanId now).2.users =
      modifyFirst (fun u => u.userId == loan.userId)
        (fun u => u.moveLoanToHistory loanId now) m.users ∧
    (∀ u, m.findUserById loan.userId = some u →
      (m.returnResource loanId now).2.findUserById loan.userId =
        some (u.moveLoanToHistory loanId now) ∧
      (∀ c, u.currentLoans.find? (fun l => l.loanId == loanId) = some c →
        u.moveLoanToHistory loanId now =
          { u with loanHistory := u.loanHistory ++ [c],
                   currentLoans := u.currentLoans.eraseP (fun l => l.loanId == loanId),
                   lastActivity := now }) ∧
      (u.currentLoans.countP (fun l => l.loanId == loanId) = 1 →
        ∀ l ∈ (u.moveLoanToHistory loanId now).currentLoans, l.loanId ≠ loanId) ∧
      ((∀ l ∈ u.currentLoans, l.loanId ≠ loanId) →
        u.moveLoanToHistory loanId now = u)) ∧
    (m.returnResource loanId now).2.activeReservations = m.activeReservations ∧
    (m.returnResource loanId now).2.reservationHistory = m.reservationHistory := by
  obtain ⟨sigs, hn⟩ := notifyWhenResourceAvailable_eq
    ({ m with
      resources :=
        (modifyFirst (fun r => r.id == loan.resourceId)
          (fun r => r.setStatus ResourceStatus.Available) m.resources),
      users :=
        (modifyFirst (fun u => u.userId == loan.userId)
          (fun u => u.moveLoanToHistory loanId now) m.users),
      activeLoans := m.activeLoans.eraseP (fun l => l.loanId == loanId),
      loanHistory := m.loanHistory ++
        [{ loan with returnDate := some now, status := LoanStatus.Returned }],
      emitted := m.emitted ++
        [Signal.resourceReturned loanId loan.userId loan.resourceId] })
    loan.resourceId now
  rw [returnResource_eq m loanId now loan h, hn]
  refine ⟨rfl, rfl, ?_, rfl, rfl, rfl, ?_, rfl, rfl⟩
  · intro r hr
    have hp : (r.id == loan.resourceId) = true := by
      have := List.find?_some hr
      simpa using this
    exact find?_modifyFirst _ _ m.resources r hr hp
  · intro u hu
    have hp : (u.userId == loan.userId) = true := by
      have := List.find?_some hu
      simpa using this
    refine ⟨?_, ?_, ?_, ?_⟩
    · refine find?_modifyFirst _ _ m.users u hu ?_
      simpa [User.moveLoanToHistory_userId] using hp
    · intro c hc
      exact User.moveLoanToHistory_of_find u loanId now c hc
    · intro hcount l hl
      have hpos : 0 < u.currentLoans.countP (fun l => l.loanId == loanId) := by omega
      obtain ⟨a, ha, hpa⟩ := List.countP_pos_iff.mp hpos
      cases hfind : u.currentLoans.find? (fun l => l.loanId == loanId) with
      | none =>
        rw [List.find?_eq_none] at hfind
        exact absurd hpa (hfind a ha)
      | some c =>
        rw [User.moveLoanToHistory_of_find u loanId now c hfind] at hl
        have := not_mem_eraseP_of_count_one _ _ hcount l hl
        simpa using this
    · intro hnot
      exact User.moveLoanToHistory_of_not_mem u loanId now hnot

theorem modifyFirst_congr {α : Type} (p : α → Bool) (f g : α → α) :
    ∀ (l : List α) (a : α), l.find? p = some a → f a = g a →
      modifyFirst p f l = modifyFirst p g l := by
  intro l
  induction l with
  | nil => intro a h; simp at h
  | cons x xs ih =>
    intro a h hfg
    by_cases hx : p x = true
    · have hxa : x = a := by simpa [List.find?, hx] using h
      subst hxa
      simp [modifyFirst, hx, hfg]
    · have hx' : p x = false := by simpa using hx
      have h' : xs.find? p = some a := by simpa [List.find?, hx'] using h
      simp [modifyFirst, hx', ih a h' hfg]

theorem not_mem_eraseP_of_nodup_map {α β : Type} (p : α → Bool) (g : α → β)
    (l : List α) (a : α) (hfind : l.find? p = some a) (hnd : (l.map g).Nodup)
    (hpg : ∀ b, p b = true → g b = g a) :
    ∀ b ∈ l.eraseP p, p b = false := by
  obtain ⟨l₁, l₂, h1, h2, h3, _, h5⟩ := modifyFirst_split p id l a hfind
  rw [h5]
  rw [h1, List.map_append, List.map_cons] at hnd
  have hnd2 := (List.nodup_append.mp hnd).2.1
  have hnot : g a ∉ l₂.map g := (List.nodup_cons.mp hnd2).1
  intro b hb
  rcases List.mem_append.mp hb with hb | hb
  · exact h2 b hb
  · cases hpb : p b with
    | false => rfl
    | true =>
      exact absurd (List.mem_map.mpr ⟨b, hb, hpg b hpb⟩) hnot

/-- C5: when the ids of the active loans are pairwise distinct and `loanId` is
among them, after `returnResource` no active loan carries `loanId` and the loan
history holds exactly one more loan with that id; a second `returnResource` on the
same id, at any time, returns `false` and leaves the manager unchanged; and on any
manager `returnResource` on an id that no active loan carries returns `false` and
leaves the manager unchanged. -/
theorem returnResource_once (m : LibraryManager) (loanId : String) (now : QDateTime)
    (loan : Loan) (hnd : (m.activeLoans.map (fun l => l.loanId)).Nodup)
    (h : m.findLoan loanId = some loan) :
    (m.returnResource loanId now).1 = true ∧
    (∀ l ∈ (m.returnResource loanId now).2.activeLoans, l.loanId ≠ loanId) ∧
    (m.returnResource loanId now).2.loanHistory.countP (fun l => l.loanId == loanId) =
      m.loanHistory.countP (fun l => l.loanId == loanId) + 1 ∧
    (∀ later : QDateTime,
      (m.returnResource loanId now).2.returnResource loanId later =
        (false, (m.returnResource loanId now).2)) ∧
    (∀ (m₀ : LibraryManager) (id₀ : String) (now₀ : QDateTime),
      (∀ l ∈ m₀.activeLoans, l.loanId ≠ id₀) →
        m₀.returnResource id₀ now₀ = (false, m₀)) := by
  have h' : m.activeLoans.find? (fun l => l.loanId == loanId) = some loan := h
  have hid : loan.loanId = loanId := by
    have := List.find?_some h'
    simpa using this
  obtain ⟨h1, h4, h5⟩ := returnResource_loans m loanId now loan h
  have habsent : ∀ l ∈ (m.returnResource loanId now).2.activeLoans, l.loanId ≠ loanId := by
    intro l hl
    rw [h5] at hl
    have := not_mem_eraseP_of_nodup_map (fun l : Loan => l.loanId == loanId)
      (fun l => l.loanId) m.activeLoans loan h' hnd
      (by intro b hb; simp at hb; simp [hb, hid]) l hl
    simpa using this
  refine ⟨h1, habsent, ?_, ?_, ?_⟩
  · rw [h4, List.countP_append]
    simp [List.countP_cons, hid]
  · intro later
    exact returnResource_not_found _ loanId later habsent
  · intro m₀ id₀ now₀ h₀
    exact returnResource_not_found m₀ id₀ now₀ h₀

/-! ## Renewing -/

/-- C6: for the active loan designated by `loanId`, at any time and for any day
count, `renewLoan` throws and leaves the manager (hence the loan and every
collection) unchanged whenever the renewal count has reached the maximum, or the
loan is overdue (`now > dueDate`), or its status is neither `Active` nor
`Renewed`. -/
theorem renewLoan_refused (m : LibraryManager) (loanId : String) (days : Int)
    (now : QDateTime) (loan : Loan) (h : m.findLoan loanId = some loan)
    (hbad : loan.renewalCount ≥ loan.maxRenewals ∨ now > loan.dueDate ∨
      (loan.status ≠ LoanStatus.Active ∧ loan.status ≠ LoanStatus.Renewed)) :
    (∃ e, (m.renewLoan loanId days now).1 = .error e) ∧
      (m.renewLoan loanId days now).2 = m := by
  have hcan : loan.canBeRenewed now = false := by
    unfold Loan.canBeRenewed Loan.isOverdue
    rcases hbad with hc | hd | ⟨hs1, hs2⟩
    · have : ¬ (loan.renewalCount < loan.maxRenewals) := not_lt.mpr hc
      simp [this]
    · cases hst : loan.status <;> simp [hd]
    · simp [hs1, hs2]
  unfold LibraryManager.renewLoan
  simp [h, hcan]

/-- C7: for the active loan designated by `loanId`, with status `Active` or
`Renewed`, fewer renewals than the maximum and `now ≤ dueDate`, `renewLoan` returns
the new due date, which is the old one plus `days` days, raises the renewal count
by one and sets the status to `Renewed`; the other fields of the loan, the other
active loans and the rest of the manager (apart from the signal emitted) are
unchanged. -/
theorem renewLoan_succeeds (m : LibraryManager) (loanId : String) (days : Int)
    (now : QDateTime) (loan : Loan) (h : m.findLoan loanId = some loan)
    (hs : loan.status = LoanStatus.Active ∨ loan.status = LoanStatus.Renewed)
    (hc : loan.renewalCount < loan.maxRenewals) (hd : now ≤ loan.dueDate) :
    (m.renewLoan loanId days now).1 = .ok (some (addDays loan.dueDate days)) ∧
    (m.renewLoan loanId days now).2 =
      { m with
        activeLoans :=
          modifyFirst (fun l => l.loanId == loanId)
            (fun l => { l with dueDate := addDays l.dueDate days,
                               renewalCount := l.renewalCount + 1,
                               status := LoanStatus.Renewed }) m.activeLoans,
        emitted := m.emitted ++ [Signal.loanRenewed loanId (addDays loan.dueDate days)] } ∧
    (∃ before after,
      m.activeLoans = before ++ loan :: after ∧
      (∀ l ∈ before, l.loanId ≠ loanId) ∧
      (m.renewLoan loanId days now).2.activeLoans =
        before ++ { loan with dueDate := addDays loan.dueDate days,
                              renewalCount := loan.renewalCount + 1,
                              status := LoanStatus.Renewed } :: after) ∧
    (m.renewLoan loanId days now).2.loanHistory = m.loanHistory := by
  have h' : m.activeLoans.find? (fun l => l.loanId == loanId) = some loan := h
  have hnd : ¬ (now > loan.dueDate) := not_lt.mpr hd
  have hcan : loan.canBeRenewed now = true := by
    unfold Loan.canBeRenewed Loan.isOverdue
    rcases hs with hs | hs <;> simp [hs, hc, hnd]
  obtain ⟨l₁, l₂, e1, e2, _, e4, _⟩ := modifyFirst_split (fun l : Loan => l.loanId == loanId)
    (fun l => { l with dueDate := addDays l.dueDate days,
                       renewalCount := l.renewalCount + 1,
                       status := LoanStatus.Renewed }) m.activeLoans loan h'
  have hstate : m.renewLoan loanId days now =
      (.ok (some (addDays loan.dueDate days)),
        { m with
          activeLoans :=
            modifyFirst (fun l => l.loanId == loanId)
              (fun _ => { loan with dueDate := addDays loan.dueDate days,
                                    renewalCount := loan.renewalCount + 1,
                                    status := LoanStatus.Renewed }) m.activeLoans,
          emitted := m.emitted ++
            [Signal.loanRenewed loanId (addDays loan.dueDate days)] }) := by
    unfold LibraryManager.renewLoan
    simp [h, hcan, Loan.renewLoan, LibraryManager.emit]
  have hsame : modifyFirst (fun l => l.loanId == loanId)
      (fun _ => { loan with dueDate := addDays loan.dueDate days,
                            renewalCount := loan.renewalCount + 1,
                            status := LoanStatus.Renewed }) m.activeLoans =
      modifyFirst (fun l => l.loanId == loanId)
        (fun l => { l with dueDate := addDays l.dueDate days,
                           renewalCount := l.renewalCount + 1,
                           status := LoanStatus.Renewed }) m.activeLoans :=
    modifyFirst_congr _ _ _ m.activeLoans loan h' rfl
  rw [hstate]
  refine ⟨rfl, ?_, ⟨l₁, l₂, e1, ?_, ?_⟩, rfl⟩
  · simp only [hsame]
  · intro l hl
    simpa using e2 l hl
  · simp only [hsame, e4]

/-! ## Reserving -/

/-- C8: when the resource designated by `resourceId` exists with status
`Available`, `reserveResource` throws and the manager is unchanged; in particular
no reservation is created in the active reservations or the reservation history. -/
theorem reserveResource_available_fails (m : LibraryManager)
    (userId resourceId : String) (now : QDateTime) (uuid : String) (r : Resource)
    (hr : m.findResourceById resourceId = some r)
    (hs : r.status = ResourceStatus.Available) :
    (∃ e, (m.reserveResource userId resourceId now uuid).1 = .error e) ∧
      (m.reserveResource userId resourceId now uuid).2 = m ∧
      (m.reserveResource userId resourceId now uuid).2.activeReservations =
        m.activeReservations ∧
      (m.reserveResource userId resourceId now uuid).2.reservationHistory =
        m.reservationHistory := by
  have hav : r.isAvailable = true := by simp [Resource.isAvailable, hs]
  have key : (∃ e, (m.reserveResource userId resourceId now uuid).1 = .error e) ∧
      (m.reserveResource userId resourceId now uuid).2 = m := by
    unfold LibraryManager.reserveResource
    cases hu : m.findUserById userId with
    | none => simp
    | some user =>
      simp only [hr]
      cases hc : user.canBorrow with
      | false => simp
      | true =>
        cases hany : m.activeReservations.any
            (fun r => r.userId == userId && r.resourceId == resourceId && r.isActive) with
        | true => simp
        | false => simp [hav]
  exact ⟨key.1, key.2, by rw [key.2], by rw [key.2]⟩

theorem mem_modifyFirst {α : Type} (p : α → Bool) (f : α → α) :
    ∀ (l : List α) (b : α), b ∈ modifyFirst p f l →
      b ∈ l ∨ ∃ a ∈ l, p a = true ∧ b = f a := by
  intro l
  induction l with
  | nil => intro b hb; simp [modifyFirst] at hb
  | cons x xs ih =>
    intro b hb
    by_cases hx : p x = true
    · simp only [modifyFirst, hx, if_true, List.mem_cons] at hb
      rcases hb with rfl | hb
      · exact Or.inr ⟨x, by simp, hx, rfl⟩
      · exact Or.inl (by simp [hb])
    · have hx' : p x = false := by simpa using hx
      simp only [modifyFirst, hx', Bool.false_eq_true, if_false, List.mem_cons] at hb
      rcases hb with rfl | hb
      · exact Or.inl (by simp)
      · rcases ih b hb with h | ⟨a, ha, hpa, rfl⟩
        · exact Or.inl (by simp [h])
        · exact Or.inr ⟨a, by simp [ha], hpa, rfl⟩

theorem mem_modifyFirst_of_not {α : Type} (p : α → Bool) (f : α → α) :
    ∀ (l : List α) (a : α), a ∈ l → p a = false → a ∈ modifyFirst p f l := by
  intro l
  induction l with
  | nil => intro a ha; simp at ha
  | cons x xs ih =>
    intro a ha hpa
    by_cases hx : p x = true
    · simp only [modifyFirst, hx, if_true, List.mem_cons]
      rcases List.mem_cons.mp ha with rfl | ha
      · rw [hpa] at hx; exact absurd hx (by simp)
      · exact Or.inr ha
    · have hx' : p x = false := by simpa using hx
      simp only [modifyFirst, hx', Bool.false_eq_true, if_false, List.mem_cons]
      rcases List.mem_cons.mp ha with rfl | ha
      · exact Or.inl rfl
      · exact Or.inr (ih a ha hpa)

theorem map_modifyFirst {α β : Type} (p : α → Bool) (f : α → α) (g : α → β)
    (hg : ∀ a, g (f a) = g a) : ∀ l : List α, (modifyFirst p f l).map g = l.map g := by
  intro l
  induction l with
  | nil => rfl
  | cons x xs ih =>
    by_cases hx : p x = true
    · simp [modifyFirst, hx, hg]
    · have hx' : p x = false := by simpa using hx
      simp [modifyFirst, hx', ih]

theorem map_modifyFirst_const {α β : Type} (p : α → Bool) (g : α → β) (l : List α)
    (a c : α) (h : l.find? p = some a) (hc : g c = g a) :
    (modifyFirst p (fun _ => c) l).map g = l.map g := by
  obtain ⟨l₁, l₂, h1, _, _, h4, _⟩ := modifyFirst_split p (fun _ => c) l a h
  rw [h4]
  conv_rhs => rw [h1]
  simp [hc]

theorem Loan.new_resourceId (loanId userId resourceId title : String)
    (borrowDate dueDate : QDateTime) (maxRenewals : Int) (now : QDateTime) (loan : Loan)
    (h : Loan.new loanId userId resourceId title borrowDate dueDate maxRenewals now =
      .ok loan) :
    loan.resourceId = resourceId := by
  simp only [Loan.new] at h
  split at h
  · exact absurd h (by simp)
  · have h2 := Except.ok.inj h
    rw [← h2]
    unfold Loan.updateStatus
    split
    · rfl
    · split <;> rfl

theorem addResource_cases (m : LibraryManager) (resource : Option Resource) :
    (m.addResource resource).2 = m ∨
    ∃ r, resource = some r ∧ m.findResourceById r.id = none ∧ r.id ≠ "" ∧
      (m.addResource resource).2 =
        { m with resources := m.resources ++ [r],
                 emitted := m.emitted ++ [Signal.resourceAdded r.id] } := by
  cases resource with
  | none => exact Or.inl rfl
  | some r =>
    cases hv : LibraryManager.validateResourceData r with
    | error e => left; simp [LibraryManager.addResource, hv]
    | ok _ =>
      cases hf : m.findResourceById r.id with
      | some r0 => left; simp [LibraryManager.addResource, hv, hf]
      | none =>
        right
        have hid : r.id ≠ "" := by
          intro he
          have hempty : r.id.isEmpty = true := by rw [he]; rfl
          simp [LibraryManager.validateResourceData, hempty] at hv
        exact ⟨r, rfl, hf, hid,
          by simp [LibraryManager.addResource, hv, hf, LibraryManager.emit]⟩

theorem removeResource_cases (m : LibraryManager) (resourceId : String) :
    (m.removeResource resourceId).2 = m ∨
    ∃ r, m.findResourceById resourceId = some r ∧ r.status ≠ ResourceStatus.Borrowed ∧
      (m.removeResource resourceId).2 =
        { m with resources := m.resources.eraseP (fun r => r.id == resourceId),
                 emitted := m.emitted ++ [Signal.resourceRemoved resourceId] } := by
  cases hf : m.findResourceById resourceId with
  | none => left; simp [LibraryManager.removeResource, hf]
  | some r =>
    cases hb : r.isBorrowed with
    | true => left; simp [LibraryManager.removeResource, hf, hb]
    | false =>
      right
      refine ⟨r, rfl, ?_, by simp [LibraryManager.removeResource, hf, hb, LibraryManager.emit]⟩
      simpa [Resource.isBorrowed] using hb

theorem addUser_frame (m : LibraryManager) (user : Option User) :
    ∃ us sigs, (m.addUser user).2 = { m with users := us, emitted := sigs } ∧
      (us = m.users ∨ ∃ u, us = m.users ++ [u] ∧ u.userId ≠ "" ∧
        m.findUserById u.userId = none ∧ m.findUserByEmail u.email = none) := by
  cases user with
  | none => exact ⟨m.users, m.emitted, rfl, Or.inl rfl⟩
  | some u =>
    cases hv : LibraryManager.validateUserData u with
    | error e =>
      exact ⟨m.users, m.emitted, by simp [LibraryManager.addUser, hv], Or.inl rfl⟩
    | ok _ =>
      have hid : u.userId ≠ "" := by
        intro he
        have hempty : u.userId.isEmpty = true := by rw [he]; rfl
        simp [LibraryManager.validateUserData, hempty] at hv
      cases hf : m.findUserById u.userId with
      | some _ =>
        exact ⟨m.users, m.emitted, by simp [LibraryManager.addUser, hv, hf], Or.inl rfl⟩
      | none =>
        cases hfe : m.findUserByEmail u.email with
        | some _ =>
          exact ⟨m.users, m.emitted, by simp [LibraryManager.addUser, hv, hf, hfe],
            Or.inl rfl⟩
        | none =>
          exact ⟨m.users ++ [u], m.emitted ++ [Signal.userAdded u.userId],
            by simp [LibraryManager.addUser, hv, hf, hfe, LibraryManager.emit],
            Or.inr ⟨u, rfl, hid, hf, hfe⟩⟩

theorem removeUser_frame (m : LibraryManager) (userId : String) :
    ∃ us sigs, (m.removeUser userId).2 = { m with users := us, emitted := sigs } ∧
      us.Sublist m.users := by
  unfold LibraryManager.removeUser
  repeat' split
  · exact ⟨m.users, m.emitted, rfl, List.Sublist.refl _⟩
  · exact ⟨m.users, m.emitted, rfl, List.Sublist.refl _⟩
  · exact ⟨_, _, rfl, List.eraseP_sublist _⟩

theorem borrowResource_cases (m : LibraryManager) (userId resourceId : String)
    (now : QDateTime) (uuid : String) :
    (m.borrowResource userId resourceId now uuid).2 = m ∨
    ∃ resource loan us sigs, m.findResourceById resourceId = some resource ∧
      resource.status = ResourceStatus.Available ∧ loan.resourceId = resourceId ∧
      us.map (fun u => u.userId) = m.users.map (fun u => u.userId) ∧
      (m.borrowResource userId resourceId now uuid).2 =
        { m with
          resources :=
            modifyFirst (fun r => r.id == resourceId)
              (fun r => r.setStatus ResourceStatus.Borrowed) m.resources,
          users := us,
          activeLoans := m.activeLoans ++ [loan],
          emitted := sigs } := by
  cases hu : m.findUserById userId with
  | none => left; simp [LibraryManager.borrowResource, hu]
  | some user =>
    cases hr : m.findResourceById resourceId with
    | none => left; simp [LibraryManager.borrowResource, hu, hr]
    | some resource =>
      cases hc : user.canBorrow with
      | false => left; simp [LibraryManager.borrowResource, hu, hr, hc]
      | true =>
        cases hav : resource.isAvailable with
        | false => left; simp [LibraryManager.borrowResource, hu, hr, hc, hav]
        | true =>
          have hst : resource.status = ResourceStatus.Available := by
            simpa [Resource.isAvailable] using hav
          cases hl : Loan.new (Loan.generateLoanId uuid) userId resourceId resource.title now
              (m.calculateDueDate 0 now) 3 now with
          | error e => left; simp [LibraryManager.borrowResource, hu, hr, hc, hav, hl]
          | ok loan =>
            right
            refine ⟨resource, loan,
              modifyFirst (fun u => u.userId == userId)
                (fun _ => { user with currentLoans := user.currentLoans ++ [loan],
                                      lastActivity := now }) m.users,
              m.emitted ++ [Signal.resourceBorrowed (Loan.generateLoanId uuid) userId resourceId],
              rfl, hst, Loan.new_resourceId _ _ _ _ _ _ _ _ loan hl,
              map_modifyFirst_const (fun u : User => u.userId == userId)
                (fun u => u.userId) m.users user _ hu rfl, ?_⟩
            simp only [LibraryManager.borrowResource, hu, hr, hc, hav, hl, Bool.not_true,
              Bool.false_eq_true, if_false, User.addCurrentLoan_ok user loan now hc,
              LibraryManager.emit]

theorem Loan.renewLoan_resourceId (l : Loan) (days : Int) (now : QDateTime) :
    (l.renewLoan days now).2.resourceId = l.resourceId := by
  unfold Loan.renewLoan
  split <;> rfl

theorem renewLoan_frame (m : LibraryManager) (loanId : String) (days : Int)
    (now : QDateTime) :
    ∃ ls sigs, ls.map (fun l => l.resourceId) = m.activeLoans.map (fun l => l.resourceId) ∧
      (m.renewLoan loanId days now).2 = { m with activeLoans := ls, emitted := sigs } := by
  cases hf : m.findLoan loanId with
  | none => exact ⟨m.activeLoans, m.emitted, rfl, by simp [LibraryManager.renewLoan, hf]⟩
  | some loan =>
    have hmap := map_modifyFirst_const (fun l : Loan => l.loanId == loanId)
      (fun l => l.resourceId) m.activeLoans loan (loan.renewLoan days now).2 hf
      (Loan.renewLoan_resourceId loan days now)
    cases hc : loan.canBeRenewed now with
    | false =>
      exact ⟨m.activeLoans, m.emitted, rfl, by simp [LibraryManager.renewLoan, hf, hc]⟩
    | true =>
      cases hres : (loan.renewLoan days now).1 with
      | true =>
        exact ⟨_, m.emitted ++ [Signal.loanRenewed loanId (loan.renewLoan days now).2.dueDate],
          hmap, by simp [LibraryManager.renewLoan, hf, hc, hres, LibraryManager.emit]⟩
      | false =>
        exact ⟨_, m.emitted, hmap, by simp [LibraryManager.renewLoan, hf, hc, hres]⟩

theorem reserveResource_cases (m : LibraryManager) (userId resourceId : String)
    (now : QDateTime) (uuid : String) :
    (m.reserveResource userId resourceId now uuid).2 = m ∨
    ∃ res sigs, res.userId = userId ∧ res.resourceId = resourceId ∧
      res.status = ReservationStatus.Active ∧
      m.activeReservations.any
        (fun r => r.userId == userId && r.resourceId == resourceId && r.isActive) = false ∧
      (m.reserveResource userId resourceId now uuid).2 =
        { m with activeReservations := m.activeReservations ++ [res], emitted := sigs } := by
  cases hu : m.findUserById userId with
  | none => left; simp [LibraryManager.reserveResource, hu]
  | some user =>
    cases hr : m.findResourceById resourceId with
    | none => left; simp [LibraryManager.reserveResource, hu, hr]
    | some resource =>
      cases hc : user.canBorrow with
      | false => left; simp [LibraryManager.reserveResource, hu, hr, hc]
      | true =>
        cases hany : m.activeReservations.any
            (fun r => r.userId == userId && r.resourceId == resourceId && r.isActive) with
        | true => left; simp [LibraryManager.reserveResource, hu, hr, hc, hany]
        | false =>
          cases hav : resource.isAvailable with
          | true => left; simp [LibraryManager.reserveResource, hu, hr, hc, hany, hav]
          | false =>
            right
            refine ⟨Reservation.new userId resourceId resource.title 7 now uuid,
              m.emitted ++ [Signal.resourceReserved
                (Reservation.new userId resourceId resource.title 7 now uuid).reservationId
                userId resourceId], rfl, rfl, rfl, rfl, ?_⟩
            simp only [LibraryManager.reserveResource, hu, hr, hc, hany, hav, Bool.not_true,
              Bool.false_eq_true, if_false, LibraryManager.emit]

theorem cancelReservation_frame (m : LibraryManager) (reservationId : String) :
    ∃ rs hs sigs, rs.Sublist m.activeReservations ∧
      (m.cancelReservation reservationId).2 =
        { m with activeReservations := rs, reservationHistory := hs, emitted := sigs } := by
  unfold LibraryManager.cancelReservation
  repeat' split
  · exact ⟨m.activeReservations, m.reservationHistory, m.emitted, List.Sublist.refl _, rfl⟩
  · exact ⟨_, _, _, List.eraseP_sublist _, rfl⟩
  · exact ⟨m.activeReservations, m.reservationHistory, m.emitted, List.Sublist.refl _, rfl⟩

theorem cancelUserReservation_frame (m : LibraryManager) (userId resourceId : String) :
    ∃ rs hs sigs, rs.Sublist m.activeReservations ∧
      (m.cancelUserReservation userId resourceId).2 =
        { m with activeReservations := rs, reservationHistory := hs, emitted := sigs } := by
  unfold LibraryManager.cancelUserReservation
  split
  · exact cancelReservation_frame m _
  · exact ⟨m.activeReservations, m.reservationHistory, m.emitted, List.Sublist.refl _, rfl⟩

theorem sweepExpired_eq (now : QDateTime) :
    ∀ (l kept history : List Reservation) (emitted : List Signal) (hasExpired : Bool),
      LibraryManager.sweepExpired now l kept history emitted hasExpired =
        (kept ++ l.filter (fun r => !r.isExpired now),
          history ++ (l.filter (fun r => r.isExpired now)).map
            (fun r => r.setStatus ReservationStatus.Expired),
          emitted ++ (l.filter (fun r => r.isExpired now)).map
            (fun r => Signal.reservationExpired r.reservationId r.userId r.resourceId),
          hasExpired || !(l.filter (fun r => r.isExpired now)).isEmpty) := by
  intro l
  induction l with
  | nil => intro kept history emitted hasExpired; simp [LibraryManager.sweepExpired]
  | cons r rest ih =>
    intro kept history emitted hasExpired
    cases hr : r.isExpired now with
    | true => simp [LibraryManager.sweepExpired, hr, ih]
    | false => simp [LibraryManager.sweepExpired, hr, ih]

theorem processExpiredReservations_eq (m : LibraryManager) (now : QDateTime) :
    m.processExpiredReservations now =
      (!(m.activeReservations.filter (fun r => r.isExpired now)).isEmpty,
        { m with
          activeReservations := m.activeReservations.filter (fun r => !r.isExpired now),
          reservationHistory := m.reservationHistory ++
            (m.activeReservations.filter (fun r => r.isExpired now)).map
              (fun r => r.setStatus ReservationStatus.Expired),
          emitted := m.emitted ++
            (m.activeReservations.filter (fun r => r.isExpired now)).map
              (fun r => Signal.reservationExpired r.reservationId r.userId r.resourceId) }) := by
  simp [LibraryManager.processExpiredReservations, sweepExpired_eq]

theorem processExpiredReservations_frame (m : LibraryManager) (now : QDateTime) :
    ∃ rs hs sigs, rs.Sublist m.activeReservations ∧
      (m.processExpiredReservations now).2 =
        { m with activeReservations := rs, reservationHistory := hs, emitted := sigs } := by
  rw [processExpiredReservations_eq]
  exact ⟨_, _, _, List.filter_sublist _, rfl⟩

theorem returnResource_cases (m : LibraryManager) (loanId : String) (now : QDateTime) :
    (m.returnResource loanId now).2 = m ∨
    ∃ loan us sigs, m.findLoan loanId = some loan ∧
      us.map (fun u => u.userId) = m.users.map (fun u => u.userId) ∧
      (m.returnResource loanId now).2 =
        { m with
          resources :=
            modifyFirst (fun r => r.id == loan.resourceId)
              (fun r => r.setStatus ResourceStatus.Available) m.resources,
          users := us,
          activeLoans := m.activeLoans.eraseP (fun l => l.loanId == loanId),
          loanHistory := m.loanHistory ++
            [{ loan with returnDate := some now, status := LoanStatus.Returned }],
          emitted := sigs } := by
  cases hf : m.findLoan loanId with
  | none =>
    left
    unfold LibraryManager.returnResource
    simp only [hf]
  | some loan =>
    right
    obtain ⟨sigs, hn⟩ := notifyWhenResourceAvailable_eq
      ({ m with
        resources :=
          (modifyFirst (fun r => r.id == loan.resourceId)
            (fun r => r.setStatus ResourceStatus.Available) m.resources),
        users :=
          (modifyFirst (fun u => u.userId == loan.userId)
            (fun u => u.moveLoanToHistory loanId now) m.users),
        activeLoans := m.activeLoans.eraseP (fun l => l.loanId == loanId),
        loanHistory := m.loanHistory ++
          [{ loan with returnDate := some now, status := LoanStatus.Returned }],
        emitted := m.emitted ++
          [Signal.resourceReturned loanId loan.userId loan.resourceId] })
      loan.resourceId now
    refine ⟨loan,
      modifyFirst (fun u => u.userId == loan.userId)
        (fun u => u.moveLoanToHistory loanId now) m.users,
      (m.emitted ++ [Signal.resourceReturned loanId loan.userId loan.resourceId]) ++ sigs,
      rfl,
      map_modifyFirst (fun u : User => u.userId == loan.userId)
        (fun u => u.moveLoanToHistory loanId now) (fun u => u.userId)
        (fun u => User.moveLoanToHistory_userId u loanId now) m.users, ?_⟩
    rw [returnResource_eq m loanId now loan hf, hn]

/-! ## At most one active reservation per user and resource -/

theorem activeReservationCount_of_sublist (m m' : LibraryManager)
    (hsub : m'.activeReservations.Sublist m.activeReservations)
    (h : ∀ u r, m.activeReservationCount u r ≤ 1) :
    ∀ u r, m'.activeReservationCount u r ≤ 1 := by
  intro u r
  exact le_trans (List.Sublist.countP_le _ hsub) (h u r)

theorem activeReservationCount_step (m : LibraryManager) (op : LibraryManager.Op)
    (h : ∀ u r, m.activeReservationCount u r ≤ 1) :
    ∀ u r, (LibraryManager.applyOp m op).activeReservationCount u r ≤ 1 := by
  cases op with
  | addResource res =>
    refine activeReservationCount_of_sublist m _ ?_ h
    rcases addResource_cases m res with hm | ⟨_, _, _, _, hm⟩ <;>
      simp [LibraryManager.applyOp, hm]
  | removeResource id =>
    refine activeReservationCount_of_sublist m _ ?_ h
    rcases removeResource_cases m id with hm | ⟨_, _, _, hm⟩ <;>
      simp [LibraryManager.applyOp, hm]
  | addUser user =>
    refine activeReservationCount_of_sublist m _ ?_ h
    obtain ⟨_, _, hm, _⟩ := addUser_frame m user
    simp [LibraryManager.applyOp, hm]
  | removeUser id =>
    refine activeReservationCount_of_sublist m _ ?_ h
    obtain ⟨_, _, hm, _⟩ := removeUser_frame m id
    simp [LibraryManager.applyOp, hm]
  | borrowResource userId resourceId now uuid =>
    refine activeReservationCount_of_sublist m _ ?_ h
    rcases borrowResource_cases m userId resourceId now uuid with
      hm | ⟨_, _, _, _, _, _, _, _, hm⟩ <;>
      simp [LibraryManager.applyOp, hm]
  | returnResource loanId now =>
    refine activeReservationCount_of_sublist m _ ?_ h
    rcases returnResource_cases m loanId now with hm | ⟨_, _, _, _, _, hm⟩ <;>
      simp [LibraryManager.applyOp, hm]
  | renewLoan loanId days now =>
    refine activeReservationCount_of_sublist m _ ?_ h
    obtain ⟨_, _, _, hm⟩ := renewLoan_frame m loanId days now
    simp [LibraryManager.applyOp, hm]
  | reserveResource userId resourceId now uuid =>
    rcases reserveResource_cases m userId resourceId now uuid with
      hm | ⟨res, sigs, hu, hr, _, hany, hm⟩
    · refine activeReservationCount_of_sublist m _ ?_ h
      simp [LibraryManager.applyOp, hm]
    · intro u r
      have hzero : m.activeReservationCount userId resourceId = 0 := by
        unfold LibraryManager.activeReservationCount
        rw [List.countP_eq_zero]
        intro x hx
        have := (List.any_eq_false.mp hany) x hx
        simpa using this
      simp only [LibraryManager.applyOp, hm, LibraryManager.activeReservationCount,
        List.countP_append]
      by_cases hpair : u = userId ∧ r = resourceId
      · obtain ⟨rfl, rfl⟩ := hpair
        have hz : List.countP
            (fun x => x.userId == u && x.resourceId == r && x.isActive)
            m.activeReservations = 0 := hzero
        rw [hz, Nat.zero_add]
        exact List.countP_le_length _
      · have hno : List.countP
            (fun x => x.userId == u && x.resourceId == r && x.isActive) [res] = 0 := by
          rw [List.countP_eq_zero]
          intro x hx
          have hxr : x = res := by simpa using hx
          subst hxr
          intro hp
          apply hpair
          simp only [Bool.and_eq_true, beq_iff_eq] at hp
          exact ⟨by rw [← hp.1.1, hu], by rw [← hp.1.2, hr]⟩
        rw [hno]
        exact h u r
  | cancelReservation id =>
    refine activeReservationCount_of_sublist m _ ?_ h
    obtain ⟨_, _, _, hsub, hm⟩ := cancelReservation_frame m id
    simpa [LibraryManager.applyOp, hm] using hsub
  | cancelUserReservation userId resourceId =>
    refine activeReservationCount_of_sublist m _ ?_ h
    obtain ⟨_, _, _, hsub, hm⟩ := cancelUserReservation_frame m userId resourceId
    simpa [LibraryManager.applyOp, hm] using hsub
  | processExpiredReservations now =>
    refine activeReservationCount_of_sublist m _ ?_ h
    obtain ⟨_, _, _, hsub, hm⟩ := processExpiredReservations_frame m now
    simpa [LibraryManager.applyOp, hm] using hsub

theorem activeReservationCount_foldl (ops : List LibraryManager.Op) :
    ∀ m : LibraryManager, (∀ u r, m.activeReservationCount u r ≤ 1) →
      ∀ u r, (ops.foldl LibraryManager.applyOp m).activeReservationCount u r ≤ 1 := by
  induction ops with
  | nil => intro m h; simpa using h
  | cons op ops ih =>
    intro m h
    simpa using ih _ (activeReservationCount_step m op h)

/-- C10: in every manager reached from the empty manager by calls of `addResource`,
`removeResource`, `addUser`, `removeUser`, `borrowResource`, `returnResource`,
`renewLoan`, `reserveResource`, `cancelReservation`, `cancelUserReservation` and
`processExpiredReservations`, for every user id and resource id the active
reservations hold at most one reservation with status `Active` of that user for that
resource. -/
theorem at_most_one_active_reservation (ops : List LibraryManager.Op)
    (userId resourceId : String) :
    ((LibraryManager.run ops).activeReservations.filter
      (fun r => r.userId == userId && r.resourceId == resourceId &&
        r.status == ReservationStatus.Active)).length ≤ 1 := by
  have h := activeReservationCount_foldl ops LibraryManager.empty
    (by intro u r; simp [LibraryManager.activeReservationCount, LibraryManager.empty])
    userId resourceId
  unfold LibraryManager.activeReservationCount at h
  rw [List.countP_eq_length_filter] at h
  exact h

/-! ## Borrowed resources and active loans -/

theorem LoanBookkeeping_congr (m m' : LibraryManager)
    (hr : m'.resources = m.resources)
    (hl : m'.activeLoans.map (fun l => l.resourceId) =
      m.activeLoans.map (fun l => l.resourceId))
    (h : m.LoanBookkeeping) : m'.LoanBookkeeping := by
  unfold LibraryManager.LoanBookkeeping at *
  rw [hr, hl]
  exact h

theorem eq_of_mem_of_id_eq (rs : List Resource)
    (hnd : (rs.map (fun r => r.id)).Nodup) (a b : Resource) (ha : a ∈ rs) (hb : b ∈ rs)
    (hid : a.id = b.id) : a = b :=
  List.inj_on_of_nodup_map hnd ha hb hid

theorem LoanBookkeeping_addResource (m : LibraryManager) (r : Resource)
    (hnew : m.findResourceById r.id = none) (hst : r.status ≠ ResourceStatus.Borrowed)
    (sigs : List Signal) (h : m.LoanBookkeeping) :
    LibraryManager.LoanBookkeeping
      { m with resources := m.resources ++ [r], emitted := sigs } := by
  obtain ⟨h1, h2, h3⟩ := h
  have hnot : ∀ x ∈ m.resources, x.id ≠ r.id := by
    intro x hx
    have := (List.find?_eq_none.mp hnew) x hx
    simpa using this
  refine ⟨?_, ?_, ?_⟩
  · simp only [List.map_append, List.map_cons, List.map_nil]
    rw [List.nodup_append]
    refine ⟨h1, by simp, ?_⟩
    intro a ha hb
    simp only [List.mem_singleton] at hb
    obtain ⟨x, hx, hxa⟩ := List.mem_map.mp ha
    exact hnot x hx (by rw [hxa, hb])
  · intro x hx hxs
    simp only [List.mem_append, List.mem_singleton] at hx
    rcases hx with hx | rfl
    · exact h2 x hx hxs
    · exact absurd hxs hst
  · intro x hx
    obtain ⟨y, hy, hy1, hy2⟩ := h3 x hx
    exact ⟨y, by simp [hy], hy1, hy2⟩

theorem LoanBookkeeping_removeResource (m : LibraryManager) (resourceId : String)
    (r : Resource) (hfind : m.findResourceById resourceId = some r)
    (hst : r.status ≠ ResourceStatus.Borrowed) (sigs : List Signal)
    (h : m.LoanBookkeeping) :
    LibraryManager.LoanBookkeeping
      { m with resources := m.resources.eraseP (fun r => r.id == resourceId),
               emitted := sigs } := by
  obtain ⟨h1, h2, h3⟩ := h
  obtain ⟨l₁, l₂, e1, _, _, _, e5⟩ := modifyFirst_split (fun r : Resource => r.id == resourceId)
    id m.resources r hfind
  have hsub : (m.resources.eraseP (fun r => r.id == resourceId)).Sublist m.resources :=
    List.eraseP_sublist _
  refine ⟨?_, ?_, ?_⟩
  · exact List.Nodup.sublist (List.Sublist.map _ hsub) h1
  · intro x hx hxs
    exact h2 x (hsub.subset hx) hxs
  · intro x hx
    obtain ⟨y, hy, hy1, hy2⟩ := h3 x hx
    refine ⟨y, ?_, hy1, hy2⟩
    have hne : y ≠ r := by
      intro hyr
      rw [hyr] at hy2
      exact hst hy2
    show y ∈ m.resources.eraseP (fun r => r.id == resourceId)
    rw [e5]
    rw [e1] at hy
    simp only [List.mem_append, List.mem_cons] at hy ⊢
    rcases hy with hy | hy | hy
    · exact Or.inl hy
    · exact absurd hy hne
    · exact Or.inr hy

theorem LoanBookkeeping_borrow (m : LibraryManager) (resourceId : String)
    (resource : Resource) (loan : Loan) (us : List User) (sigs : List Signal)
    (hfind : m.findResourceById resourceId = some resource)
    (hav : resource.status = ResourceStatus.Available)
    (hl : loan.resourceId = resourceId) (h : m.LoanBookkeeping) :
    LibraryManager.LoanBookkeeping
      { m with
        resources :=
          modifyFirst (fun r => r.id == resourceId)
            (fun r => r.setStatus ResourceStatus.Borrowed) m.resources,
        users := us,
        activeLoans := m.activeLoans ++ [loan],
        emitted := sigs } := by
  obtain ⟨h1, h2, h3⟩ := h
  have hmem : resource ∈ m.resources := List.mem_of_find?_eq_some hfind
  have hid : resource.id = resourceId := by
    have := List.find?_some hfind
    simpa using this
  have hfresh : resourceId ∉ m.activeLoans.map (fun l => l.resourceId) := by
    intro hx
    obtain ⟨y, hy, hy1, hy2⟩ := h3 resourceId hx
    have hyr : y = resource := eq_of_mem_of_id_eq m.resources h1 y resource hy hmem
      (by rw [hy1, hid])
    rw [hyr, hav] at hy2
    exact absurd hy2 (by decide)
  have hmap : (modifyFirst (fun r => r.id == resourceId)
      (fun r => r.setStatus ResourceStatus.Borrowed) m.resources).map (fun r => r.id) =
      m.resources.map (fun r => r.id) :=
    map_modifyFirst (fun r : Resource => r.id == resourceId)
      (fun r => r.setStatus ResourceStatus.Borrowed) (fun r => r.id) (fun _ => rfl) m.resources
  refine ⟨?_, ?_, ?_⟩
  · show (List.map (fun r => r.id) (modifyFirst _ _ m.resources)).Nodup
    rw [hmap]
    exact h1
  · intro x hx hxs
    show List.count x.id (List.map (fun l => l.resourceId) (m.activeLoans ++ [loan])) = 1
    simp only [List.map_append, List.map_cons, List.map_nil, List.count_append, hl]
    rcases mem_modifyFirst _ _ m.resources x hx with hx | ⟨a, ha, hpa, rfl⟩
    · have hne : x.id ≠ resourceId := by
        intro hxid
        have hxr : x = resource := eq_of_mem_of_id_eq m.resources h1 x resource hx hmem
          (by rw [hxid, hid])
        rw [hxr, hav] at hxs
        exact absurd hxs (by decide)
      have hne2 : resourceId ≠ x.id := fun e => hne e.symm
      rw [h2 x hx hxs]
      simp [List.count_cons, hne2]
    · have haid : a.id = resourceId := by simpa using hpa
      have hz : List.count resourceId (List.map (fun l => l.resourceId) m.activeLoans) = 0 :=
        List.count_eq_zero.mpr hfresh
      simp [Resource.setStatus, haid, hz]
  · intro x hx
    simp only [List.map_append, List.map_cons, List.map_nil, List.mem_append,
      List.mem_singleton] at hx
    rcases hx with hx | rfl
    · obtain ⟨y, hy, hy1, hy2⟩ := h3 x hx
      refine ⟨y, ?_, hy1, hy2⟩
      apply mem_modifyFirst_of_not _ _ _ y hy
      cases hp : (y.id == resourceId) with
      | false => rfl
      | true =>
        have hyid : y.id = resourceId := by simpa using hp
        have hyr : y = resource := eq_of_mem_of_id_eq m.resources h1 y resource hy hmem
          (by rw [hyid, hid])
        rw [hyr, hav] at hy2
        exact absurd hy2 (by decide)
    · obtain ⟨l₁, l₂, _, _, _, e4, _⟩ := modifyFirst_split
        (fun r : Resource => r.id == loan.resourceId)
        (fun r => r.setStatus ResourceStatus.Borrowed) m.resources resource (hl ▸ hfind)
      refine ⟨resource.setStatus ResourceStatus.Borrowed, ?_, ?_, rfl⟩
      · show _ ∈ modifyFirst _ _ m.resources
        rw [hl] at e4
        rw [e4]
        simp
      · rw [hl]
        exact hid

theorem LoanBookkeeping_return (m : LibraryManager) (loanId : String) (loan : Loan)
    (us : List User) (hist : List Loan) (sigs : List Signal)
    (hfind : m.findLoan loanId = some loan) (h : m.LoanBookkeeping) :
    LibraryManager.LoanBookkeeping
      { m with
        resources :=
          modifyFirst (fun r => r.id == loan.resourceId)
            (fun r => r.setStatus ResourceStatus.Available) m.resources,
        users := us,
        activeLoans := m.activeLoans.eraseP (fun l => l.loanId == loanId),
        loanHistory := hist,
        emitted := sigs } := by
  obtain ⟨h1, h2, h3⟩ := h
  obtain ⟨k₁, k₂, f1, _, _, _, f5⟩ := modifyFirst_split (fun l : Loan => l.loanId == loanId)
    id m.activeLoans loan hfind
  have hx₀ : loan.resourceId ∈ m.activeLoans.map (fun l => l.resourceId) :=
    List.mem_map.mpr ⟨loan, List.mem_of_find?_eq_some hfind, rfl⟩
  obtain ⟨r₀, hr₀, hr₀id, hr₀st⟩ := h3 _ hx₀
  have hcount := h2 r₀ hr₀ hr₀st
  rw [hr₀id, f1] at hcount
  simp only [List.map_append, List.map_cons, List.count_append, List.count_cons_self] at hcount
  have hc1 : List.count loan.resourceId (k₁.map (fun l => l.resourceId)) = 0 := by omega
  have hc2 : List.count loan.resourceId (k₂.map (fun l => l.resourceId)) = 0 := by omega
  have hmap : (modifyFirst (fun r => r.id == loan.resourceId)
      (fun r => r.setStatus ResourceStatus.Available) m.resources).map (fun r => r.id) =
      m.resources.map (fun r => r.id) :=
    map_modifyFirst (fun r : Resource => r.id == loan.resourceId)
      (fun r => r.setStatus ResourceStatus.Available) (fun r => r.id) (fun _ => rfl)
      m.resources
  have hcountEq : ∀ y : String, y ≠ loan.resourceId →
      List.count y ((m.activeLoans.eraseP (fun l => l.loanId == loanId)).map
        (fun l => l.resourceId)) =
      List.count y (m.activeLoans.map (fun l => l.resourceId)) := by
    intro y hy
    have hy2 : loan.resourceId ≠ y := fun e => hy e.symm
    rw [f5]
    conv_rhs => rw [f1]
    simp [List.count_append, List.count_cons, hy2]
  refine ⟨?_, ?_, ?_⟩
  · show (List.map (fun r => r.id) (modifyFirst _ _ m.resources)).Nodup
    rw [hmap]
    exact h1
  · intro x hx hxs
    show List.count x.id ((m.activeLoans.eraseP (fun l => l.loanId == loanId)).map
      (fun l => l.resourceId)) = 1
    rcases mem_modifyFirst _ _ m.resources x hx with hxm | ⟨a, _, _, rfl⟩
    · have hne : x.id ≠ loan.resourceId := by
        intro hxid
        have hxr : x = r₀ := eq_of_mem_of_id_eq m.resources h1 x r₀ hxm hr₀
          (by rw [hxid, hr₀id])
        have hfr : m.resources.find? (fun r => r.id == loan.resourceId) ≠ none := by
          intro hnone
          have := (List.find?_eq_none.mp hnone) r₀ hr₀
          simp [hr₀id] at this
        obtain ⟨r₁, hr₁⟩ := Option.ne_none_iff_exists'.mp hfr
        obtain ⟨l₁, l₂, e1, e2, e3, e4, _⟩ := modifyFirst_split
          (fun r : Resource => r.id == loan.resourceId)
          (fun r => r.setStatus ResourceStatus.Available) m.resources r₁ hr₁
        have hr₁id : r₁.id = loan.resourceId := by simpa using e3
        have hnd := h1
        rw [e1, List.map_append, List.map_cons] at hnd
        have hnd2 := (List.nodup_append.mp hnd).2.1
        have hnot : r₁.id ∉ l₂.map (fun r => r.id) := (List.nodup_cons.mp hnd2).1
        have hx' : x ∈ l₁ ++ r₁.setStatus ResourceStatus.Available :: l₂ := by
          rw [← e4]; exact hx
        simp only [List.mem_append, List.mem_cons] at hx'
        rcases hx' with hx' | hx' | hx'
        · have := e2 x hx'
          simp [hxid] at this
        · rw [hx'] at hxs
          simp [Resource.setStatus] at hxs
        · exact hnot (List.mem_map.mpr ⟨x, hx', by rw [hxid, hr₁id]⟩)
      rw [hcountEq x.id hne]
      exact h2 x hxm hxs
    · simp [Resource.setStatus] at hxs
  · intro y hy
    have hy' : y ∈ (k₁ ++ k₂).map (fun l => l.resourceId) := by
      rw [← f5]; exact hy
    have hyne : y ≠ loan.resourceId := by
      intro e
      rw [e, List.map_append, List.mem_append] at hy'
      rcases hy' with hy' | hy'
      · exact (List.count_eq_zero.mp hc1) hy'
      · exact (List.count_eq_zero.mp hc2) hy'
    have hyold : y ∈ m.activeLoans.map (fun l => l.resourceId) := by
      rw [f1]
      simp only [List.map_append, List.map_cons, List.mem_append, List.mem_cons] at hy' ⊢
      rcases hy' with hy' | hy'
      · exact Or.inl hy'
      · exact Or.inr (Or.inr hy')
    obtain ⟨r, hr, hrid, hrst⟩ := h3 y hyold
    refine ⟨r, ?_, hrid, hrst⟩
    apply mem_modifyFirst_of_not _ _ _ r hr
    cases hp : (r.id == loan.resourceId) with
    | false => rfl
    | true =>
      have : r.id = loan.resourceId := by simpa using hp
      exact absurd (hrid ▸ this) hyne

theorem LoanBookkeeping_step (m : LibraryManager) (op : LibraryManager.Op)
    (hop : ∀ r : Resource, op = LibraryManager.Op.addResource (some r) →
      r.status ≠ ResourceStatus.Borrowed)
    (h : m.LoanBookkeeping) : (LibraryManager.applyOp m op).LoanBookkeeping := by
  cases op with
  | addResource res =>
    rcases addResource_cases m res with hm | ⟨r, hres, hnew, _, hm⟩
    · simpa [LibraryManager.applyOp, hm] using h
    · simp only [LibraryManager.applyOp, hm]
      exact LoanBookkeeping_addResource m r hnew (hop r (by rw [hres])) _ h
  | removeResource id =>
    rcases removeResource_cases m id with hm | ⟨r, hfind, hst, hm⟩
    · simpa [LibraryManager.applyOp, hm] using h
    · simp only [LibraryManager.applyOp, hm]
      exact LoanBookkeeping_removeResource m id r hfind hst _ h
  | addUser user =>
    obtain ⟨_, _, hm, _⟩ := addUser_frame m user
    simp only [LibraryManager.applyOp, hm]
    exact LoanBookkeeping_congr m _ rfl rfl h
  | removeUser id =>
    obtain ⟨_, _, hm, _⟩ := removeUser_frame m id
    simp only [LibraryManager.applyOp, hm]
    exact LoanBookkeeping_congr m _ rfl rfl h
  | borrowResource userId resourceId now uuid =>
    rcases borrowResource_cases m userId resourceId now uuid with
      hm | ⟨resource, loan, us, sigs, hfind, hav, hl, _, hm⟩
    · simpa [LibraryManager.applyOp, hm] using h
    · simp only [LibraryManager.applyOp, hm]
      exact LoanBookkeeping_borrow m resourceId resource loan us sigs hfind hav hl h
  | returnResource loanId now =>
    rcases returnResource_cases m loanId now with hm | ⟨loan, us, sigs, hfind, _, hm⟩
    · simpa [LibraryManager.applyOp, hm] using h
    · simp only [LibraryManager.applyOp, hm]
      exact LoanBookkeeping_return m loanId loan us _ sigs hfind h
  | renewLoan loanId days now =>
    obtain ⟨ls, sigs, hmap, hm⟩ := renewLoan_frame m loanId days now
    simp only [LibraryManager.applyOp, hm]
    exact LoanBookkeeping_congr m _ rfl hmap h
  | reserveResource userId resourceId now uuid =>
    rcases reserveResource_cases m userId resourceId now uuid with
      hm | ⟨_, _, _, _, _, _, hm⟩
    · simpa [LibraryManager.applyOp, hm] using h
    · simp only [LibraryManager.applyOp, hm]
      exact LoanBookkeeping_congr m _ rfl rfl h
  | cancelReservation id =>
    obtain ⟨_, _, _, _, hm⟩ := cancelReservation_frame m id
    simp only [LibraryManager.applyOp, hm]
    exact LoanBookkeeping_congr m _ rfl rfl h
  | cancelUserReservation userId resourceId =>
    obtain ⟨_, _, _, _, hm⟩ := cancelUserReservation_frame m userId resourceId
    simp only [LibraryManager.applyOp, hm]
    exact LoanBookkeeping_congr m _ rfl rfl h
  | processExpiredReservations now =>
    obtain ⟨_, _, _, _, hm⟩ := processExpiredReservations_frame m now
    simp only [LibraryManager.applyOp, hm]
    exact LoanBookkeeping_congr m _ rfl rfl h

theorem LoanBookkeeping_foldl (ops : List LibraryManager.Op) :
    ∀ m : LibraryManager, LibraryManager.AddsNoBorrowed ops → m.LoanBookkeeping →
      (ops.foldl LibraryManager.applyOp m).LoanBookkeeping := by
  induction ops with
  | nil => intro m _ h; simpa using h
  | cons op ops ih =>
    intro m hops h
    have hstep := LoanBookkeeping_step m op
      (fun r hr => hops r (by rw [hr]; simp)) h
    have hrest : LibraryManager.AddsNoBorrowed ops :=
      fun r hr => hops r (List.mem_cons_of_mem _ hr)
    simpa using ih _ hrest hstep

/-- C1 (amended): in every manager reached from the empty manager by calls of
`addResource`, `removeResource`, `addUser`, `removeUser`, `borrowResource`,
`returnResource`, `renewLoan`, `reserveResource`, `cancelReservation`,
`cancelUserReservation` and `processExpiredReservations` in which no resource is
handed to `addResource` with status `Borrowed`, every resource of the catalogue has
status `Borrowed` if and only if exactly one active loan references its id. -/
theorem borrowed_iff_one_active_loan (ops : List LibraryManager.Op)
    (hops : LibraryManager.AddsNoBorrowed ops) :
    ∀ r ∈ (LibraryManager.run ops).resources,
      (r.status = ResourceStatus.Borrowed ↔
        ((LibraryManager.run ops).activeLoans.filter
          (fun l => l.resourceId == r.id)).length = 1) := by
  have hinv : (LibraryManager.run ops).LoanBookkeeping :=
    LoanBookkeeping_foldl ops LibraryManager.empty hops
      ⟨by simp [LibraryManager.empty], by simp [LibraryManager.empty],
        by simp [LibraryManager.empty]⟩
  obtain ⟨h1, h2, h3⟩ := hinv
  intro r hr
  have hcount : ((LibraryManager.run ops).activeLoans.filter
      (fun l => l.resourceId == r.id)).length =
      List.count r.id ((LibraryManager.run ops).activeLoans.map (fun l => l.resourceId)) := by
    rw [← List.countP_eq_length_filter, List.count, List.countP_map]
    rfl
  rw [hcount]
  constructor
  · exact h2 r hr
  · intro hc
    have hpos : 0 < List.count r.id
        ((LibraryManager.run ops).activeLoans.map (fun l => l.resourceId)) := by omega
    obtain ⟨y, hy, hyid, hyst⟩ := h3 r.id (List.count_pos_iff.mp hpos)
    have : y = r := eq_of_mem_of_id_eq _ h1 y r hy hr hyid
    rw [← this]
    exact hyst

/-! ## Stored ids are non-empty -/

theorem IdsNonEmpty_step (m : LibraryManager) (op : LibraryManager.Op)
    (h : m.IdsNonEmpty) : (LibraryManager.applyOp m op).IdsNonEmpty := by
  obtain ⟨hu, hr⟩ := h
  cases op with
  | addResource res =>
    rcases addResource_cases m res with hm | ⟨r, _, _, hid, hm⟩
    · simp only [LibraryManager.applyOp, hm]
      exact ⟨hu, hr⟩
    · simp only [LibraryManager.applyOp, hm]
      refine ⟨hu, ?_⟩
      intro x hx
      simp only [List.map_append, List.map_cons, List.map_nil, List.mem_append,
        List.mem_singleton] at hx
      rcases hx with hx | rfl
      · exact hr x hx
      · exact hid
  | removeResource id =>
    rcases removeResource_cases m id with hm | ⟨_, _, _, hm⟩
    · simp only [LibraryManager.applyOp, hm]
      exact ⟨hu, hr⟩
    · simp only [LibraryManager.applyOp, hm]
      refine ⟨hu, ?_⟩
      intro x hx
      exact hr x ((List.Sublist.map _ (List.eraseP_sublist _)).subset hx)
  | addUser user =>
    obtain ⟨us, _, hm, hus⟩ := addUser_frame m user
    simp only [LibraryManager.applyOp, hm]
    refine ⟨?_, hr⟩
    rcases hus with rfl | ⟨u, rfl, hid, _, _⟩
    · exact hu
    · intro x hx
      simp only [List.map_append, List.map_cons, List.map_nil, List.mem_append,
        List.mem_singleton] at hx
      rcases hx with hx | rfl
      · exact hu x hx
      · exact hid
  | removeUser id =>
    obtain ⟨us, _, hm, hsub⟩ := removeUser_frame m id
    simp only [LibraryManager.applyOp, hm]
    exact ⟨fun x hx => hu x ((List.Sublist.map _ hsub).subset hx), hr⟩
  | borrowResource userId resourceId now uuid =>
    rcases borrowResource_cases m userId resourceId now uuid with
      hm | ⟨_, _, us, _, _, _, _, hmap, hm⟩
    · simp only [LibraryManager.applyOp, hm]
      exact ⟨hu, hr⟩
    · simp only [LibraryManager.applyOp, hm]
      refine ⟨by rw [hmap]; exact hu, ?_⟩
      rw [map_modifyFirst (fun r : Resource => r.id == resourceId)
        (fun r => r.setStatus ResourceStatus.Borrowed) (fun r => r.id) (fun _ => rfl)]
      exact hr
  | returnResource loanId now =>
    rcases returnResource_cases m loanId now with hm | ⟨loan, us, _, _, hmap, hm⟩
    · simp only [LibraryManager.applyOp, hm]
      exact ⟨hu, hr⟩
    · simp only [LibraryManager.applyOp, hm]
      refine ⟨by rw [hmap]; exact hu, ?_⟩
      rw [map_modifyFirst (fun r : Resource => r.id == loan.resourceId)
        (fun r => r.setStatus ResourceStatus.Available) (fun r => r.id) (fun _ => rfl)]
      exact hr
  | renewLoan loanId days now =>
    obtain ⟨_, _, _, hm⟩ := renewLoan_frame m loanId days now
    simp only [LibraryManager.applyOp, hm]
    exact ⟨hu, hr⟩
  | reserveResource userId resourceId now uuid =>
    rcases reserveResource_cases m userId resourceId now uuid with
      hm | ⟨_, _, _, _, _, _, hm⟩
    · simp only [LibraryManager.applyOp, hm]
      exact ⟨hu, hr⟩
    · simp only [LibraryManager.applyOp, hm]
      exact ⟨hu, hr⟩
  | cancelReservation id =>
    obtain ⟨_, _, _, _, hm⟩ := cancelReservation_frame m id
    simp only [LibraryManager.applyOp, hm]
    exact ⟨hu, hr⟩
  | cancelUserReservation userId resourceId =>
    obtain ⟨_, _, _, _, hm⟩ := cancelUserReservation_frame m userId resourceId
    simp only [LibraryManager.applyOp, hm]
    exact ⟨hu, hr⟩
  | processExpiredReservations now =>
    obtain ⟨_, _, _, _, hm⟩ := processExpiredReservations_frame m now
    simp only [LibraryManager.applyOp, hm]
    exact ⟨hu, hr⟩

theorem IdsNonEmpty_foldl (ops : List LibraryManager.Op) :
    ∀ m : LibraryManager, m.IdsNonEmpty →
      (ops.foldl LibraryManager.applyOp m).IdsNonEmpty := by
  induction ops with
  | nil => intro m h; simpa using h
  | cons op ops ih =>
    intro m h
    simpa using ih _ (IdsNonEmpty_step m op h)

/-- In every manager reached from the empty manager by the operations, a user or a
resource found by its id has a non-empty id. -/
theorem found_ids_nonempty (ops : List LibraryManager.Op) (userId resourceId : String) :
    (∀ u, (LibraryManager.run ops).findUserById userId = some u → userId ≠ "") ∧
    (∀ r, (LibraryManager.run ops).findResourceById resourceId = some r →
      resourceId ≠ "") := by
  obtain ⟨hu, hr⟩ := IdsNonEmpty_foldl ops LibraryManager.empty
    ⟨by simp [LibraryManager.empty], by simp [LibraryManager.empty]⟩
  constructor
  · intro u hfind
    have hmem : u ∈ (LibraryManager.run ops).users := List.mem_of_find?_eq_some hfind
    have hid : u.userId = userId := by
      have := List.find?_some hfind
      simpa using this
    rw [← hid]
    exact hu _ (List.mem_map.mpr ⟨u, hmem, rfl⟩)
  · intro r hfind
    have hmem : r ∈ (LibraryManager.run ops).resources := List.mem_of_find?_eq_some hfind
    have hid : r.id = resourceId := by
      have := List.find?_some hfind
      simpa using this
    rw [← hid]
    exact hr _ (List.mem_map.mpr ⟨r, hmem, rfl⟩)

/-! ## Where the reservation ids come from -/

/-- C1, as stated, fails: after `addResource` of a book whose status is `Borrowed`
the catalogue holds a `Borrowed` resource that no active loan references. -/
theorem borrowed_iff_one_active_loan_counterexample :
    ¬ ∀ r ∈ (LibraryManager.run [.addResource (some sampleBorrowedBook)]).resources,
      (r.status = ResourceStatus.Borrowed ↔
        ((LibraryManager.run [.addResource (some sampleBorrowedBook)]).activeLoans.filter
          (fun l => l.resourceId == r.id)).length = 1) := by
  intro h
  have h1 := (h sampleBorrowedBook (by decide)).mp (by decide)
  exact absurd h1 (by decide)

/-- C1 (amended) on the lending library: the borrowed book is referenced by exactly
one active loan. -/
theorem borrowed_iff_one_active_loan_witness :
    LibraryManager.AddsNoBorrowed lendingOps ∧
    ({ sampleBook with status := ResourceStatus.Borrowed } ∈ lendingLibrary.resources) ∧
    (({ sampleBook with status := ResourceStatus.Borrowed } : Resource).status =
        ResourceStatus.Borrowed ↔
      (lendingLibrary.activeLoans.filter (fun l => l.resourceId == "B1")).length = 1) := by
  have hops : LibraryManager.AddsNoBorrowed lendingOps := by
    intro r hr
    simp only [lendingOps, stockOps, List.cons_append, List.nil_append, List.mem_cons,
      LibraryManager.Op.addResource.injEq, Option.some.injEq, List.mem_nil_iff, or_false,
      reduceCtorEq, false_or] at hr
    rw [hr]
    decide
  exact ⟨hops, by decide,
    borrowed_iff_one_active_loan lendingOps hops
      { sampleBook with status := ResourceStatus.Borrowed } (by decide)⟩

/-- C2 on the lending library: a second reader cannot borrow the lent book. -/
theorem borrowResource_unavailable_fails_witness :
    lendingLibrary.findResourceById "B1" =
        some { sampleBook with status := ResourceStatus.Borrowed } ∧
    ((∃ e, (lendingLibrary.borrowResource "U2" "B1" 2000 "b").1 = .error e) ∧
      (lendingLibrary.borrowResource "U2" "B1" 2000 "b").2 = lendingLibrary) :=
  ⟨by decide,
    borrowResource_unavailable_fails lendingLibrary "U2" "B1" 2000 "b"
      { sampleBook with status := ResourceStatus.Borrowed } (by decide) (by decide)⟩

/-- C3 on the stocked library: the student borrows the book at time 1000. -/
theorem borrowResource_succeeds_witness :
    stockedLibrary.findUserById "U1" = some sampleStudent ∧
    stockedLibrary.findResourceById "B1" = some sampleBook ∧
    ∃ loan : Loan,
      (stockedLibrary.borrowResource "U1" "B1" 1000 "a").1 = .ok loan.loanId ∧
      loan.loanId = "LOAN_a" ∧ loan.borrowDate = 1000 ∧ loan.dueDate = 1209601000 ∧
      loan.status = LoanStatus.Active ∧
      (stockedLibrary.borrowResource "U1" "B1" 1000 "a").2.activeLoans = [loan] ∧
      (stockedLibrary.borrowResource "U1" "B1" 1000 "a").2.findResourceById "B1" =
        some { sampleBook with status := ResourceStatus.Borrowed } := by
  obtain ⟨loan, h1, h2, _, _, _, h6, h7, _, h9, _, h11, h12, _⟩ :=
    borrowResource_succeeds stockedLibrary "U1" "B1" 1000 "a" sampleStudent sampleBook
      (by decide) (by decide) (by decide) (by decide) (by decide) (by decide) (by decide)
      (by decide)
  have hempty : stockedLibrary.activeLoans = [] := by decide
  exact ⟨by decide, by decide, loan, h1, by rw [h2]; decide, h6, by rw [h7]; decide, h9,
    by rw [h11, hempty]; rfl, h12⟩

/-- C4, as stated, fails: on a manager whose active loan is not among the current
loans of the owning user, `returnResource` returns `true` and the user is unchanged;
the loan history of the user has gained no loan. -/
theorem returnResource_effect_counterexample :
    unsyncedLibrary.findLoan "LOAN_a" = some sampleLoan ∧
    unsyncedLibrary.findUserById sampleLoan.userId = some sampleStudent ∧
    (unsyncedLibrary.returnResource "LOAN_a" 2000).1 = true ∧
    (unsyncedLibrary.returnResource "LOAN_a" 2000).2.findUserById sampleLoan.userId =
      some sampleStudent ∧
    ¬ ∃ l ∈ sampleStudent.loanHistory, l.loanId = "LOAN_a" := by
  decide

/-- C4 (amended) on the lending library: the return at time 2000. -/
theorem returnResource_effect_witness :
    lendingLibrary.findLoan "LOAN_a" = some sampleLoan ∧
    (lendingLibrary.returnResource "LOAN_a" 2000).1 = true ∧
    (lendingLibrary.returnResource "LOAN_a" 2000).2.loanHistory =
      [{ sampleLoan with status := LoanStatus.Returned, returnDate := some 2000 }] ∧
    (lendingLibrary.returnResource "LOAN_a" 2000).2.activeLoans = [] := by
  obtain ⟨h1, _, _, h4, h5, _⟩ :=
    returnResource_effect lendingLibrary "LOAN_a" 2000 sampleLoan (by decide)
  exact ⟨by decide, h1, by rw [h4]; decide, by rw [h5]; decide⟩

/-- C5 on the lending library: the loan is returned once; the second return is
refused. -/
theorem returnResource_once_witness :
    (lendingLibrary.activeLoans.map (fun l => l.loanId)).Nodup ∧
    lendingLibrary.findLoan "LOAN_a" = some sampleLoan ∧
    (lendingLibrary.returnResource "LOAN_a" 2000).1 = true ∧
    ((lendingLibrary.returnResource "LOAN_a" 2000).2.returnResource "LOAN_a" 3000 =
      (false, (lendingLibrary.returnResource "LOAN_a" 2000).2)) := by
  have hnd : (lendingLibrary.activeLoans.map (fun l => l.loanId)).Nodup := by decide
  obtain ⟨h1, _, _, h4, _⟩ :=
    returnResource_once lendingLibrary "LOAN_a" 2000 sampleLoan hnd (by decide)
  exact ⟨hnd, by decide, h1, h4 3000⟩

/-- C6 on the lending library: a renewal after the due date is refused. -/
theorem renewLoan_refused_witness :
    lendingLibrary.findLoan "LOAN_a" = some sampleLoan ∧
    (1300000000 : Int) > sampleLoan.dueDate ∧
    ((∃ e, (lendingLibrary.renewLoan "LOAN_a" 14 1300000000).1 = .error e) ∧
      (lendingLibrary.renewLoan "LOAN_a" 14 1300000000).2 = lendingLibrary) :=
  ⟨by decide, by decide,
    renewLoan_refused lendingLibrary "LOAN_a" 14 1300000000 sampleLoan (by decide)
      (Or.inr (Or.inl (by decide)))⟩

/-- C7 on the lending library: a renewal before the due date. -/
theorem renewLoan_succeeds_witness :
    lendingLibrary.findLoan "LOAN_a" = some sampleLoan ∧
    (lendingLibrary.renewLoan "LOAN_a" 14 2000).1 = .ok (some 2419201000) ∧
    (lendingLibrary.renewLoan "LOAN_a" 14 2000).2.activeLoans =
      [{ sampleLoan with dueDate := 2419201000, renewalCount := 1,
                         status := LoanStatus.Renewed }] := by
  obtain ⟨h1, h2, _, _⟩ :=
    renewLoan_succeeds lendingLibrary "LOAN_a" 14 2000 sampleLoan (by decide)
      (Or.inl (by decide)) (by decide) (by decide)
  exact ⟨by decide, by rw [h1]; rfl, by rw [h2]; decide⟩

/-- C8 on the stocked library: the available book cannot be reserved. -/
theorem reserveResource_available_fails_witness :
    stockedLibrary.findResourceById "B1" = some sampleBook ∧
    (∃ e, (stockedLibrary.reserveResource "U2" "B1" 2000 "r").1 = .error e) ∧
    (stockedLibrary.reserveResource "U2" "B1" 2000 "r").2 = stockedLibrary :=
  have h := reserveResource_available_fails stockedLibrary "U2" "B1" 2000 "r" sampleBook
    (by decide) (by decide)
  ⟨by decide, h.1, h.2.1⟩

theorem find?_eq_none_of_forall_ne {α : Type} (l : List α) (p : α → Bool)
    (h : ∀ a ∈ l, p a = false) : l.find? p = none := by
  rw [List.find?_eq_none]
  intro a ha
  simp [h a ha]

/-- C15: `removeResource` returns `false` and leaves the manager unchanged when no
resource has the id; it throws and leaves the manager unchanged when the resource
designated by the id is `Borrowed`; otherwise it returns `true` and the catalogue is
the old one with that resource taken out, the resources before and after it kept in
order, nothing else changing but the signal emitted. -/
theorem removeResource_outcomes (m : LibraryManager) (resourceId : String) :
    ((∀ r ∈ m.resources, r.id ≠ resourceId) →
      m.removeResource resourceId = (.ok false, m)) ∧
    (∀ r, m.findResourceById resourceId = some r → r.status = ResourceStatus.Borrowed →
      (∃ e, (m.removeResource resourceId).1 = .error e) ∧
        (m.removeResource resourceId).2 = m) ∧
    (∀ r, m.findResourceById resourceId = some r → r.status ≠ ResourceStatus.Borrowed →
      (m.removeResource resourceId).1 = .ok true ∧
      ∃ before after, m.resources = before ++ r :: after ∧
        (∀ b ∈ before, b.id ≠ resourceId) ∧
        (m.removeResource resourceId).2 =
          { m with resources := before ++ after,
                   emitted := m.emitted ++ [Signal.resourceRemoved resourceId] }) := by
  refine ⟨?_, ?_, ?_⟩
  · intro h
    have hnone : m.findResourceById resourceId = none :=
      find?_eq_none_of_forall_ne _ _ (fun r hr => by simpa using h r hr)
    simp [LibraryManager.removeResource, hnone]
  · intro r hr hs
    have hb : r.isBorrowed = true := by simp [Resource.isBorrowed, hs]
    simp [LibraryManager.removeResource, hr, hb]
  · intro r hr hs
    have hb : r.isBorrowed = false := by simp [Resource.isBorrowed, hs]
    obtain ⟨l₁, l₂, e1, e2, _, _, e5⟩ := modifyFirst_split
      (fun r : Resource => r.id == resourceId) id m.resources r hr
    refine ⟨by simp [LibraryManager.removeResource, hr, hb], l₁, l₂, e1, ?_, ?_⟩
    · intro b hb'
      simpa using e2 b hb'
    · simp [LibraryManager.removeResource, hr, hb, LibraryManager.emit, e5]

/-- C16: `removeUser` returns `false` and leaves the manager unchanged when no user
has the id; it throws and leaves the manager unchanged when the user designated by
the id holds at least one current loan; otherwise it returns `true` and the users
are the old ones with that user taken out, the users before and after kept in order,
nothing else changing but the signal emitted. -/
theorem removeUser_outcomes (m : LibraryManager) (userId : String) :
    ((∀ u ∈ m.users, u.userId ≠ userId) → m.removeUser userId = (.ok false, m)) ∧
    (∀ u, m.findUserById userId = some u → u.currentLoans ≠ [] →
      (∃ e, (m.removeUser userId).1 = .error e) ∧ (m.removeUser userId).2 = m) ∧
    (∀ u, m.findUserById userId = some u → u.currentLoans = [] →
      (m.removeUser userId).1 = .ok true ∧
      ∃ before after, m.users = before ++ u :: after ∧
        (∀ b ∈ before, b.userId ≠ userId) ∧
        (m.removeUser userId).2 =
          { m with users := before ++ after,
                   emitted := m.emitted ++ [Signal.userRemoved userId] }) := by
  refine ⟨?_, ?_, ?_⟩
  · intro h
    have hnone : m.findUserById userId = none :=
      find?_eq_none_of_forall_ne _ _ (fun u hu => by simpa using h u hu)
    simp [LibraryManager.removeUser, hnone]
  · intro u hu hl
    have hpos : u.getCurrentLoanCount > 0 := by
      unfold User.getCurrentLoanCount
      have : 0 < u.currentLoans.length := List.length_pos.mpr hl
      exact_mod_cast this
    simp [LibraryManager.removeUser, hu, hpos]
  · intro u hu hl
    have hzero : ¬ (u.getCurrentLoanCount > 0) := by
      simp [User.getCurrentLoanCount, hl]
    obtain ⟨l₁, l₂, e1, e2, _, _, e5⟩ := modifyFirst_split
      (fun u : User => u.userId == userId) id m.users u hu
    refine ⟨by simp [LibraryManager.removeUser, hu, hzero], l₁, l₂, e1, ?_, ?_⟩
    · intro b hb'
      simpa using e2 b hb'
    · simp [LibraryManager.removeUser, hu, hzero, LibraryManager.emit, e5]

/-- C17: for a non-null resource `r`, `addResource` throws if and only if the id, the
title or the author of `r` is empty or the catalogue already holds a resource with
the id of `r`; when it throws the manager is unchanged; when it returns the
catalogue is the old one followed by `r`, a `resourceAdded` signal for the id of `r`
is emitted and nothing else changes. -/
theorem addResource_outcomes (m : LibraryManager) (r : Resource) :
    ((∃ e, (m.addResource (some r)).1 = .error e) ↔
      (r.id = "" ∨ r.title = "" ∨ r.author = "" ∨ ∃ r' ∈ m.resources, r'.id = r.id)) ∧
    ((∃ e, (m.addResource (some r)).1 = .error e) → (m.addResource (some r)).2 = m) ∧
    ((m.addResource (some r)).1 = .ok () →
      (m.addResource (some r)).2 =
        { m with resources := m.resources ++ [r],
                 emitted := m.emitted ++ [Signal.resourceAdded r.id] }) := by
  by_cases hid : r.id = ""
  · have h1 : r.id.isEmpty = true := (String.isEmpty_iff _).mpr hid
    have hres : m.addResource (some r) =
        (.error (.LibraryManagerException "Resource ID cannot be empty"), m) := by
      simp [LibraryManager.addResource, LibraryManager.validateResourceData, h1]
    rw [hres]
    simp [hid]
  · have h1 : r.id.isEmpty = false := string_isEmpty_eq_false hid
    by_cases ht : r.title = ""
    · have h2 : r.title.isEmpty = true := (String.isEmpty_iff _).mpr ht
      have hres : m.addResource (some r) =
          (.error (.LibraryManagerException "Resource title cannot be empty"), m) := by
        simp [LibraryManager.addResource, LibraryManager.validateResourceData, h1, h2]
      rw [hres]
      simp [ht]
    · have h2 : r.title.isEmpty = false := string_isEmpty_eq_false ht
      by_cases ha : r.author = ""
      · have h3 : r.author.isEmpty = true := (String.isEmpty_iff _).mpr ha
        have hres : m.addResource (some r) =
            (.error (.LibraryManagerException "Resource author cannot be empty"), m) := by
          simp [LibraryManager.addResource, LibraryManager.validateResourceData, h1, h2, h3]
        rw [hres]
        simp [ha]
      · have h3 : r.author.isEmpty = false := string_isEmpty_eq_false ha
        cases hf : m.findResourceById r.id with
        | some r' =>
          have hmem : r' ∈ m.resources := List.mem_of_find?_eq_some hf
          have hrid : r'.id = r.id := by
            have := List.find?_some hf
            simpa using this
          have hres : m.addResource (some r) =
              (.error (.LibraryManagerException
                ("Resource with ID " ++ r.id ++ " already exists")), m) := by
            simp [LibraryManager.addResource, LibraryManager.validateResourceData, h1, h2,
              h3, hf]
          rw [hres]
          refine ⟨⟨fun _ => Or.inr (Or.inr (Or.inr ⟨r', hmem, hrid⟩)), fun _ => ⟨_, rfl⟩⟩,
            fun _ => rfl, ?_⟩
          intro h
          exact absurd h (by simp)
        | none =>
          have hno : ¬ ∃ r' ∈ m.resources, r'.id = r.id := by
            rintro ⟨r', hr', hrid⟩
            have := (List.find?_eq_none.mp hf) r' hr'
            simp [hrid] at this
          have hres : m.addResource (some r) =
              (.ok (),
                { m with resources := m.resources ++ [r],
                         emitted := m.emitted ++ [Signal.resourceAdded r.id] }) := by
            simp [LibraryManager.addResource, LibraryManager.validateResourceData, h1, h2,
              h3, hf, LibraryManager.emit]
          rw [hres]
          refine ⟨⟨?_, ?_⟩, ?_, fun _ => rfl⟩
          · rintro ⟨e, he⟩
            exact absurd he (by simp)
          · rintro (h | h | h | h)
            · exact absurd h hid
            · exact absurd h ht
            · exact absurd h ha
            · exact absurd h hno
          · rintro ⟨e, he⟩
            exact absurd he (by simp)

/-! ## The reservation queue and its notification -/

/-- C11: `getResourceReservations` returns a list sorted in non-decreasing order of
`reservationDate` that is a permutation of the reservations of the active collection
whose `resourceId` is the given id and whose status is `Active`; being a function of
the manager, it changes nothing. -/
theorem getResourceReservations_sorted_perm (m : LibraryManager) (resourceId : String) :
    List.Pairwise (fun a b : Reservation => a.reservationDate ≤ b.reservationDate)
      (m.getResourceReservations resourceId) ∧
    List.Perm (m.getResourceReservations resourceId)
      (m.activeReservations.filter
        (fun r => r.resourceId == resourceId && r.status == ReservationStatus.Active)) := by
  haveI : IsTotal Reservation (fun a b => a.reservationDate ≤ b.reservationDate) :=
    ⟨fun a b => le_total a.reservationDate b.reservationDate⟩
  haveI : IsTrans Reservation (fun a b => a.reservationDate ≤ b.reservationDate) :=
    ⟨fun _ _ _ hab hbc => le_trans hab hbc⟩
  exact ⟨List.sorted_insertionSort _ _, List.perm_insertionSort _ _⟩

theorem getResourceReservations_nil (m : LibraryManager) (resourceId : String)
    (h : m.getResourceReservations resourceId = []) :
    m.activeReservations.filter
      (fun r => r.resourceId == resourceId && r.status == ReservationStatus.Active) = [] := by
  have hperm := List.perm_insertionSort
    (fun a b : Reservation => a.reservationDate ≤ b.reservationDate)
    (m.activeReservations.filter (fun r => r.resourceId == resourceId && r.isActive))
  have h' : (m.activeReservations.filter
      (fun r => r.resourceId == resourceId && r.isActive)).insertionSort
      (fun a b => a.reservationDate ≤ b.reservationDate) = [] := h
  rw [h'] at hperm
  exact List.Perm.eq_nil hperm.symm

theorem getResourceReservations_head (m : LibraryManager) (resourceId : String)
    (first : Reservation) (rest : List Reservation)
    (h : m.getResourceReservations resourceId = first :: rest) :
    first ∈ m.activeReservations ∧ first.resourceId = resourceId ∧
    first.status = ReservationStatus.Active ∧
    (∀ r ∈ m.activeReservations, r.resourceId = resourceId →
      r.status = ReservationStatus.Active →
        first.reservationDate ≤ r.reservationDate) := by
  haveI : IsTotal Reservation (fun a b => a.reservationDate ≤ b.reservationDate) :=
    ⟨fun a b => le_total a.reservationDate b.reservationDate⟩
  haveI : IsTrans Reservation (fun a b => a.reservationDate ≤ b.reservationDate) :=
    ⟨fun _ _ _ hab hbc => le_trans hab hbc⟩
  have hperm := List.perm_insertionSort
    (fun a b : Reservation => a.reservationDate ≤ b.reservationDate)
    (m.activeReservations.filter (fun r => r.resourceId == resourceId && r.isActive))
  have hsorted := List.sorted_insertionSort
    (fun a b : Reservation => a.reservationDate ≤ b.reservationDate)
    (m.activeReservations.filter (fun r => r.resourceId == resourceId && r.isActive))
  have h' : (m.activeReservations.filter
      (fun r => r.resourceId == resourceId && r.isActive)).insertionSort
      (fun a b => a.reservationDate ≤ b.reservationDate) = first :: rest := h
  rw [h'] at hperm hsorted
  have hmem : first ∈ m.activeReservations.filter
      (fun r => r.resourceId == resourceId && r.isActive) :=
    hperm.subset (List.mem_cons_self _ _)
  have hprops := List.mem_filter.mp hmem
  have hp : first.resourceId = resourceId ∧ first.status = ReservationStatus.Active := by
    simpa [Reservation.isActive] using hprops.2
  refine ⟨hprops.1, hp.1, hp.2, ?_⟩
  intro r hr hrid hst
  have hrmem : r ∈ m.activeReservations.filter
      (fun r => r.resourceId == resourceId && r.isActive) :=
    List.mem_filter.mpr ⟨hr, by simp [Reservation.isActive, hrid, hst]⟩
  have hr' : r ∈ first :: rest := hperm.symm.subset hrmem
  rcases List.mem_cons.mp hr' with rfl | hr'
  · exact le_refl _
  · exact (List.pairwise_cons.mp hsorted).1 r hr'

/-- C12: `notifyWhenResourceAvailable` changes nothing but the signal log. When no
`Active` reservation of the active collection is for the resource it emits nothing.
Otherwise the head of the queue is an `Active` reservation for the resource whose
`reservationDate` is earliest among them; when that reservation is not expired
(`now ≤ expirationDate`) exactly one `reservedResourceAvailable` signal naming its
reservation id and user id is emitted, and when it is expired nothing is emitted. -/
theorem notifyWhenResourceAvailable_effect (m : LibraryManager) (resourceId : String)
    (now : QDateTime) :
    (m.activeReservations.filter
        (fun r => r.resourceId == resourceId && r.status == ReservationStatus.Active) = [] ∧
      m.notifyWhenResourceAvailable resourceId now = m) ∨
    ∃ first : Reservation,
      first ∈ m.activeReservations ∧ first.resourceId = resourceId ∧
      first.status = ReservationStatus.Active ∧
      (∀ r ∈ m.activeReservations, r.resourceId = resourceId →
        r.status = ReservationStatus.Active →
          first.reservationDate ≤ r.reservationDate) ∧
      ((now ≤ first.expirationDate ∧
          m.notifyWhenResourceAvailable resourceId now =
            { m with emitted := m.emitted ++
                [Signal.reservedResourceAvailable first.reservationId first.userId
                  resourceId] }) ∨
        (now > first.expirationDate ∧
          m.notifyWhenResourceAvailable resourceId now = m)) := by
  cases hq : m.getResourceReservations resourceId with
  | nil =>
    left
    exact ⟨getResourceReservations_nil m resourceId hq,
      by simp [LibraryManager.notifyWhenResourceAvailable, hq]⟩
  | cons first rest =>
    right
    obtain ⟨h1, h2, h3, h4⟩ := getResourceReservations_head m resourceId first rest hq
    refine ⟨first, h1, h2, h3, h4, ?_⟩
    by_cases hexp : now ≤ first.expirationDate
    · left
      have hng : ¬ (now > first.expirationDate) := not_lt.mpr hexp
      refine ⟨hexp, ?_⟩
      simp [LibraryManager.notifyWhenResourceAvailable, hq, Reservation.canBeFulfilled,
        Reservation.isExpired, h3, hng, LibraryManager.emit]
    · right
      have hgt : now > first.expirationDate := not_le.mp hexp
      refine ⟨hgt, ?_⟩
      simp [LibraryManager.notifyWhenResourceAvailable, hq, Reservation.canBeFulfilled,
        Reservation.isExpired, h3, hgt]

/-! ## The sweep of expired reservations -/

theorem filter_expired_of_kept (now : QDateTime) (l : List Reservation) :
    (l.filter (fun r => !r.isExpired now)).filter (fun r => r.isExpired now) = [] := by
  rw [List.filter_eq_nil_iff]
  intro r hr
  have := (List.mem_filter.mp hr).2
  simpa using this

theorem filter_kept_of_kept (now : QDateTime) (l : List Reservation) :
    (l.filter (fun r => !r.isExpired now)).filter (fun r => !r.isExpired now) =
      l.filter (fun r => !r.isExpired now) := by
  rw [List.filter_filter]
  congr 1
  funext r
  simp

/-- C13: `processExpiredReservations` moves exactly the active reservations with
status `Active` and `now > expirationDate`, in their order, to the end of the
reservation history with status `Expired`, keeps the other active reservations in
their order, emits one `reservationExpired` signal per moved reservation, in order,
and returns `true` if and only if some reservation was moved; a second call at the
same `now` returns `false` and changes nothing; and when the only active reservation
was created with the seven-day default at time `t`, the sweep eight days later
returns `true`, leaves no active reservation, appends that reservation with status
`Expired` to the history and emits exactly one signal. -/
theorem processExpiredReservations_effect (m : LibraryManager) (now : QDateTime) :
    m.processExpiredReservations now =
      (!(m.activeReservations.filter
          (fun r => decide (now > r.expirationDate) &&
            r.status == ReservationStatus.Active)).isEmpty,
        { m with
          activeReservations := m.activeReservations.filter
            (fun r => !(decide (now > r.expirationDate) &&
              r.status == ReservationStatus.Active)),
          reservationHistory := m.reservationHistory ++
            (m.activeReservations.filter
              (fun r => decide (now > r.expirationDate) &&
                r.status == ReservationStatus.Active)).map
              (fun r => { r with status := ReservationStatus.Expired }),
          emitted := m.emitted ++
            (m.activeReservations.filter
              (fun r => decide (now > r.expirationDate) &&
                r.status == ReservationStatus.Active)).map
              (fun r =>
                Signal.reservationExpired r.reservationId r.userId r.resourceId) }) ∧
    ((m.processExpiredReservations now).1 = true ↔
      ∃ r ∈ m.activeReservations,
        r.status = ReservationStatus.Active ∧ now > r.expirationDate) ∧
    ((m.processExpiredReservations now).2.processExpiredReservations now =
      (false, (m.processExpiredReservations now).2)) ∧
    (∀ (m₀ : LibraryManager) (userId resourceId title uuid : String) (t : QDateTime),
      m₀.activeReservations = [Reservation.new userId resourceId title 7 t uuid] →
      m₀.processExpiredReservations (addDays t 8) =
        (true,
          { m₀ with
            activeReservations := [],
            reservationHistory := m₀.reservationHistory ++
              [{ Reservation.new userId resourceId title 7 t uuid with
                  status := ReservationStatus.Expired }],
            emitted := m₀.emitted ++
              [Signal.reservationExpired (Reservation.generateReservationId uuid)
                userId resourceId] })) := by
  refine ⟨processExpiredReservations_eq m now, ?_, ?_, ?_⟩
  · rw [processExpiredReservations_eq]
    simp only [Bool.not_eq_true', List.isEmpty_eq_true]
    constructor
    · intro h
      cases hl : m.activeReservations.filter (fun r => r.isExpired now) with
      | nil => simp [hl] at h
      | cons r rest =>
        have hmem : r ∈ m.activeReservations.filter (fun r => r.isExpired now) := by
          rw [hl]; exact List.mem_cons_self _ _
        have hprops := List.mem_filter.mp hmem
        have hp : now > r.expirationDate ∧ r.status = ReservationStatus.Active := by
          simpa [Reservation.isExpired] using hprops.2
        exact ⟨r, hprops.1, hp.2, hp.1⟩
    · rintro ⟨r, hr, hst, hgt⟩
      have hmem : r ∈ m.activeReservations.filter (fun r => r.isExpired now) :=
        List.mem_filter.mpr ⟨hr, by simp [Reservation.isExpired, hst, hgt]⟩
      cases hl : m.activeReservations.filter (fun r => r.isExpired now) with
      | nil => rw [hl] at hmem; simp at hmem
      | cons r rest => simp
  · rw [processExpiredReservations_eq m now, processExpiredReservations_eq]
    simp only [filter_expired_of_kept, filter_kept_of_kept, List.map_nil, List.append_nil,
      List.isEmpty_nil, Bool.not_true]
  · intro m₀ userId resourceId title uuid t h
    have hlt : addDays t 7 < addDays t 8 := by
      unfold addDays
      have h78 : (7 : Int) * msPerDay < 8 * msPerDay := by decide
      exact add_lt_add_left h78 t
    rw [processExpiredReservations_eq, h]
    simp [Reservation.isExpired, Reservation.new, Reservation.setStatus, hlt]

/-! ## Cancelling a reservation -/

theorem activeReservations_status_step (m : LibraryManager) (op : LibraryManager.Op)
    (h : ∀ r ∈ m.activeReservations, r.status = ReservationStatus.Active) :
    ∀ r ∈ (LibraryManager.applyOp m op).activeReservations,
      r.status = ReservationStatus.Active := by
  have hsub : ∀ m' : LibraryManager, m'.activeReservations.Sublist m.activeReservations →
      ∀ r ∈ m'.activeReservations, r.status = ReservationStatus.Active :=
    fun m' hs r hr => h r (hs.subset hr)
  cases op with
  | addResource res =>
    apply hsub
    rcases addResource_cases m res with hm | ⟨_, _, _, _, hm⟩ <;>
      simp [LibraryManager.applyOp, hm]
  | removeResource id =>
    apply hsub
    rcases removeResource_cases m id with hm | ⟨_, _, _, hm⟩ <;>
      simp [LibraryManager.applyOp, hm]
  | addUser user =>
    apply hsub
    obtain ⟨_, _, hm, _⟩ := addUser_frame m user
    simp [LibraryManager.applyOp, hm]
  | removeUser id =>
    apply hsub
    obtain ⟨_, _, hm, _⟩ := removeUser_frame m id
    simp [LibraryManager.applyOp, hm]
  | borrowResource userId resourceId now uuid =>
    apply hsub
    rcases borrowResource_cases m userId resourceId now uuid with
      hm | ⟨_, _, _, _, _, _, _, _, hm⟩ <;>
      simp [LibraryManager.applyOp, hm]
  | returnResource loanId now =>
    apply hsub
    rcases returnResource_cases m loanId now with hm | ⟨_, _, _, _, _, hm⟩ <;>
      simp [LibraryManager.applyOp, hm]
  | renewLoan loanId days now =>
    apply hsub
    obtain ⟨_, _, _, hm⟩ := renewLoan_frame m loanId days now
    simp [LibraryManager.applyOp, hm]
  | reserveResource userId resourceId now uuid =>
    rcases reserveResource_cases m userId resourceId now uuid with
      hm | ⟨res, sigs, _, _, hst, _, hm⟩
    · apply hsub
      simp [LibraryManager.applyOp, hm]
    · intro r hr
      simp only [LibraryManager.applyOp, hm, List.mem_append, List.mem_singleton] at hr
      rcases hr with hr | rfl
      · exact h r hr
      · exact hst
  | cancelReservation id =>
    apply hsub
    obtain ⟨_, _, _, hs, hm⟩ := cancelReservation_frame m id
    simpa [LibraryManager.applyOp, hm] using hs
  | cancelUserReservation userId resourceId =>
    apply hsub
    obtain ⟨_, _, _, hs, hm⟩ := cancelUserReservation_frame m userId resourceId
    simpa [LibraryManager.applyOp, hm] using hs
  | processExpiredReservations now =>
    apply hsub
    obtain ⟨_, _, _, hs, hm⟩ := processExpiredReservations_frame m now
    simpa [LibraryManager.applyOp, hm] using hs

theorem activeReservations_status_foldl (ops : List LibraryManager.Op) :
    ∀ m : LibraryManager,
      (∀ r ∈ m.activeReservations, r.status = ReservationStatus.Active) →
      ∀ r ∈ (ops.foldl LibraryManager.applyOp m).activeReservations,
        r.status = ReservationStatus.Active := by
  induction ops with
  | nil => intro m h; simpa using h
  | cons op ops ih =>
    intro m h
    simpa using ih _ (activeReservations_status_step m op h)

theorem activeReservations_status_run (ops : List LibraryManager.Op) :
    ∀ r ∈ (LibraryManager.run ops).activeReservations,
      r.status = ReservationStatus.Active :=
  activeReservations_status_foldl ops LibraryManager.empty
    (by simp [LibraryManager.empty])

/-- C14: in every manager reached from the empty manager by the operations of `Op`
(the add and remove, loan and reservation operations; the loading interface
`addActiveReservation` is not one of them), `cancelReservation` never throws and
returns `true` if and only if the active reservations hold a reservation with the id; in that case the (first) reservation
with the id is taken out of the active reservations, the others keeping their order,
and is appended to the reservation history with status `Cancelled`, nothing else
changing but the signal emitted; when no active reservation has the id it returns
`false` and the manager is unchanged. -/
theorem cancelReservation_outcomes (ops : List LibraryManager.Op)
    (reservationId : String) :
    (((LibraryManager.run ops).cancelReservation reservationId).1 = .ok true ↔
      ∃ r ∈ (LibraryManager.run ops).activeReservations,
        r.reservationId = reservationId) ∧
    (∀ r, (LibraryManager.run ops).activeReservations.find?
        (fun r => r.reservationId == reservationId) = some r →
      ∃ before after,
        (LibraryManager.run ops).activeReservations = before ++ r :: after ∧
        (∀ b ∈ before, b.reservationId ≠ reservationId) ∧
        (LibraryManager.run ops).cancelReservation reservationId =
          (.ok true,
            { LibraryManager.run ops with
              activeReservations := before ++ after,
              reservationHistory := (LibraryManager.run ops).reservationHistory ++
                [{ r with status := ReservationStatus.Cancelled }],
              emitted := (LibraryManager.run ops).emitted ++
                [Signal.reservationCancelled reservationId r.userId r.resourceId] })) ∧
    ((∀ r ∈ (LibraryManager.run ops).activeReservations,
        r.reservationId ≠ reservationId) →
      (LibraryManager.run ops).cancelReservation reservationId =
        (.ok false, LibraryManager.run ops)) := by
  have hact := activeReservations_status_run ops
  have hfound : ∀ r, (LibraryManager.run ops).activeReservations.find?
      (fun r => r.reservationId == reservationId) = some r →
      ∃ before after,
        (LibraryManager.run ops).activeReservations = before ++ r :: after ∧
        (∀ b ∈ before, b.reservationId ≠ reservationId) ∧
        (LibraryManager.run ops).cancelReservation reservationId =
          (.ok true,
            { LibraryManager.run ops with
              activeReservations := before ++ after,
              reservationHistory := (LibraryManager.run ops).reservationHistory ++
                [{ r with status := ReservationStatus.Cancelled }],
              emitted := (LibraryManager.run ops).emitted ++
                [Signal.reservationCancelled reservationId r.userId r.resourceId] }) := by
    intro r hr
    have hst : r.status = ReservationStatus.Active := hact r (List.mem_of_find?_eq_some hr)
    obtain ⟨l₁, l₂, e1, e2, _, _, e5⟩ := modifyFirst_split
      (fun r : Reservation => r.reservationId == reservationId) id
      (LibraryManager.run ops).activeReservations r hr
    refine ⟨l₁, l₂, e1, ?_, ?_⟩
    · intro b hb
      simpa using e2 b hb
    · simp [LibraryManager.cancelReservation, hr, Reservation.cancelReservation, hst,
        LibraryManager.emit, e5]
  have hnotfound : (∀ r ∈ (LibraryManager.run ops).activeReservations,
        r.reservationId ≠ reservationId) →
      (LibraryManager.run ops).cancelReservation reservationId =
        (.ok false, LibraryManager.run ops) := by
    intro h
    have hnone := find?_eq_none_of_forall_ne (LibraryManager.run ops).activeReservations
      (fun r => r.reservationId == reservationId) (fun r hr => by simpa using h r hr)
    simp [LibraryManager.cancelReservation, hnone]
  refine ⟨⟨?_, ?_⟩, hfound, hnotfound⟩
  · intro htrue
    by_contra hno
    have hall : ∀ r ∈ (LibraryManager.run ops).activeReservations,
        r.reservationId ≠ reservationId := by
      intro r hr he
      exact hno ⟨r, hr, he⟩
    rw [hnotfound hall] at htrue
    simp at htrue
  · rintro ⟨r, hr, hid⟩
    cases hf : (LibraryManager.run ops).activeReservations.find?
        (fun r => r.reservationId == reservationId) with
    | none =>
      have := (List.find?_eq_none.mp hf) r hr
      simp [hid] at this
    | some r' =>
      obtain ⟨_, _, _, _, heq⟩ := hfound r' hf
      rw [heq]

/-! ## The users after a borrow or a return -/

theorem borrowResource_users (m : LibraryManager) (userId resourceId : String)
    (now : QDateTime) (uuid : String) :
    (m.borrowResource userId resourceId now uuid).2.users = m.users ∨
    ∃ user loan, m.findUserById userId = some user ∧ user.canBorrow = true ∧
      (m.borrowResource userId resourceId now uuid).2.users =
        modifyFirst (fun u => u.userId == userId)
          (fun _ => { user with currentLoans := user.currentLoans ++ [loan],
                                lastActivity := now }) m.users := by
  cases hu : m.findUserById userId with
  | none => left; simp [LibraryManager.borrowResource, hu]
  | some user =>
    cases hr : m.findResourceById resourceId with
    | none => left; simp [LibraryManager.borrowResource, hu, hr]
    | some resource =>
      cases hc : user.canBorrow with
      | false => left; simp [LibraryManager.borrowResource, hu, hr, hc]
      | true =>
        cases hav : resource.isAvailable with
        | false => left; simp [LibraryManager.borrowResource, hu, hr, hc, hav]
        | true =>
          cases hl : Loan.new (Loan.generateLoanId uuid) userId resourceId resource.title now
              (m.calculateDueDate 0 now) 3 now with
          | error e => left; simp [LibraryManager.borrowResource, hu, hr, hc, hav, hl]
          | ok loan =>
            right
            refine ⟨user, loan, rfl, hc, ?_⟩
            simp only [LibraryManager.borrowResource, hu, hr, hc, hav, hl, Bool.not_true,
              Bool.false_eq_true, if_false, User.addCurrentLoan_ok user loan now hc,
              LibraryManager.emit]

theorem returnResource_users (m : LibraryManager) (loanId : String) (now : QDateTime) :
    (m.returnResource loanId now).2.users = m.users ∨
    ∃ loan, m.findLoan loanId = some loan ∧
      (m.returnResource loanId now).2.users =
        modifyFirst (fun u => u.userId == loan.userId)
          (fun u => u.moveLoanToHistory loanId now) m.users := by
  cases hf : m.findLoan loanId with
  | none =>
    left
    simp [LibraryManager.returnResource, hf]
  | some loan =>
    right
    obtain ⟨sigs, hn⟩ := notifyWhenResourceAvailable_eq
      ({ m with
        resources :=
          (modifyFirst (fun r => r.id == loan.resourceId)
            (fun r => r.setStatus ResourceStatus.Available) m.resources),
        users :=
          (modifyFirst (fun u => u.userId == loan.userId)
            (fun u => u.moveLoanToHistory loanId now) m.users),
        activeLoans := m.activeLoans.eraseP (fun l => l.loanId == loanId),
        loanHistory := m.loanHistory ++
          [{ loan with returnDate := some now, status := LoanStatus.Returned }],
        emitted := m.emitted ++
          [Signal.resourceReturned loanId loan.userId loan.resourceId] })
      loan.resourceId now
    refine ⟨loan, rfl, ?_⟩
    rw [returnResource_eq m loanId now loan hf, hn]

theorem User.moveLoanToHistory_email (u : User) (loanId : String) (now : QDateTime) :
    (u.moveLoanToHistory loanId now).email = u.email := by
  unfold User.moveLoanToHistory
  split <;> rfl

theorem User.moveLoanToHistory_maxBorrowLimit (u : User) (loanId : String)
    (now : QDateTime) :
    (u.moveLoanToHistory loanId now).maxBorrowLimit = u.maxBorrowLimit := by
  unfold User.moveLoanToHistory
  split <;> rfl

theorem User.moveLoanToHistory_length_le (u : User) (loanId : String) (now : QDateTime) :
    (u.moveLoanToHistory loanId now).currentLoans.length ≤ u.currentLoans.length := by
  unfold User.moveLoanToHistory
  split
  · exact (List.eraseP_sublist _).length_le
  · exact le_refl _

/-! ## Ids are pairwise distinct -/

theorem UniqueIds_step (m : LibraryManager) (op : LibraryManager.Op)
    (h : m.UniqueIds) : (LibraryManager.applyOp m op).UniqueIds := by
  obtain ⟨hr, hu, he⟩ := h
  cases op with
  | addResource res =>
    rcases addResource_cases m res with hm | ⟨r, _, hnew, _, hm⟩
    · simp only [LibraryManager.applyOp, hm]
      exact ⟨hr, hu, he⟩
    · simp only [LibraryManager.applyOp, hm]
      refine ⟨?_, hu, he⟩
      simp only [List.map_append, List.map_cons, List.map_nil]
      rw [List.nodup_append]
      refine ⟨hr, by simp, ?_⟩
      intro a ha hb
      simp only [List.mem_singleton] at hb
      obtain ⟨x, hx, hxa⟩ := List.mem_map.mp ha
      have := (List.find?_eq_none.mp hnew) x hx
      simp [hxa, hb] at this
  | removeResource id =>
    rcases removeResource_cases m id with hm | ⟨_, _, _, hm⟩
    · simp only [LibraryManager.applyOp, hm]
      exact ⟨hr, hu, he⟩
    · simp only [LibraryManager.applyOp, hm]
      exact ⟨List.Nodup.sublist (List.Sublist.map _ (List.eraseP_sublist _)) hr, hu, he⟩
  | addUser user =>
    obtain ⟨us, _, hm, hus⟩ := addUser_frame m user
    simp only [LibraryManager.applyOp, hm]
    rcases hus with rfl | ⟨u, rfl, _, hfid, hfemail⟩
    · exact ⟨hr, hu, he⟩
    · refine ⟨hr, ?_, ?_⟩
      · simp only [List.map_append, List.map_cons, List.map_nil]
        rw [List.nodup_append]
        refine ⟨hu, by simp, ?_⟩
        intro a ha hb
        simp only [List.mem_singleton] at hb
        obtain ⟨x, hx, hxa⟩ := List.mem_map.mp ha
        have := (List.find?_eq_none.mp hfid) x hx
        simp [hxa, hb] at this
      · simp only [List.map_append, List.map_cons, List.map_nil]
        rw [List.nodup_append]
        refine ⟨he, by simp, ?_⟩
        intro a ha hb
        simp only [List.mem_singleton] at hb
        obtain ⟨x, hx, hxa⟩ := List.mem_map.mp ha
        have := (List.find?_eq_none.mp hfemail) x hx
        simp [hxa, hb] at this
  | removeUser id =>
    obtain ⟨us, _, hm, hsub⟩ := removeUser_frame m id
    simp only [LibraryManager.applyOp, hm]
    exact ⟨hr, List.Nodup.sublist (List.Sublist.map _ hsub) hu,
      List.Nodup.sublist (List.Sublist.map _ hsub) he⟩
  | borrowResource userId resourceId now uuid =>
    have hres : (m.borrowResource userId resourceId now uuid).2.resources.map
        (fun r => r.id) = m.resources.map (fun r => r.id) := by
      rcases borrowResource_cases m userId resourceId now uuid with
        hm | ⟨_, _, _, _, _, _, _, _, hm⟩
      · rw [hm]
      · rw [hm]
        exact map_modifyFirst (fun r : Resource => r.id == resourceId)
          (fun r => r.setStatus ResourceStatus.Borrowed) (fun r => r.id) (fun _ => rfl) _
    have husers : (m.borrowResource userId resourceId now uuid).2.users.map
          (fun u => u.userId) = m.users.map (fun u => u.userId) ∧
        (m.borrowResource userId resourceId now uuid).2.users.map
          (fun u => u.email) = m.users.map (fun u => u.email) := by
      rcases borrowResource_users m userId resourceId now uuid with
        hm | ⟨user, loan, hfind, _, hm⟩
      · rw [hm]; exact ⟨rfl, rfl⟩
      · rw [hm]
        exact ⟨map_modifyFirst_const (fun u : User => u.userId == userId)
            (fun u => u.userId) m.users user _ hfind rfl,
          map_modifyFirst_const (fun u : User => u.userId == userId)
            (fun u => u.email) m.users user _ hfind rfl⟩
    simp only [LibraryManager.applyOp]
    unfold LibraryManager.UniqueIds
    rw [hres, husers.1, husers.2]
    exact ⟨hr, hu, he⟩
  | returnResource loanId now =>
    have hres : (m.returnResource loanId now).2.resources.map
        (fun r => r.id) = m.resources.map (fun r => r.id) := by
      rcases returnResource_cases m loanId now with hm | ⟨loan, _, _, _, _, hm⟩
      · rw [hm]
      · rw [hm]
        exact map_modifyFirst (fun r : Resource => r.id == loan.resourceId)
          (fun r => r.setStatus ResourceStatus.Available) (fun r => r.id) (fun _ => rfl) _
    have husers : (m.returnResource loanId now).2.users.map
          (fun u => u.userId) = m.users.map (fun u => u.userId) ∧
        (m.returnResource loanId now).2.users.map
          (fun u => u.email) = m.users.map (fun u => u.email) := by
      rcases returnResource_users m loanId now with hm | ⟨loan, _, hm⟩
      · rw [hm]; exact ⟨rfl, rfl⟩
      · rw [hm]
        exact ⟨map_modifyFirst (fun u : User => u.userId == loan.userId)
            (fun u => u.moveLoanToHistory loanId now) (fun u => u.userId)
            (fun u => User.moveLoanToHistory_userId u loanId now) m.users,
          map_modifyFirst (fun u : User => u.userId == loan.userId)
            (fun u => u.moveLoanToHistory loanId now) (fun u => u.email)
            (fun u => User.moveLoanToHistory_email u loanId now) m.users⟩
    simp only [LibraryManager.applyOp]
    unfold LibraryManager.UniqueIds
    rw [hres, husers.1, husers.2]
    exact ⟨hr, hu, he⟩
  | renewLoan loanId days now =>
    obtain ⟨_, _, _, hm⟩ := renewLoan_frame m loanId days now
    simp only [LibraryManager.applyOp, hm]
    exact ⟨hr, hu, he⟩
  | reserveResource userId resourceId now uuid =>
    rcases reserveResource_cases m userId resourceId now uuid with
      hm | ⟨_, _, _, _, _, _, hm⟩
    · simp only [LibraryManager.applyOp, hm]
      exact ⟨hr, hu, he⟩
    · simp only [LibraryManager.applyOp, hm]
      exact ⟨hr, hu, he⟩
  | cancelReservation id =>
    obtain ⟨_, _, _, _, hm⟩ := cancelReservation_frame m id
    simp only [LibraryManager.applyOp, hm]
    exact ⟨hr, hu, he⟩
  | cancelUserReservation userId resourceId =>
    obtain ⟨_, _, _, _, hm⟩ := cancelUserReservation_frame m userId resourceId
    simp only [LibraryManager.applyOp, hm]
    exact ⟨hr, hu, he⟩
  | processExpiredReservations now =>
    obtain ⟨_, _, _, _, hm⟩ := processExpiredReservations_frame m now
    simp only [LibraryManager.applyOp, hm]
    exact ⟨hr, hu, he⟩

theorem UniqueIds_foldl (ops : List LibraryManager.Op) :
    ∀ m : LibraryManager, m.UniqueIds →
      (ops.foldl LibraryManager.applyOp m).UniqueIds := by
  induction ops with
  | nil => intro m h; simpa using h
  | cons op ops ih =>
    intro m h
    simpa using ih _ (UniqueIds_step m op h)

theorem find?_of_nodup_map {α β : Type} [DecidableEq β] (g : α → β) (l : List α)
    (hnd : (l.map g).Nodup) (a : α) (ha : a ∈ l) :
    l.find? (fun x => g x == g a) = some a := by
  cases hf : l.find? (fun x => g x == g a) with
  | none =>
    have := (List.find?_eq_none.mp hf) a ha
    simp at this
  | some b =>
    have hb : b ∈ l := List.mem_of_find?_eq_some hf
    have hgb : g b = g a := by
      have := List.find?_some hf
      simpa using this
    rw [List.inj_on_of_nodup_map hnd hb ha hgb]

/-- C18: in every manager reached from the empty manager by the operations
(`addResource`, `removeResource`, `addUser`, `removeUser` interleaved with the loan
and reservation operations) the resource ids are pairwise distinct, the user ids are
pairwise distinct and the user e-mail addresses are pairwise distinct; hence
`findResourceById` and `findUserById` return the one entity that carries the id, and
nothing when no entity carries it. -/
theorem ids_pairwise_distinct (ops : List LibraryManager.Op) :
    ((LibraryManager.run ops).resources.map (fun r => r.id)).Nodup ∧
    ((LibraryManager.run ops).users.map (fun u => u.userId)).Nodup ∧
    ((LibraryManager.run ops).users.map (fun u => u.email)).Nodup ∧
    (∀ r ∈ (LibraryManager.run ops).resources,
      (LibraryManager.run ops).findResourceById r.id = some r) ∧
    (∀ u ∈ (LibraryManager.run ops).users,
      (LibraryManager.run ops).findUserById u.userId = some u) ∧
    (∀ id, (∀ r ∈ (LibraryManager.run ops).resources, r.id ≠ id) →
      (LibraryManager.run ops).findResourceById id = none) ∧
    (∀ id, (∀ u ∈ (LibraryManager.run ops).users, u.userId ≠ id) →
      (LibraryManager.run ops).findUserById id = none) := by
  obtain ⟨hr, hu, he⟩ := UniqueIds_foldl ops LibraryManager.empty
    ⟨by simp [LibraryManager.empty], by simp [LibraryManager.empty],
      by simp [LibraryManager.empty]⟩
  refine ⟨hr, hu, he, ?_, ?_, ?_, ?_⟩
  · intro r hmem
    exact find?_of_nodup_map (fun r : Resource => r.id) _ hr r hmem
  · intro u hmem
    exact find?_of_nodup_map (fun u : User => u.userId) _ hu u hmem
  · intro id h
    exact find?_eq_none_of_forall_ne _ _ (fun r hmem => by simpa using h r hmem)
  · intro id h
    exact find?_eq_none_of_forall_ne _ _ (fun u hmem => by simpa using h u hmem)

/-! ## The borrow limit -/

theorem forall₂_self {α : Type} (R : α → α → Prop) (hrefl : ∀ a, R a a) :
    ∀ l : List α, List.Forall₂ R l l := by
  intro l
  induction l with
  | nil => exact List.Forall₂.nil
  | cons x xs ih => exact List.Forall₂.cons (hrefl x) ih

theorem forall₂_modifyFirst {α : Type} (R : α → α → Prop) (hrefl : ∀ a, R a a)
    (p : α → Bool) (f : α → α) :
    ∀ l : List α, (∀ a, l.find? p = some a → R a (f a)) →
      List.Forall₂ R l (modifyFirst p f l) := by
  intro l
  induction l with
  | nil => intro _; exact List.Forall₂.nil
  | cons x xs ih =>
    intro h
    by_cases hx : p x = true
    · have hfx : R x (f x) := h x (by simp [List.find?, hx])
      simp only [modifyFirst, hx, if_true]
      exact List.Forall₂.cons hfx (forall₂_self R hrefl xs)
    · have hx' : p x = false := by simpa using hx
      simp only [modifyFirst, hx', Bool.false_eq_true, if_false]
      refine List.Forall₂.cons (hrefl x) (ih ?_)
      intro a ha
      exact h a (by simpa [List.find?, hx'] using ha)

/-- C19: `User::addCurrentLoan`, when it returns, leaves a user within the borrow
limit, and throws, adding nothing, for a user who holds `maxBorrowLimit` current
loans or more; `borrowResource` and `returnResource` leave the users in place, each
with its id and limit, and every user who was within the limit before is within it
afterwards; `borrowResource` throws and leaves the manager unchanged for a user who
holds `maxBorrowLimit` current loans or more. -/
theorem borrow_limit_preserved :
    (∀ (u u' : User) (loan : Option Loan) (now : QDateTime),
      u.addCurrentLoan loan now = .ok u' →
        (u'.currentLoans.length : Int) ≤ u'.maxBorrowLimit) ∧
    (∀ (u : User) (loan : Option Loan) (now : QDateTime),
      (u.currentLoans.length : Int) ≥ u.maxBorrowLimit →
        ∃ e, u.addCurrentLoan loan now = .error e) ∧
    (∀ (m : LibraryManager) (userId resourceId : String) (now : QDateTime)
        (uuid : String),
      List.Forall₂
        (fun u u' : User => u'.userId = u.userId ∧ u'.maxBorrowLimit = u.maxBorrowLimit ∧
          ((u.currentLoans.length : Int) ≤ u.maxBorrowLimit →
            (u'.currentLoans.length : Int) ≤ u'.maxBorrowLimit))
        m.users (m.borrowResource userId resourceId now uuid).2.users) ∧
    (∀ (m : LibraryManager) (loanId : String) (now : QDateTime),
      List.Forall₂
        (fun u u' : User => u'.userId = u.userId ∧ u'.maxBorrowLimit = u.maxBorrowLimit ∧
          ((u.currentLoans.length : Int) ≤ u.maxBorrowLimit →
            (u'.currentLoans.length : Int) ≤ u'.maxBorrowLimit))
        m.users (m.returnResource loanId now).2.users) ∧
    (∀ (m : LibraryManager) (userId resourceId : String) (now : QDateTime)
        (uuid : String) (u : User),
      m.findUserById userId = some u →
      (u.currentLoans.length : Int) ≥ u.maxBorrowLimit →
        (∃ e, (m.borrowResource userId resourceId now uuid).1 = .error e) ∧
          (m.borrowResource userId resourceId now uuid).2 = m) := by
  refine ⟨?_, ?_, ?_, ?_, ?_⟩
  · intro u u' loan now h
    cases loan with
    | none => simp [User.addCurrentLoan] at h
    | some l =>
      cases hmax : u.hasMaxLoansReached with
      | true => simp [User.addCurrentLoan, hmax] at h
      | false =>
        have hlt : (u.currentLoans.length : Int) < u.maxBorrowLimit := by
          simpa [User.hasMaxLoansReached] using hmax
        simp only [User.addCurrentLoan, hmax, Bool.false_eq_true, if_false,
          User.updateLastActivity, Except.ok.injEq] at h
        rw [← h]
        simp only [List.length_append, List.length_singleton, Nat.cast_add, Nat.cast_one]
        omega
  · intro u loan now hge
    cases loan with
    | none => exact ⟨_, rfl⟩
    | some l =>
      have hmax : u.hasMaxLoansReached = true := by
        simpa [User.hasMaxLoansReached] using hge
      exact ⟨.UserException "User has reached maximum loan limit",
        by simp [User.addCurrentLoan, hmax]⟩
  · intro m userId resourceId now uuid
    rcases borrowResource_users m userId resourceId now uuid with
      hm | ⟨user, loan, hfind, hcan, hm⟩
    · rw [hm]
      exact forall₂_self _ (fun a => ⟨rfl, rfl, id⟩) _
    · rw [hm]
      apply forall₂_modifyFirst _ (fun a => ⟨rfl, rfl, id⟩)
      intro a ha
      have hau : a = user := by
        have h' : m.users.find? (fun u => u.userId == userId) = some user := hfind
        rw [h'] at ha
        exact (Option.some.inj ha).symm
      subst hau
      refine ⟨rfl, rfl, fun _ => ?_⟩
      have hlt : (a.currentLoans.length : Int) < a.maxBorrowLimit := by
        have : a.hasMaxLoansReached = false := by
          simp [User.canBorrow] at hcan
          exact hcan.2
        simpa [User.hasMaxLoansReached] using this
      simp only [List.length_append, List.length_singleton, Nat.cast_add, Nat.cast_one]
      omega
  · intro m loanId now
    rcases returnResource_users m loanId now with hm | ⟨loan, _, hm⟩
    · rw [hm]
      exact forall₂_self _ (fun a => ⟨rfl, rfl, id⟩) _
    · rw [hm]
      apply forall₂_modifyFirst _ (fun a => ⟨rfl, rfl, id⟩)
      intro a _
      refine ⟨User.moveLoanToHistory_userId a loanId now,
        User.moveLoanToHistory_maxBorrowLimit a loanId now, fun hle => ?_⟩
      rw [User.moveLoanToHistory_maxBorrowLimit]
      have hlen := User.moveLoanToHistory_length_le a loanId now
      have : ((a.moveLoanToHistory loanId now).currentLoans.length : Int) ≤
          (a.currentLoans.length : Int) := by exact_mod_cast hlen
      exact le_trans this hle
  · intro m userId resourceId now uuid u hu hge
    have hmax : u.hasMaxLoansReached = true := by
      simpa [User.hasMaxLoansReached] using hge
    have hcan : u.canBorrow = false := by simp [User.canBorrow, hmax]
    cases hr : m.findResourceById resourceId with
    | none => simp [LibraryManager.borrowResource, hu, hr]
    | some r => simp [LibraryManager.borrowResource, hu, hr, hcan]

/-! ## Loans as JSON -/

theorem Loan.stringToStatus_statusToString (s : LoanStatus) :
    Loan.stringToStatus (Loan.statusToString s) = s := by
  cases s <;> decide

theorem QJsonValue.toInt_double_int (n d : Int) :
    (QJsonValue.double (n : Rat)).toInt d = n := by
  simp [QJsonValue.toInt]

theorem QJsonObject.value_insert_self (o : QJsonObject) (key : String) (v : QJsonValue) :
    (o.insert key v).value key = v := by
  induction o with
  | nil => simp [QJsonObject.insert, QJsonObject.value]
  | cons kv rest ih =>
    obtain ⟨k, w⟩ := kv
    by_cases hk : k = key
    · simp [QJsonObject.insert, QJsonObject.value, hk]
    · simp [QJsonObject.insert, QJsonObject.value, hk, ih]

theorem QJsonObject.value_insert_of_ne (o : QJsonObject) (key other : String)
    (v : QJsonValue) (h : key ≠ other) :
    (o.insert key v).value other = o.value other := by
  induction o with
  | nil => simp [QJsonObject.insert, QJsonObject.value, h]
  | cons kv rest ih =>
    obtain ⟨k, w⟩ := kv
    by_cases hk : k = key
    · have hko : k ≠ other := by rw [hk]; exact h
      simp [QJsonObject.insert, QJsonObject.value, hk, h]
    · by_cases hko : k = other
      · subst hko
        simp [QJsonObject.insert, QJsonObject.value, hk]
      · simp [QJsonObject.insert, QJsonObject.value, hk, hko, ih]

/-- C20: whatever loan `Loan::fromJson` is called on, applied to `x.toJson()` it gives
a loan with the `loanId`, `userId`, `resourceId`, `resourceTitle`, `status`,
`renewalCount`, `maxRenewals`, `fineAmount` and `notes` of `x`, and with the borrow
date, the due date and the return date of `x` at whole seconds, an absent return date
staying absent; the ISO-8601 text of Qt is taken to be read back at whole seconds. -/
theorem loan_fromJson_toJson (c : IsoDate) (hc : c.RoundTrips) (x y : Loan) :
    Loan.fromJson c y (Loan.toJson c x) =
      some { x with borrowDate := IsoDate.wholeSeconds x.borrowDate,
                    dueDate := IsoDate.wholeSeconds x.dueDate,
                    returnDate := x.returnDate.map IsoDate.wholeSeconds } ∧
    IsoDate.wholeSeconds x.borrowDate / 1000 = x.borrowDate / 1000 ∧
    IsoDate.wholeSeconds x.dueDate / 1000 = x.dueDate / 1000 ∧
    (∀ t, x.returnDate = some t → IsoDate.wholeSeconds t / 1000 = t / 1000) := by
  obtain ⟨h1, h2⟩ := hc
  have hsec : ∀ t : QDateTime, IsoDate.wholeSeconds t / 1000 = t / 1000 := by
    intro t
    unfold IsoDate.wholeSeconds
    exact Int.mul_ediv_cancel _ (by decide)
  have hret : c.fromString (c.render x.returnDate) =
      x.returnDate.map IsoDate.wholeSeconds := by
    cases x.returnDate with
    | none => simpa [IsoDate.render] using h2
    | some t => simpa [IsoDate.render] using h1 t
  refine ⟨?_, hsec _, hsec _, fun t _ => hsec t⟩
  have v1 : (Loan.toJson c x).value "loanId" = .string x.loanId := by
    simp [Loan.toJson, QJsonObject.value_insert_self, QJsonObject.value_insert_of_ne]
  have v2 : (Loan.toJson c x).value "userId" = .string x.userId := by
    simp [Loan.toJson, QJsonObject.value_insert_self, QJsonObject.value_insert_of_ne]
  have v3 : (Loan.toJson c x).value "resourceId" = .string x.resourceId := by
    simp [Loan.toJson, QJsonObject.value_insert_self, QJsonObject.value_insert_of_ne]
  have v4 : (Loan.toJson c x).value "resourceTitle" = .string x.resourceTitle := by
    simp [Loan.toJson, QJsonObject.value_insert_self, QJsonObject.value_insert_of_ne]
  have v5 : (Loan.toJson c x).value "borrowDate" = .string (c.toString x.borrowDate) := by
    simp [Loan.toJson, QJsonObject.value_insert_self, QJsonObject.value_insert_of_ne]
  have v6 : (Loan.toJson c x).value "dueDate" = .string (c.toString x.dueDate) := by
    simp [Loan.toJson, QJsonObject.value_insert_self, QJsonObject.value_insert_of_ne]
  have v7 : (Loan.toJson c x).value "returnDate" = .string (c.render x.returnDate) := by
    simp [Loan.toJson, QJsonObject.value_insert_self, QJsonObject.value_insert_of_ne]
  have v8 : (Loan.toJson c x).value "status" =
      .string (Loan.statusToString x.status) := by
    simp [Loan.toJson, QJsonObject.value_insert_self, QJsonObject.value_insert_of_ne]
  have v9 : (Loan.toJson c x).value "renewalCount" = .double x.renewalCount := by
    simp [Loan.toJson, QJsonObject.value_insert_self, QJsonObject.value_insert_of_ne]
  have v10 : (Loan.toJson c x).value "maxRenewals" = .double x.maxRenewals := by
    simp [Loan.toJson, QJsonObject.value_insert_self, QJsonObject.value_insert_of_ne]
  have v11 : (Loan.toJson c x).value "fineAmount" = .double x.fineAmount := by
    simp [Loan.toJson, QJsonObject.value_insert_self, QJsonObject.value_insert_of_ne]
  have v12 : (Loan.toJson c x).value "notes" = .string x.notes := by
    simp [Loan.toJson, QJsonObject.value_insert_self, QJsonObject.value_insert_of_ne]
  simp only [Loan.fromJson, v1, v2, v3, v4, v5, v6, v7, v8, v9, v10, v11, v12,
    QJsonValue.toString, QJsonValue.toDouble, QJsonValue.toInt_double_int, h1, hret,
    Loan.stringToStatus_statusToString]

theorem tallyDate_roundTrips : tallyDate.RoundTrips := by
  refine ⟨?_, rfl⟩
  intro t
  by_cases h : 0 ≤ t / 1000
  · have hn : ((t / 1000).toNat : Int) = t / 1000 := Int.toNat_of_nonneg h
    simp [tallyDate, h, IsoDate.wholeSeconds, hn]
  · have hneg : 0 ≤ -(t / 1000) := le_of_lt (neg_pos.mpr (not_le.mp h))
    have hn : ((-(t / 1000)).toNat : Int) = -(t / 1000) := Int.toNat_of_nonneg hneg
    simp [tallyDate, h, IsoDate.wholeSeconds, hn]

/-! ## Further theorems on the sample library -/

/-- C20 on the sample loan, with date-times rendered as tally marks: the loan read
back from its JSON object is the sample loan, whose dates are whole seconds. -/
theorem loan_fromJson_toJson_witness :
    tallyDate.RoundTrips ∧
    Loan.fromJson tallyDate sampleLoan (Loan.toJson tallyDate sampleLoan) =
      some sampleLoan :=
  ⟨tallyDate_roundTrips,
    (loan_fromJson_toJson tallyDate tallyDate_roundTrips sampleLoan sampleLoan).1.trans
      (by decide)⟩

/-- C13 on the library with one reservation made at time 2000: the sweep eight days
later moves it to the history. -/
theorem processExpiredReservations_effect_witness :
    reservedLibrary.activeReservations = [Reservation.new "U2" "B1" "Algebra" 7 2000 "r"] ∧
    reservedLibrary.processExpiredReservations (addDays 2000 8) =
      (true,
        { reservedLibrary with
          activeReservations := [],
          reservationHistory := reservedLibrary.reservationHistory ++
            [{ Reservation.new "U2" "B1" "Algebra" 7 2000 "r" with
                status := ReservationStatus.Expired }],
          emitted := reservedLibrary.emitted ++
            [Signal.reservationExpired (Reservation.generateReservationId "r")
              "U2" "B1"] }) :=
  ⟨by decide,
    (processExpiredReservations_effect reservedLibrary 0).2.2.2 reservedLibrary
      "U2" "B1" "Algebra" "r" 2000 (by decide)⟩

/-- C14 on the library with one reservation: cancelling it returns `true`, cancelling
an unknown id returns `false`. -/
theorem cancelReservation_outcomes_witness :
    (∃ r ∈ reservedLibrary.activeReservations, r.reservationId = "RES_r") ∧
    (reservedLibrary.cancelReservation "RES_r").1 = .ok true ∧
    reservedLibrary.cancelReservation "RES_x" = (.ok false, reservedLibrary) :=
  ⟨⟨Reservation.new "U2" "B1" "Algebra" 7 2000 "r", by decide, by decide⟩,
    (cancelReservation_outcomes reservingOps "RES_r").1.mpr
      ⟨Reservation.new "U2" "B1" "Algebra" 7 2000 "r", by decide, by decide⟩,
    (cancelReservation_outcomes reservingOps "RES_x").2.2 (by decide)⟩

/-- C15 on the sample libraries: the available book is removed, the lent book is
not. -/
theorem removeResource_outcomes_witness :
    stockedLibrary.findResourceById "B1" = some sampleBook ∧
    (stockedLibrary.removeResource "B1").1 = .ok true ∧
    ((∃ e, (lendingLibrary.removeResource "B1").1 = .error e) ∧
      (lendingLibrary.removeResource "B1").2 = lendingLibrary) ∧
    stockedLibrary.removeResource "B9" = (.ok false, stockedLibrary) :=
  ⟨by decide,
    ((removeResource_outcomes stockedLibrary "B1").2.2 sampleBook (by decide)
      (by decide)).1,
    (removeResource_outcomes lendingLibrary "B1").2.1
      { sampleBook with status := ResourceStatus.Borrowed } (by decide) (by decide),
    (removeResource_outcomes stockedLibrary "B9").1 (by decide)⟩

/-- C16 on the sample libraries: a reader without loans is removed, the borrower is
not. -/
theorem removeUser_outcomes_witness :
    stockedLibrary.findUserById "U2" = some sampleReader ∧
    (stockedLibrary.removeUser "U2").1 = .ok true ∧
    ((∃ e, (lendingLibrary.removeUser "U1").1 = .error e) ∧
      (lendingLibrary.removeUser "U1").2 = lendingLibrary) ∧
    stockedLibrary.removeUser "U9" = (.ok false, stockedLibrary) :=
  ⟨by decide,
    ((removeUser_outcomes stockedLibrary "U2").2.2 sampleReader (by decide)
      (by decide)).1,
    (removeUser_outcomes lendingLibrary "U1").2.1
      { sampleStudent with currentLoans := [sampleLoan], lastActivity := 1000 }
      (by decide) (by decide),
    (removeUser_outcomes stockedLibrary "U9").1 (by decide)⟩

/-- C17 on the stocked library: the book already in the catalogue is refused, a new
one is appended. -/
theorem addResource_outcomes_witness :
    ((∃ e, (stockedLibrary.addResource (some sampleBook)).1 = .error e) ∧
      (stockedLibrary.addResource (some sampleBook)).2 = stockedLibrary) ∧
    (stockedLibrary.addResource (some sampleBorrowedBook)).1 = .ok () ∧
    (stockedLibrary.addResource (some sampleBorrowedBook)).2.resources =
      [sampleBook, sampleBorrowedBook] := by
  have hdup : ∃ e, (stockedLibrary.addResource (some sampleBook)).1 = .error e :=
    (addResource_outcomes stockedLibrary sampleBook).1.mpr
      (Or.inr (Or.inr (Or.inr ⟨sampleBook, by decide, rfl⟩)))
  have hok : (stockedLibrary.addResource (some sampleBorrowedBook)).1 = .ok () := rfl
  refine ⟨⟨hdup, (addResource_outcomes stockedLibrary sampleBook).2.1 hdup⟩, hok, ?_⟩
  rw [(addResource_outcomes stockedLibrary sampleBorrowedBook).2.2 hok]
  decide

/-- C19 on the sample libraries: the guest with limit zero cannot borrow, and the
student is within the limit after borrowing. -/
theorem borrow_limit_preserved_witness :
    barredLibrary.findUserById "U4" = some sampleBarred ∧
    ((∃ e, (barredLibrary.borrowResource "U4" "B1" 1000 "a").1 = .error e) ∧
      (barredLibrary.borrowResource "U4" "B1" 1000 "a").2 = barredLibrary) ∧
    (∃ e, sampleBarred.addCurrentLoan (some sampleLoan) 1000 = .error e) :=
  ⟨by decide,
    borrow_limit_preserved.2.2.2.2 barredLibrary "U4" "B1" 1000 "a" sampleBarred
      (by decide) (by decide),
    borrow_limit_preserved.2.1 sampleBarred (some sampleLoan) 1000 (by decide)⟩

/-! ## Loan construction inside `borrowResource` -/

theorem Loan.new_fails_of_due_not_after (loanId userId resourceId title : String)
    (borrowDate dueDate : QDateTime) (maxRenewals : Int) (now : QDateTime)
    (h : dueDate ≤ borrowDate) :
    ∃ e, Loan.new loanId userId resourceId title borrowDate dueDate maxRenewals now =
      .error e := by
  unfold Loan.new Loan.validateLoanData
  simp only
  split_ifs <;> exact ⟨_, rfl⟩

theorem calculateDueDate_le (m : LibraryManager) (now : QDateTime)
    (h : m.defaultLoanPeriodDays ≤ 0) : m.calculateDueDate 0 now ≤ now := by
  unfold LibraryManager.calculateDueDate addDays
  simp only [lt_self_iff_false, if_false]
  have h1 : m.defaultLoanPeriodDays * msPerDay ≤ 0 :=
    mul_nonpos_of_nonpos_of_nonneg h (by decide)
  exact add_le_of_nonpos_right h1

/-- C24: when the user may borrow and the resource is available, a failure of the
construction of the `Loan` makes `borrowResource` fail with the same error and leaves
the manager as it was: the resource is still `Available`, the current loans of the
user and the active loans are unchanged. The construction does fail when
`defaultLoanPeriodDays ≤ 0`, the due date being then not after the borrow date. -/
theorem borrowResource_loan_construction_fails (m : LibraryManager)
    (userId resourceId : String) (now : QDateTime) (uuid : String)
    (user : User) (resource : Resource)
    (hu : m.findUserById userId = some user) (hcan : user.canBorrow = true)
    (hr : m.findResourceById resourceId = some resource)
    (havail : resource.isAvailable = true) :
    (∀ e, Loan.new (Loan.generateLoanId uuid) userId resourceId resource.title now
        (m.calculateDueDate 0 now) 3 now = .error e →
      m.borrowResource userId resourceId now uuid = (.error e, m)) ∧
    (m.defaultLoanPeriodDays ≤ 0 →
      (∃ e, m.borrowResource userId resourceId now uuid = (.error e, m)) ∧
      (m.borrowResource userId resourceId now uuid).2.findResourceById resourceId =
        some resource ∧
      resource.status = ResourceStatus.Available ∧
      (m.borrowResource userId resourceId now uuid).2.findUserById userId = some user ∧
      (m.borrowResource userId resourceId now uuid).2.activeLoans = m.activeLoans) := by
  have key : ∀ e, Loan.new (Loan.generateLoanId uuid) userId resourceId resource.title now
        (m.calculateDueDate 0 now) 3 now = .error e →
      m.borrowResource userId resourceId now uuid = (.error e, m) := by
    intro e he
    simp [LibraryManager.borrowResource, hu, hr, hcan, havail, he]
  refine ⟨key, fun hd => ?_⟩
  obtain ⟨e, he⟩ := Loan.new_fails_of_due_not_after (Loan.generateLoanId uuid) userId
    resourceId resource.title now (m.calculateDueDate 0 now) 3 now
    (calculateDueDate_le m now hd)
  have hb := key e he
  refine ⟨⟨e, hb⟩, ?_, ?_, ?_, ?_⟩
  · rw [hb]; exact hr
  · simpa [Resource.isAvailable] using havail
  · rw [hb]; exact hu
  · rw [hb]

/-! ## Reservations and `borrowResource` -/

/-- C26 (amended): on a reservation whose status is not `Active`,
`fulfillReservation` and `extendReservation` throw; `cancelReservation` throws on a
`Fulfilled` reservation, leaves a `Cancelled` one as it is, and turns an `Expired`
one into a `Cancelled` one. -/
theorem reservation_terminal_states (r : Reservation) (now : QDateTime)
    (additionalDays : Int) (h : r.status ≠ ReservationStatus.Active) :
    (∃ e, r.fulfillReservation now = .error e) ∧
    (∃ e, r.extendReservation additionalDays = .error e) ∧
    (r.status = ReservationStatus.Fulfilled → ∃ e, r.cancelReservation = .error e) ∧
    (r.status = ReservationStatus.Cancelled → r.cancelReservation = .ok r) ∧
    (r.status = ReservationStatus.Expired →
      r.cancelReservation = .ok { r with status := ReservationStatus.Cancelled }) := by
  refine ⟨?_, ?_, ?_, ?_, ?_⟩
  · refine ⟨.ReservationException
      "Cannot fulfill reservation: either expired or not active", ?_⟩
    simp [Reservation.fulfillReservation, Reservation.canBeFulfilled, h]
  · refine ⟨.ReservationException "Can only extend active reservations", ?_⟩
    simp [Reservation.extendReservation, h]
  · intro hf
    exact ⟨.ReservationException "Cannot cancel fulfilled reservation",
      by simp [Reservation.cancelReservation, hf]⟩
  · intro hc
    cases r
    simp only at hc
    subst hc
    simp [Reservation.cancelReservation]
  · intro he
    simp [Reservation.cancelReservation, he]

/-! ## The fine on the return path -/

/-- C28: `Loan::returnItem` leaves `fineAmount` as it was, whatever the time of the
return, overdue or not; and `returnResource` on an active loan appends to the loan
history that loan with its `fineAmount` unchanged, every loan record of the manager
afterwards carrying the fine amount of a record with the same id before. -/
theorem returnItem_keeps_fineAmount :
    (∀ (l : Loan) (now : QDateTime), (l.returnItem now).fineAmount = l.fineAmount) ∧
    (∀ (m : LibraryManager) (loanId : String) (now : QDateTime) (loan : Loan),
      m.findLoan loanId = some loan →
        ∃ l, (m.returnResource loanId now).2.loanHistory = m.loanHistory ++ [l] ∧
          l.loanId = loan.loanId ∧ l.status = LoanStatus.Returned ∧
          l.fineAmount = loan.fineAmount) ∧
    (∀ (m : LibraryManager) (loanId : String) (now : QDateTime),
      ∀ l ∈ (m.returnResource loanId now).2.activeLoans ++
          (m.returnResource loanId now).2.loanHistory,
        ∃ l₀ ∈ m.activeLoans ++ m.loanHistory,
          l.loanId = l₀.loanId ∧ l.fineAmount = l₀.fineAmount) := by
  refine ⟨?_, ?_, ?_⟩
  · intro l now
    rw [Loan.returnItem_eq]
  · intro m loanId now loan h
    obtain ⟨_, h2, _⟩ := returnResource_loans m loanId now loan h
    exact ⟨_, h2, rfl, rfl, rfl⟩
  · intro m loanId now l hl
    cases hf : m.findLoan loanId with
    | none =>
      have hm : m.returnResource loanId now = (false, m) := by
        unfold LibraryManager.returnResource
        simp only [hf]
      rw [hm] at hl
      exact ⟨l, hl, rfl, rfl⟩
    | some loan =>
      obtain ⟨_, h2, h3⟩ := returnResource_loans m loanId now loan hf
      rw [h2, h3] at hl
      have hmem : loan ∈ m.activeLoans := List.mem_of_find?_eq_some hf
      rcases List.mem_append.mp hl with ha | hh
      · exact ⟨l, List.mem_append_left _ ((List.eraseP_sublist _).subset ha), rfl, rfl⟩
      · rcases List.mem_append.mp hh with hh | hh
        · exact ⟨l, List.mem_append_right _ hh, rfl, rfl⟩
        · rw [List.mem_singleton] at hh
          subst hh
          exact ⟨loan, List.mem_append_left _ hmem, rfl, rfl⟩

/-! ## The year of a user -/

theorem User.new_yearInRange (q : QtText) (userId firstName lastName email : String)
    (userType : UserType) (now : QDateTime) (u : User)
    (h : User.new q userId firstName lastName email userType now = .ok u) :
    u.YearInRange ∧ u.userType = userType := by
  unfold User.new at h
  simp only at h
  split at h
  · exact absurd h (by simp)
  · simp only [Except.ok.injEq] at h
    subst h
    cases userType <;>
      simp [User.YearInRange, User.setDefaultBorrowLimit, User.updateLastActivity]

theorem User.setYear_yearInRange (u u1 : User) (year : Int)
    (h : u.setYear year = .ok u1) : u1.YearInRange ∧ u1.userType = u.userType := by
  unfold User.setYear at h
  by_cases hs : u.userType = UserType.Student
  · simp only [hs, beq_self_eq_true, if_true] at h
    split at h
    · exact absurd h (by simp)
    · rename_i hy
      simp only [Except.ok.injEq] at h
      subst h
      simp only [Bool.or_eq_true, decide_eq_true_eq, not_or, not_lt] at hy
      simp [User.YearInRange, hs, hy.1, hy.2]
  · have hb : (u.userType == UserType.Student) = false := by simpa using hs
    simp only [hb, Bool.false_eq_true, if_false, Except.ok.injEq] at h
    subst h
    simp [User.YearInRange, hs]

theorem User.setUserType_year (u : User) (userType : UserType) :
    (u.setUserType userType).year = u.year ∧
    (u.setUserType userType).userType = userType := by
  cases userType <;> simp [User.setUserType, User.setDefaultBorrowLimit]

/-- C27 breaks in `setUserType`: the constructor and every successful `setYear` leave
the year in `1..5` for a student and at `-1` for the others, but `setUserType` changes
the type and keeps the year, so that a user built as a non-student and made a student
has year `-1`, and a student made a non-student keeps a year in `1..5`. -/
theorem setUserType_breaks_year :
    (∀ (q : QtText) (userId firstName lastName email : String) (userType : UserType)
        (now : QDateTime) (u : User),
      User.new q userId firstName lastName email userType now = .ok u → u.YearInRange) ∧
    (∀ (u u1 : User) (year : Int), u.setYear year = .ok u1 → u1.YearInRange) ∧
    (∀ (q : QtText) (userId firstName lastName email : String) (userType : UserType)
        (now : QDateTime) (u : User),
      User.new q userId firstName lastName email userType now = .ok u →
      userType ≠ UserType.Student →
        (UserCall.apply u (.setUserType UserType.Student)).userType = UserType.Student ∧
        (UserCall.apply u (.setUserType UserType.Student)).year = -1 ∧
        ¬ (UserCall.apply u (.setUserType UserType.Student)).YearInRange) ∧
    (∀ (q : QtText) (userId firstName lastName email : String) (now : QDateTime)
        (u : User) (userType : UserType),
      User.new q userId firstName lastName email UserType.Student now = .ok u →
      userType ≠ UserType.Student →
        (UserCall.apply u (.setUserType userType)).userType = userType ∧
        (UserCall.apply u (.setUserType userType)).year = 1 ∧
        ¬ (UserCall.apply u (.setUserType userType)).YearInRange) := by
  refine ⟨?_, ?_, ?_, ?_⟩
  · intro q userId firstName lastName email userType now u h
    exact (User.new_yearInRange q userId firstName lastName email userType now u h).1
  · intro u u1 year h
    exact (User.setYear_yearInRange u u1 year h).1
  · intro q userId firstName lastName email userType now u h hne
    obtain ⟨hy, ht⟩ := User.new_yearInRange q userId firstName lastName email userType now u h
    have hyear : u.year = -1 := by
      have hne2 : u.userType ≠ UserType.Student := by rw [ht]; exact hne
      simpa [User.YearInRange, hne2] using hy
    obtain ⟨h1, h2⟩ := User.setUserType_year u UserType.Student
    simp only [UserCall.apply]
    refine ⟨h2, by rw [h1, hyear], ?_⟩
    simp [User.YearInRange, h2, h1, hyear]
  · intro q userId firstName lastName email now u userType h hne
    obtain ⟨hy, ht⟩ :=
      User.new_yearInRange q userId firstName lastName email UserType.Student now u h
    have hyear : u.year = 1 := by
      unfold User.new at h
      simp only at h
      split at h
      · exact absurd h (by simp)
      · simp only [Except.ok.injEq] at h
        subst h
        simp [User.setDefaultBorrowLimit, User.updateLastActivity]
    obtain ⟨h1, h2⟩ := User.setUserType_year u userType
    simp only [UserCall.apply]
    refine ⟨h2, by rw [h1, hyear], ?_⟩
    simp [User.YearInRange, h2, h1, hyear, hne]

/-! ## Reading resources and users back from JSON -/

theorem Resource.baseJson_type (c : IsoDate) (r : Resource) (resourceType : String) :
    (r.baseJson c resourceType).value "type" = .string resourceType := by
  simp [Resource.baseJson, QJsonObject.value_insert_self, QJsonObject.value_insert_of_ne]

theorem AnyResource.toJson_type (c : IsoDate) (r : AnyResource) :
    ((r.toJson c).value "type").toString = "Book" ∨
    ((r.toJson c).value "type").toString = "Article" ∨
    ((r.toJson c).value "type").toString = "Thesis" ∨
    ((r.toJson c).value "type").toString = "Digital Content" := by
  cases r with
  | book b =>
    left
    simp [AnyResource.toJson, Book.toJson, QJsonObject.value_insert_of_ne,
      Resource.baseJson_type, Book.getResourceType, QJsonValue.toString]
  | article a =>
    right; left
    simp [AnyResource.toJson, Article.toJson, QJsonObject.value_insert_of_ne,
      Resource.baseJson_type, Article.getResourceType, QJsonValue.toString]
  | thesis t =>
    right; right; left
    simp [AnyResource.toJson, Thesis.toJson, QJsonObject.value_insert_of_ne,
      Resource.baseJson_type, Thesis.getResourceType, QJsonValue.toString]
  | digitalContent d =>
    right; right; right
    simp [AnyResource.toJson, DigitalContent.toJson, QJsonObject.value_insert_of_ne,
      Resource.baseJson_type, DigitalContent.getResourceType, QJsonValue.toString]

theorem Resource.new_empty_id (title author : String) (publicationYear : Int)
    (category : ResourceCategory) (now : QDateTime) (currentYear : Int) :
    Resource.new "" title author publicationYear category now currentYear =
      .error (.ResourceException "Resource ID cannot be empty") := by
  have h : ("" : String).isEmpty = true := by decide
  simp [Resource.new, h]

/-- C21 fails on every resource: `createResourceFromJson` applied to the JSON object of
a book, an article, a thesis or a digital content builds its placeholder with an empty
id, which the constructor of `Resource` refuses, so that it throws
"Resource ID cannot be empty" and returns no resource. -/
theorem createResourceFromJson_throws (q : QtText) (c : IsoDate) (now : QDateTime)
    (currentYear : Int) (r : AnyResource) :
    PersistenceService.createResourceFromJson q (r.toJson c) now currentYear =
      .error (.ResourceException "Resource ID cannot be empty") := by
  rcases AnyResource.toJson_type c r with h | h | h | h <;>
    simp [PersistenceService.createResourceFromJson, h, Book.new, Article.new,
      Thesis.new, DigitalContent.new, Resource.new_empty_id]

theorem Loan.placeholder_throws (now : QDateTime) :
    Loan.placeholder now = .error (.LoanException "Loan ID cannot be empty") := by
  have h : ("" : String).isEmpty = true := by decide
  simp [Loan.placeholder, Loan.new, Loan.validateLoanData, h]

theorem loadCurrentLoans_cons (c : IsoDate) (now : QDateTime) (value : QJsonValue)
    (rest : List QJsonValue) (user : User) :
    PersistenceService.loadCurrentLoans c now (value :: rest) user =
      .error (.LoanException "Loan ID cannot be empty") := by
  simp [PersistenceService.loadCurrentLoans, Loan.placeholder_throws]

theorem User.toJson_currentLoans (c : IsoDate) (u : User) :
    ((u.toJson c).value "currentLoans").toArray = User.loansToJsonArray c u.currentLoans := by
  simp [User.toJson, QJsonObject.value_insert_self, QJsonObject.value_insert_of_ne,
    QJsonValue.toArray]

theorem User.new_error (q : QtText) (userId firstName lastName email : String)
    (userType : UserType) (now : QDateTime) (e : Exception)
    (h : User.new q userId firstName lastName email userType now = .error e) :
    ∃ message, e = .UserException message := by
  unfold User.new at h
  simp only at h
  split at h
  · rename_i e1 hv
    simp only [Except.error.injEq] at h
    subst h
    unfold User.validateUserData at hv
    split_ifs at hv <;> simp only [Except.error.injEq] at hv <;> exact ⟨_, hv.symm⟩
  · exact absurd h (by simp)

theorem User.setMaxBorrowLimit_error (u : User) (limit : Int) (e : Exception)
    (h : u.setMaxBorrowLimit limit = .error e) : ∃ message, e = .UserException message := by
  unfold User.setMaxBorrowLimit at h
  split_ifs at h
  simp only [Except.error.injEq] at h
  exact ⟨_, h.symm⟩

theorem User.setYear_error (u : User) (year : Int) (e : Exception)
    (h : u.setYear year = .error e) : ∃ message, e = .UserException message := by
  unfold User.setYear at h
  split_ifs at h
  simp only [Except.error.injEq] at h
  exact ⟨_, h.symm⟩

/-- C22 fails on every user who holds a current loan: `createUserFromJson` applied to
the JSON object of such a user never returns a user. It throws, either a
`UserException` of the constructor or of a setter of `User`, or, when these pass, the
`LoanException` "Loan ID cannot be empty" of the placeholder loan built for the first
element of `currentLoans`. -/
theorem createUserFromJson_throws_with_loans (q : QtText) (c : IsoDate)
    (now : QDateTime) (u : User) (h : u.currentLoans ≠ []) :
    PersistenceService.createUserFromJson q c (u.toJson c) now =
        .error (.LoanException "Loan ID cannot be empty") ∨
    ∃ message, PersistenceService.createUserFromJson q c (u.toJson c) now =
        .error (.UserException message) := by
  have harr : ∃ value rest, ((u.toJson c).value "currentLoans").toArray = value :: rest := by
    rw [User.toJson_currentLoans]
    cases hl : u.currentLoans with
    | nil => exact absurd hl h
    | cons l ls => exact ⟨_, _, rfl⟩
  obtain ⟨value, rest, harr⟩ := harr
  unfold PersistenceService.createUserFromJson
  simp only
  split
  · rename_i e he
    obtain ⟨message, hm⟩ := User.new_error _ _ _ _ _ _ _ _ he
    exact Or.inr ⟨message, by rw [hm]⟩
  · split
    · rename_i e he
      obtain ⟨message, hm⟩ := User.setMaxBorrowLimit_error _ _ _ he
      exact Or.inr ⟨message, by rw [hm]⟩
    · split
      · rename_i e he
        obtain ⟨message, hm⟩ := User.setYear_error _ _ _ he
        exact Or.inr ⟨message, by rw [hm]⟩
      · left
        rw [harr, loadCurrentLoans_cons]

/-! ## The resources document of `saveLibraryData` -/

theorem resourcesCopy_eq (catalogue : List AnyResource) :
    ∀ copy : List AnyResource,
      PersistenceService.resourcesCopy catalogue copy =
        copy ++ catalogue.filter AnyResource.isBookOrArticle := by
  induction catalogue with
  | nil => intro copy; simp [PersistenceService.resourcesCopy]
  | cons r rest ih =>
    intro copy
    cases r <;>
      simp [PersistenceService.resourcesCopy, ih, AnyResource.isBookOrArticle]

theorem resourcesToJsonArray_eq (c : IsoDate) (resources : List AnyResource) :
    PersistenceService.resourcesToJsonArray c resources =
      resources.map (fun r => QJsonValue.object (r.toJson c)) := by
  induction resources with
  | nil => rfl
  | cons r rest ih => simp [PersistenceService.resourcesToJsonArray, ih]

/-- C23 fails on every catalogue that holds a thesis or a digital content: the
resources document of `saveLibraryData` has in its `data` array the JSON objects of the
books and of the articles of the catalogue only, in catalogue order, and their number
as `count`; for a catalogue of one thesis, or of one digital content, the array is
empty and the count is `0`. -/
theorem saveLibraryData_resources_document (c : IsoDate) (catalogue : List AnyResource)
    (now : QDateTime) :
    (PersistenceService.saveLibraryDataResources c catalogue now).value "data" =
      .array ((catalogue.filter AnyResource.isBookOrArticle).map
        (fun r => QJsonValue.object (r.toJson c))) ∧
    (PersistenceService.saveLibraryDataResources c catalogue now).value "count" =
      .double ((catalogue.filter AnyResource.isBookOrArticle).length : Int) ∧
    (∀ t : Thesis,
      (PersistenceService.saveLibraryDataResources c [.thesis t] now).value "data" =
        .array [] ∧
      (PersistenceService.saveLibraryDataResources c [.thesis t] now).value "count" =
        .double 0) ∧
    (∀ d : DigitalContent,
      (PersistenceService.saveLibraryDataResources c [.digitalContent d] now).value
        "data" = .array [] ∧
      (PersistenceService.saveLibraryDataResources c [.digitalContent d] now).value
        "count" = .double 0) := by
  have key : ∀ l : List AnyResource,
      (PersistenceService.saveLibraryDataResources c l now).value "data" =
        .array ((l.filter AnyResource.isBookOrArticle).map
          (fun r => QJsonValue.object (r.toJson c))) ∧
      (PersistenceService.saveLibraryDataResources c l now).value "count" =
        .double ((l.filter AnyResource.isBookOrArticle).length : Int) := by
    intro l
    unfold PersistenceService.saveLibraryDataResources PersistenceService.saveResources
    simp [resourcesCopy_eq, resourcesToJsonArray_eq, QJsonObject.value_insert_self,
      QJsonObject.value_insert_of_ne]
  refine ⟨(key catalogue).1, (key catalogue).2, fun t => ?_, fun d => ?_⟩
  · have h := key [.thesis t]
    simpa [AnyResource.isBookOrArticle] using h
  · have h := key [.digitalContent d]
    simpa [AnyResource.isBookOrArticle] using h

/-! ## The copy of a loan held by the user -/

/-- C29 fails after a renewal and after a return. `renewLoan` never touches the
users, so after the renewal of the sample loan the manager holds it with the new due
date, one renewal and status `Renewed`, while the copy of the user is the loan as it
was borrowed; one day after the old due date the manager has no overdue loan and the
user is reported with overdue items. After the return the history of the manager
holds the loan as `Returned` at time 3000, while the history of the user holds it
`Active` without return date. -/
theorem user_copy_of_loan_diverges :
    (∀ (m : LibraryManager) (loanId : String) (days : Int) (now : QDateTime),
      (m.renewLoan loanId days now).2.users = m.users) ∧
    renewedLibrary.activeLoans =
      [{ sampleLoan with dueDate := addDays sampleLoan.dueDate 14, renewalCount := 1,
                         status := LoanStatus.Renewed }] ∧
    (renewedLibrary.findUserById "U1").map (fun u => u.currentLoans) =
      some [sampleLoan] ∧
    renewedLibrary.getOverdueLoans (addDays sampleLoan.dueDate 1) = [] ∧
    (renewedLibrary.getUsersWithOverdueItems (addDays sampleLoan.dueDate 1)).map
      (fun u => u.userId) = ["U1"] ∧
    returnedLibrary.loanHistory =
      [{ sampleLoan with status := LoanStatus.Returned, returnDate := some 3000 }] ∧
    (returnedLibrary.findUserById "U1").map (fun u => u.loanHistory) =
      some [sampleLoan] := by
  refine ⟨?_, by decide, by decide, by decide, by decide, by decide, by decide⟩
  intro m loanId days now
  obtain ⟨ls, sigs, _, h⟩ := renewLoan_frame m loanId days now
  rw [h]

/-! ## The current loans of the users mirror the active loans -/

theorem filter_map_modifyFirst {α β : Type} (p q : α → Bool) (f : α → α) (g : α → β)
    (hq : ∀ a, q (f a) = q a) (hg : ∀ a, g (f a) = g a) :
    ∀ l : List α, ((modifyFirst p f l).filter q).map g = (l.filter q).map g := by
  intro l
  induction l with
  | nil => rfl
  | cons x xs ih =>
    by_cases hp : p x = true
    · simp only [modifyFirst, hp, if_true, List.filter_cons, hq x]
      split <;> simp [hg x]
    · simp only [modifyFirst, hp, if_false, List.filter_cons, Bool.false_eq_true]
      split <;> simp [ih]

theorem filter_eraseP_of_not {α : Type} (p q : α → Bool) (l : List α) (a : α)
    (h : l.find? p = some a) (hq : q a = false) :
    (l.eraseP p).filter q = l.filter q := by
  obtain ⟨l₁, l₂, e1, _, _, _, e5⟩ := modifyFirst_split p id l a h
  rw [e5, e1]
  simp [List.filter_append, List.filter_cons, hq]

theorem filter_eraseP_of_pos {α : Type} (p q : α → Bool) (l : List α) (a : α)
    (h : l.find? p = some a) (hq : q a = true) :
    (l.eraseP p).filter q = (l.filter q).eraseP p := by
  obtain ⟨l₁, l₂, e1, e2, e3, _, e5⟩ := modifyFirst_split p id l a h
  rw [e5, e1]
  simp only [List.filter_append, List.filter_cons, hq, if_true]
  rw [eraseP_append_cons_of_first p _ _ a (fun b hb => e2 b (List.mem_filter.mp hb).1) e3]

theorem map_eraseP_eq_erase {α : Type} (g : α → String) (x : String) :
    ∀ l : List α, (l.eraseP (fun a => g a == x)).map g = (l.map g).erase x := by
  intro l
  induction l with
  | nil => rfl
  | cons a as ih =>
    by_cases h : g a = x
    · simp [List.eraseP_cons, h]
    · have hb : (g a == x) = false := by simpa using h
      simp [List.eraseP_cons, hb, List.erase_cons, h, ih]

theorem modifyFirst_mem_cases (users : List User) (x : String) (f : User → User)
    (a : User) (hnd : (users.map (fun u => u.userId)).Nodup)
    (hf : users.find? (fun u => u.userId == x) = some a) :
    ∀ b ∈ modifyFirst (fun u => u.userId == x) f users,
      b = f a ∨ (b ∈ users ∧ b.userId ≠ x) := by
  obtain ⟨l₁, l₂, e1, e2, e3, e4, _⟩ :=
    modifyFirst_split (fun u : User => u.userId == x) f users a hf
  have hax : a.userId = x := by simpa using e3
  intro b hb
  rw [e4] at hb
  rw [e1] at hnd ⊢
  rcases List.mem_append.mp hb with h1 | h2
  · right
    refine ⟨List.mem_append_left _ h1, ?_⟩
    have := e2 b h1
    simpa using this
  · rcases List.mem_cons.mp h2 with h3 | h3
    · left; exact h3
    · right
      refine ⟨List.mem_append_right _ (List.mem_cons_of_mem _ h3), ?_⟩
      intro hbx
      rw [List.map_append, List.map_cons] at hnd
      have hnd2 := (List.nodup_append.mp hnd).2.1
      have hnot := (List.nodup_cons.mp hnd2).1
      apply hnot
      rw [hax, ← hbx]
      exact List.mem_map.mpr ⟨b, h3, rfl⟩

theorem Loan.renewLoan_ids (l : Loan) (days : Int) (now : QDateTime) :
    (l.renewLoan days now).2.loanId = l.loanId ∧
    (l.renewLoan days now).2.userId = l.userId := by
  unfold Loan.renewLoan
  split <;> exact ⟨rfl, rfl⟩

theorem addUser_cases (m : LibraryManager) (user : Option User) :
    (m.addUser user).2 = m ∨
    ∃ u, user = some u ∧ m.findUserById u.userId = none ∧
      (m.addUser user).2 =
        { m with users := m.users ++ [u],
                 emitted := m.emitted ++ [Signal.userAdded u.userId] } := by
  cases user with
  | none => left; rfl
  | some u =>
    cases hv : LibraryManager.validateUserData u with
    | error e => left; simp [LibraryManager.addUser, hv]
    | ok _ =>
      cases hf : m.findUserById u.userId with
      | some _ => left; simp [LibraryManager.addUser, hv, hf]
      | none =>
        cases hfe : m.findUserByEmail u.email with
        | some _ => left; simp [LibraryManager.addUser, hv, hf, hfe]
        | none =>
          right
          exact ⟨u, rfl, hf, by simp [LibraryManager.addUser, hv, hf, hfe,
            LibraryManager.emit]⟩

theorem removeUser_cases (m : LibraryManager) (userId : String) :
    (m.removeUser userId).2 = m ∨
    ∃ u, m.findUserById userId = some u ∧ u.currentLoans = [] ∧
      (m.removeUser userId).2 =
        { m with users := m.users.eraseP (fun u => u.userId == userId),
                 emitted := m.emitted ++ [Signal.userRemoved userId] } := by
  cases hf : m.findUserById userId with
  | none => left; simp [LibraryManager.removeUser, hf]
  | some u =>
    by_cases hc : u.getCurrentLoanCount > 0
    · left; simp [LibraryManager.removeUser, hf, hc]
    · right
      refine ⟨u, rfl, ?_, by simp [LibraryManager.removeUser, hf, hc, LibraryManager.emit]⟩
      unfold User.getCurrentLoanCount at hc
      have hlen : u.currentLoans.length = 0 := by omega
      exact List.length_eq_zero.mp hlen

theorem borrowResource_shape (m : LibraryManager) (userId resourceId : String)
    (now : QDateTime) (uuid : String) :
    (m.borrowResource userId resourceId now uuid).2 = m ∨
    ∃ user loan rs sigs, m.findUserById userId = some user ∧ loan.userId = userId ∧
      (m.borrowResource userId resourceId now uuid).2 =
        { m with
          resources := rs,
          users :=
            modifyFirst (fun u => u.userId == userId)
              (fun _ => { user with currentLoans := user.currentLoans ++ [loan],
                                    lastActivity := now }) m.users,
          activeLoans := m.activeLoans ++ [loan],
          emitted := sigs } := by
  cases hu : m.findUserById userId with
  | none => left; simp [LibraryManager.borrowResource, hu]
  | some user =>
    cases hr : m.findResourceById resourceId with
    | none => left; simp [LibraryManager.borrowResource, hu, hr]
    | some resource =>
      cases hc : user.canBorrow with
      | false => left; simp [LibraryManager.borrowResource, hu, hr, hc]
      | true =>
        cases hav : resource.isAvailable with
        | false => left; simp [LibraryManager.borrowResource, hu, hr, hc, hav]
        | true =>
          cases hl : Loan.new (Loan.generateLoanId uuid) userId resourceId resource.title now
              (m.calculateDueDate 0 now) 3 now with
          | error e => left; simp [LibraryManager.borrowResource, hu, hr, hc, hav, hl]
          | ok loan =>
            right
            have hlu : loan.userId = userId := by
              unfold Loan.new at hl
              simp only at hl
              split at hl
              · exact absurd hl (by simp)
              · simp only [Except.ok.injEq] at hl
                rw [← hl]
                unfold Loan.updateStatus
                simp only
                split_ifs <;> rfl
            refine ⟨user, loan,
              modifyFirst (fun r => r.id == resourceId)
                (fun r => r.setStatus ResourceStatus.Borrowed) m.resources,
              m.emitted ++
                [Signal.resourceBorrowed (Loan.generateLoanId uuid) userId resourceId],
              rfl, hlu, ?_⟩
            simp only [LibraryManager.borrowResource, hu, hr, hc, hav, hl, Bool.not_true,
              Bool.false_eq_true, if_false, User.addCurrentLoan_ok user loan now hc,
              LibraryManager.emit]

theorem renewLoan_shape (m : LibraryManager) (loanId : String) (days : Int)
    (now : QDateTime) :
    (m.renewLoan loanId days now).2 = m ∨
    ∃ sigs, (m.renewLoan loanId days now).2 =
      { m with
        activeLoans :=
          modifyFirst (fun l => l.loanId == loanId)
            (fun l => (l.renewLoan days now).2) m.activeLoans,
        emitted := sigs } := by
  cases hf : m.findLoan loanId with
  | none => left; simp [LibraryManager.renewLoan, hf]
  | some loan =>
    cases hc : loan.canBeRenewed now with
    | false => left; simp [LibraryManager.renewLoan, hf, hc]
    | true =>
      right
      have hsame : modifyFirst (fun l => l.loanId == loanId)
          (fun _ => (loan.renewLoan days now).2) m.activeLoans =
          modifyFirst (fun l => l.loanId == loanId)
            (fun l => (l.renewLoan days now).2) m.activeLoans :=
        modifyFirst_congr _ _ _ m.activeLoans loan hf rfl
      unfold LibraryManager.renewLoan
      simp only [hf, hc, Bool.not_true, Bool.false_eq_true, if_false, hsame]
      split
      · exact ⟨_, rfl⟩
      · exact ⟨_, rfl⟩

theorem LoansMirrored_congr (m m' : LibraryManager) (hu : m'.users = m.users)
    (hl : m'.activeLoans = m.activeLoans) (h : m.LoansMirrored) : m'.LoansMirrored := by
  unfold LibraryManager.LoansMirrored at *
  rw [hu, hl]
  exact h

theorem LoansMirrored_addUser (m : LibraryManager) (u : User) (sigs : List Signal)
    (hnone : m.findUserById u.userId = none) (hcl : u.currentLoans = [])
    (h : m.LoansMirrored) :
    LibraryManager.LoansMirrored { m with users := m.users ++ [u], emitted := sigs } := by
  obtain ⟨h1, h2⟩ := h
  have hfresh : ∀ w ∈ m.users, w.userId ≠ u.userId := by
    intro w hw
    have := (List.find?_eq_none.mp hnone) w hw
    simpa using this
  refine ⟨?_, ?_⟩
  · intro v hv
    simp only at hv ⊢
    rcases List.mem_append.mp hv with hv | hv
    · exact h1 v hv
    · rw [List.mem_singleton] at hv
      subst hv
      rw [hcl]
      have hnil : m.activeLoans.filter (fun l => l.userId == v.userId) = [] := by
        rw [List.filter_eq_nil_iff]
        intro l hl
        obtain ⟨w, hw, hwl⟩ := List.mem_map.mp (h2 l hl)
        have := hfresh w hw
        simp only [beq_iff_eq]
        rw [← hwl]
        exact this
      rw [hnil]
  · intro l hl
    simp only at hl ⊢
    rw [List.map_append]
    exact List.mem_append_left _ (h2 l hl)

theorem LoansMirrored_removeUser (m : LibraryManager) (userId : String) (u : User)
    (sigs : List Signal) (hf : m.findUserById userId = some u)
    (hcl : u.currentLoans = []) (h : m.LoansMirrored) :
    LibraryManager.LoansMirrored
      { m with users := m.users.eraseP (fun u => u.userId == userId),
               emitted := sigs } := by
  obtain ⟨h1, h2⟩ := h
  have hu : u ∈ m.users := List.mem_of_find?_eq_some hf
  have huid : u.userId = userId := by
    have := List.find?_some hf
    simpa using this
  refine ⟨?_, ?_⟩
  · intro v hv
    exact h1 v (List.mem_of_mem_eraseP hv)
  · intro l hl
    simp only at hl ⊢
    obtain ⟨w, hw, hwl⟩ := List.mem_map.mp (h2 l hl)
    have hne : w.userId ≠ userId := by
      intro hwx
      have hmem : l ∈ m.activeLoans.filter (fun l => l.userId == u.userId) := by
        rw [List.mem_filter]
        refine ⟨hl, ?_⟩
        simp only [beq_iff_eq]
        rw [← hwl, hwx, huid]
      have hmir := h1 u hu
      rw [hcl] at hmir
      have hnil : m.activeLoans.filter (fun l => l.userId == u.userId) = [] := by
        have := congrArg List.length hmir
        simp only [List.map_nil, List.length_nil, List.length_map] at this
        exact List.length_eq_zero.mp this.symm
      rw [hnil] at hmem
      exact absurd hmem (List.not_mem_nil _)
    refine List.mem_map.mpr ⟨w, ?_, hwl⟩
    rw [List.mem_eraseP_of_neg (by simpa using hne)]
    exact hw

theorem LoansMirrored_borrow (m : LibraryManager) (userId : String) (user : User)
    (loan : Loan) (rs : List Resource) (sigs : List Signal) (now : QDateTime)
    (hnd : (m.users.map (fun u => u.userId)).Nodup)
    (hf : m.findUserById userId = some user) (hlu : loan.userId = userId)
    (h : m.LoansMirrored) :
    LibraryManager.LoansMirrored
      { m with
        resources := rs,
        users :=
          modifyFirst (fun u => u.userId == userId)
            (fun _ => { user with currentLoans := user.currentLoans ++ [loan],
                                  lastActivity := now }) m.users,
        activeLoans := m.activeLoans ++ [loan],
        emitted := sigs } := by
  obtain ⟨h1, h2⟩ := h
  have hu : user ∈ m.users := List.mem_of_find?_eq_some hf
  have huid : user.userId = userId := by
    have := List.find?_some hf
    simpa using this
  refine ⟨?_, ?_⟩
  · intro b hb
    simp only at hb ⊢
    rcases modifyFirst_mem_cases m.users userId _ user hnd hf b hb with hb1 | ⟨hb1, hb2⟩
    · subst hb1
      simp only [List.map_append, List.map_cons, List.map_nil, List.filter_append]
      rw [h1 user hu]
      have hq : (loan.userId == user.userId) = true := by
        simp only [beq_iff_eq]; rw [hlu, huid]
      simp [List.filter_cons, hq]
    · rw [h1 b hb1]
      have hq : (loan.userId == b.userId) = false := by
        simp only [beq_eq_false_iff_ne, ne_eq]
        rw [hlu]
        exact fun e => hb2 e.symm
      simp [List.filter_append, List.filter_cons, hq]
  · intro l hl
    simp only at hl ⊢
    have hmap : (modifyFirst (fun u => u.userId == userId)
        (fun _ => { user with currentLoans := user.currentLoans ++ [loan],
                              lastActivity := now }) m.users).map (fun u => u.userId) =
        m.users.map (fun u => u.userId) :=
      map_modifyFirst_const _ _ m.users user _ hf rfl
    rw [hmap]
    rcases List.mem_append.mp hl with hl | hl
    · exact h2 l hl
    · rw [List.mem_singleton] at hl
      subst hl
      exact List.mem_map.mpr ⟨user, hu, by rw [huid, hlu]⟩

theorem LoansMirrored_renew (m : LibraryManager) (loanId : String) (days : Int)
    (now : QDateTime) (sigs : List Signal) (h : m.LoansMirrored) :
    LibraryManager.LoansMirrored
      { m with
        activeLoans :=
          modifyFirst (fun l => l.loanId == loanId)
            (fun l => (l.renewLoan days now).2) m.activeLoans,
        emitted := sigs } := by
  obtain ⟨h1, h2⟩ := h
  refine ⟨?_, ?_⟩
  · intro u hu
    simp only at hu ⊢
    rw [h1 u hu]
    exact (filter_map_modifyFirst _ (fun l : Loan => l.userId == u.userId)
      (fun l => (l.renewLoan days now).2) (fun l => l.loanId)
      (fun a => by simp only [(Loan.renewLoan_ids a days now).2])
      (fun a => (Loan.renewLoan_ids a days now).1) m.activeLoans).symm
  · intro l hl
    simp only at hl ⊢
    rcases mem_modifyFirst _ _ m.activeLoans l hl with hl | ⟨a, ha, _, hla⟩
    · exact h2 l hl
    · rw [hla, (Loan.renewLoan_ids a days now).2]
      exact h2 a ha

theorem LoansMirrored_return (m : LibraryManager) (loanId : String) (loan : Loan)
    (now : QDateTime) (rs : List Resource) (hist : List Loan) (sigs : List Signal)
    (hnd : (m.users.map (fun u => u.userId)).Nodup)
    (hfind : m.findLoan loanId = some loan) (h : m.LoansMirrored) :
    LibraryManager.LoansMirrored
      { m with
        resources := rs,
        users :=
          modifyFirst (fun u => u.userId == loan.userId)
            (fun u => u.moveLoanToHistory loanId now) m.users,
        activeLoans := m.activeLoans.eraseP (fun l => l.loanId == loanId),
        loanHistory := hist,
        emitted := sigs } := by
  obtain ⟨h1, h2⟩ := h
  have hfind2 : m.activeLoans.find? (fun l => l.loanId == loanId) = some loan := hfind
  have hloan : loan ∈ m.activeLoans := List.mem_of_find?_eq_some hfind2
  have hlid : loan.loanId = loanId := by
    have := List.find?_some hfind2
    simpa using this
  have hother : ∀ b ∈ m.users, b.userId ≠ loan.userId →
      b.currentLoans.map (fun l => l.loanId) =
        ((m.activeLoans.eraseP (fun l => l.loanId == loanId)).filter
          (fun l => l.userId == b.userId)).map (fun l => l.loanId) := by
    intro b hb hne
    rw [filter_eraseP_of_not _ (fun l : Loan => l.userId == b.userId) m.activeLoans loan
      hfind2 (by simpa using fun e : loan.userId = b.userId => hne e.symm)]
    exact h1 b hb
  refine ⟨?_, ?_⟩
  · intro b hb
    simp only at hb ⊢
    cases hfu : m.users.find? (fun u => u.userId == loan.userId) with
    | none =>
      rw [modifyFirst_of_find?_none _ _ m.users hfu] at hb
      have hne : b.userId ≠ loan.userId := by
        have := (List.find?_eq_none.mp hfu) b hb
        simpa using this
      exact hother b hb hne
    | some a =>
      rcases modifyFirst_mem_cases m.users loan.userId _ a hnd hfu b hb with
        hb1 | ⟨hb1, hb2⟩
      · have ha : a ∈ m.users := List.mem_of_find?_eq_some hfu
        have haid : a.userId = loan.userId := by
          have := List.find?_some hfu
          simpa using this
        have hmir := h1 a ha
        have hin : loanId ∈ a.currentLoans.map (fun l => l.loanId) := by
          rw [hmir]
          refine List.mem_map.mpr ⟨loan, ?_, hlid⟩
          rw [List.mem_filter]
          exact ⟨hloan, by simp [haid]⟩
        obtain ⟨c0, hc0, hc0id⟩ := List.mem_map.mp hin
        cases hfc : a.currentLoans.find? (fun l => l.loanId == loanId) with
        | none =>
          have := (List.find?_eq_none.mp hfc) c0 hc0
          simp [hc0id] at this
        | some c =>
          rw [User.moveLoanToHistory_of_find a loanId now c hfc] at hb1
          subst hb1
          simp only
          rw [filter_eraseP_of_pos _ (fun l : Loan => l.userId == a.userId) m.activeLoans
            loan hfind2 (by simp [haid])]
          have e1 := map_eraseP_eq_erase (fun l : Loan => l.loanId) loanId a.currentLoans
          have e2 := map_eraseP_eq_erase (fun l : Loan => l.loanId) loanId
            (m.activeLoans.filter (fun l => l.userId == a.userId))
          simp only at e1 e2
          rw [e1, e2, hmir]
      · exact hother b hb1 hb2
  · intro l hl
    simp only at hl ⊢
    rw [map_modifyFirst _ _ (fun u : User => u.userId)
      (fun a => User.moveLoanToHistory_userId a loanId now) m.users]
    exact h2 l (List.mem_of_mem_eraseP hl)

theorem LoansMirrored_step (m : LibraryManager) (op : LibraryManager.Op)
    (hop : ∀ u : User, op = LibraryManager.Op.addUser (some u) → u.currentLoans = [])
    (hu : m.UniqueIds) (h : m.LoansMirrored) :
    (LibraryManager.applyOp m op).LoansMirrored := by
  cases op with
  | addResource res =>
    rcases addResource_cases m res with hm | ⟨r, _, _, _, hm⟩
    · simpa [LibraryManager.applyOp, hm] using h
    · simp only [LibraryManager.applyOp, hm]
      exact LoansMirrored_congr m _ rfl rfl h
  | removeResource id =>
    rcases removeResource_cases m id with hm | ⟨r, _, _, hm⟩
    · simpa [LibraryManager.applyOp, hm] using h
    · simp only [LibraryManager.applyOp, hm]
      exact LoansMirrored_congr m _ rfl rfl h
  | addUser user =>
    rcases addUser_cases m user with hm | ⟨u, hsome, hnone, hm⟩
    · simpa [LibraryManager.applyOp, hm] using h
    · simp only [LibraryManager.applyOp, hm]
      exact LoansMirrored_addUser m u _ hnone (hop u (by rw [hsome])) h
  | removeUser id =>
    rcases removeUser_cases m id with hm | ⟨u, hf, hcl, hm⟩
    · simpa [LibraryManager.applyOp, hm] using h
    · simp only [LibraryManager.applyOp, hm]
      exact LoansMirrored_removeUser m id u _ hf hcl h
  | borrowResource userId resourceId now uuid =>
    rcases borrowResource_shape m userId resourceId now uuid with
      hm | ⟨user, loan, rs, sigs, hf, hlu, hm⟩
    · simpa [LibraryManager.applyOp, hm] using h
    · simp only [LibraryManager.applyOp, hm]
      exact LoansMirrored_borrow m userId user loan rs sigs now hu.2.1 hf hlu h
  | returnResource loanId now =>
    cases hf : m.findLoan loanId with
    | none =>
      have hm : m.returnResource loanId now = (false, m) := by
        unfold LibraryManager.returnResource
        simp only [hf]
      simpa [LibraryManager.applyOp, hm] using h
    | some loan =>
      have hm := returnResource_eq m loanId now loan hf
      obtain ⟨sigs, hn⟩ := notifyWhenResourceAvailable_eq
        { m with
          resources :=
            modifyFirst (fun r => r.id == loan.resourceId)
              (fun r => r.setStatus ResourceStatus.Available) m.resources,
          users :=
            modifyFirst (fun u => u.userId == loan.userId)
              (fun u => u.moveLoanToHistory loanId now) m.users,
          activeLoans := m.activeLoans.eraseP (fun l => l.loanId == loanId),
          loanHistory := m.loanHistory ++
            [{ loan with returnDate := some now, status := LoanStatus.Returned }],
          emitted := m.emitted ++
            [Signal.resourceReturned loanId loan.userId loan.resourceId] }
        loan.resourceId now
      simp only [LibraryManager.applyOp, hm, hn]
      exact LoansMirrored_return m loanId loan now _ _ _ hu.2.1 hf h
  | renewLoan loanId days now =>
    rcases renewLoan_shape m loanId days now with hm | ⟨sigs, hm⟩
    · simpa [LibraryManager.applyOp, hm] using h
    · simp only [LibraryManager.applyOp, hm]
      exact LoansMirrored_renew m loanId days now sigs h
  | reserveResource userId resourceId now uuid =>
    rcases reserveResource_cases m userId resourceId now uuid with
      hm | ⟨_, _, _, _, _, _, hm⟩
    · simpa [LibraryManager.applyOp, hm] using h
    · simp only [LibraryManager.applyOp, hm]
      exact LoansMirrored_congr m _ rfl rfl h
  | cancelReservation id =>
    obtain ⟨_, _, _, _, hm⟩ := cancelReservation_frame m id
    simp only [LibraryManager.applyOp, hm]
    exact LoansMirrored_congr m _ rfl rfl h
  | cancelUserReservation userId resourceId =>
    obtain ⟨_, _, _, _, hm⟩ := cancelUserReservation_frame m userId resourceId
    simp only [LibraryManager.applyOp, hm]
    exact LoansMirrored_congr m _ rfl rfl h
  | processExpiredReservations now =>
    obtain ⟨_, _, _, _, hm⟩ := processExpiredReservations_frame m now
    simp only [LibraryManager.applyOp, hm]
    exact LoansMirrored_congr m _ rfl rfl h

theorem LoansMirrored_foldl (ops : List LibraryManager.Op) :
    ∀ m : LibraryManager, LibraryManager.AddsNoLoanHolders ops → m.UniqueIds →
      m.LoansMirrored → (ops.foldl LibraryManager.applyOp m).LoansMirrored := by
  induction ops with
  | nil => intro m _ _ h; simpa using h
  | cons op ops ih =>
    intro m hops hu h
    have hstep := LoansMirrored_step m op (fun u hop => hops u (by rw [hop]; simp)) hu h
    have hrest : LibraryManager.AddsNoLoanHolders ops :=
      fun u hmem => hops u (List.mem_cons_of_mem _ hmem)
    simpa using ih _ hrest (UniqueIds_step m op hu) hstep

/-- C30 (amended): in every manager reached from the empty manager by the operations
(`addUser`, `removeUser`, `addResource`, `removeResource`, `borrowResource`,
`renewLoan`, `returnResource`, and the reservation operations as well), provided every
user handed to `addUser` holds no current loan, the loan ids of the current loans of
each user are, in the same order, the ids of the active loans of the manager whose
`userId` is that user, and the `userId` of every active loan is the id of a user of the
manager. -/
theorem current_loans_mirror_active_loans (ops : List LibraryManager.Op)
    (hops : LibraryManager.AddsNoLoanHolders ops) :
    (∀ u ∈ (LibraryManager.run ops).users,
      u.currentLoans.map (fun l => l.loanId) =
        ((LibraryManager.run ops).activeLoans.filter
          (fun l => l.userId == u.userId)).map (fun l => l.loanId)) ∧
    (∀ l ∈ (LibraryManager.run ops).activeLoans,
      ∃ u ∈ (LibraryManager.run ops).users, u.userId = l.userId) := by
  have hu0 : LibraryManager.empty.UniqueIds := by
    simp [LibraryManager.UniqueIds, LibraryManager.empty]
  have hm0 : LibraryManager.empty.LoansMirrored := by
    simp [LibraryManager.LoansMirrored, LibraryManager.empty]
  obtain ⟨h1, h2⟩ := LoansMirrored_foldl ops LibraryManager.empty hops hu0 hm0
  refine ⟨h1, fun l hl => ?_⟩
  obtain ⟨u, hu, hul⟩ := List.mem_map.mp (h2 l hl)
  exact ⟨u, hu, hul⟩

/-! ## The later theorems on the sample library -/

/-- C24 on the stocked library with a loan period of zero days: the loan cannot be
built and the library is as before. -/
theorem borrowResource_loan_construction_fails_witness :
    hastyLibrary.findUserById "U1" = some sampleStudent ∧
    hastyLibrary.findResourceById "B1" = some sampleBook ∧
    hastyLibrary.borrowResource "U1" "B1" 1000 "a" =
      (.error (.LoanException "Due date must be after borrow date"), hastyLibrary) :=
  ⟨by decide, by decide,
    (borrowResource_loan_construction_fails hastyLibrary "U1" "B1" 1000 "a"
      sampleStudent sampleBook (by decide) (by decide) (by decide) (by decide)).1 _ rfl⟩

/-- C26 fails on an `Expired` reservation: `cancelReservation` returns and the status
becomes `Cancelled`. -/
theorem reservation_terminal_states_counterexample :
    sampleExpired.status = ReservationStatus.Expired ∧
    sampleExpired.cancelReservation =
      .ok { sampleExpired with status := ReservationStatus.Cancelled } ∧
    ReservationStatus.Cancelled ≠ sampleExpired.status :=
  ⟨by decide, rfl, by decide⟩

/-- C26 (amended) on the `Expired` sample reservation. -/
theorem reservation_terminal_states_witness :
    sampleExpired.status ≠ ReservationStatus.Active ∧
    (∃ e, sampleExpired.fulfillReservation 3000 = .error e) ∧
    (∃ e, sampleExpired.extendReservation 7 = .error e) :=
  ⟨by decide,
    (reservation_terminal_states sampleExpired 3000 7 (by decide)).1,
    (reservation_terminal_states sampleExpired 3000 7 (by decide)).2.1⟩

/-- C28 on the lending library: the loan, due at 1209601000, is returned late at
2000000000 and enters the history with the fine amount it had. -/
theorem returnItem_keeps_fineAmount_witness :
    lendingLibrary.findLoan "LOAN_a" = some sampleLoan ∧
    sampleLoan.isOverdue 2000000000 = true ∧
    ∃ l, (lendingLibrary.returnResource "LOAN_a" 2000000000).2.loanHistory =
        lendingLibrary.loanHistory ++ [l] ∧
      l.loanId = sampleLoan.loanId ∧ l.status = LoanStatus.Returned ∧
      l.fineAmount = sampleLoan.fineAmount :=
  ⟨by decide, by decide,
    returnItem_keeps_fineAmount.2.1 lendingLibrary "LOAN_a" 2000000000 sampleLoan
      (by decide)⟩

/-- C27 fails on a teacher made a student: the constructor gives `sampleTeacher`,
whose year is `-1`, and after `setUserType(Student)` the user is a student with year
`-1`. -/
theorem setUserType_breaks_year_witness :
    User.new sampleQt "U5" "Alan" "Turing" "alan@ensia.edu.dz" UserType.Teacher 500 =
      .ok sampleTeacher ∧
    (UserCall.apply sampleTeacher (.setUserType UserType.Student)).userType =
      UserType.Student ∧
    (UserCall.apply sampleTeacher (.setUserType UserType.Student)).year = -1 ∧
    ¬ (UserCall.apply sampleTeacher (.setUserType UserType.Student)).YearInRange :=
  ⟨rfl,
    setUserType_breaks_year.2.2.1 sampleQt "U5" "Alan" "Turing" "alan@ensia.edu.dz"
      UserType.Teacher 500 sampleTeacher rfl (by decide)⟩

/-- C22 fails on the student of the lending library, who holds one loan: no user is
returned. -/
theorem createUserFromJson_throws_with_loans_witness :
    sampleBorrower.currentLoans ≠ [] ∧
    (PersistenceService.createUserFromJson sampleQt tallyDate
        (sampleBorrower.toJson tallyDate) 5000 =
          .error (.LoanException "Loan ID cannot be empty") ∨
      ∃ message, PersistenceService.createUserFromJson sampleQt tallyDate
        (sampleBorrower.toJson tallyDate) 5000 = .error (.UserException message)) :=
  ⟨by decide,
    createUserFromJson_throws_with_loans sampleQt tallyDate 5000 sampleBorrower
      (by decide)⟩

/-- The sample borrower cannot be read back: the placeholder loan is refused. -/
theorem createUserFromJson_sampleBorrower :
    PersistenceService.createUserFromJson sampleQt tallyDate
      (sampleBorrower.toJson tallyDate) 5000 =
        .error (.LoanException "Loan ID cannot be empty") := by
  rfl

/-- The sample book cannot be read back: the placeholder book is refused. -/
theorem createResourceFromJson_sampleBook :
    PersistenceService.createResourceFromJson sampleQt
      ((AnyResource.book sampleBookObject).toJson tallyDate) 5000 2025 =
        .error (.ResourceException "Resource ID cannot be empty") := by
  rfl

/-- C30 fails after `addUser` of a user who already holds a loan: the user has one
current loan and the manager has no active loan. -/
theorem current_loans_mirror_active_loans_counterexample :
    sampleBorrower ∈ preloadedLibrary.users ∧
    sampleBorrower.currentLoans.map (fun l => l.loanId) = ["LOAN_a"] ∧
    (preloadedLibrary.activeLoans.filter
      (fun l => l.userId == sampleBorrower.userId)).map (fun l => l.loanId) = [] := by
  decide

/-- C30 (amended) on the lending library: the student holds the loan `LOAN_a`, the
one active loan of the manager. -/
theorem current_loans_mirror_active_loans_witness :
    LibraryManager.AddsNoLoanHolders lendingOps ∧
    sampleBorrower ∈ lendingLibrary.users ∧
    sampleBorrower.currentLoans.map (fun l => l.loanId) =
      (lendingLibrary.activeLoans.filter
        (fun l => l.userId == sampleBorrower.userId)).map (fun l => l.loanId) := by
  have hops : LibraryManager.AddsNoLoanHolders lendingOps := by
    intro u hu
    simp only [lendingOps, stockOps, List.cons_append, List.nil_append, List.mem_cons,
      LibraryManager.Op.addUser.injEq, Option.some.injEq, List.mem_nil_iff, or_false,
      reduceCtorEq, false_or] at hu
    rcases hu with hu | hu | hu <;> rw [hu] <;> rfl
  exact ⟨hops, by decide,
    (current_loans_mirror_active_loans lendingOps hops).1 sampleBorrower (by decide)⟩

/-- The resources document of a catalogue that holds the sample thesis only: no
entry, count `0`. -/
theorem saveLibraryData_sampleThesis :
    (PersistenceService.saveLibraryDataResources tallyDate [.thesis sampleThesis]
      5000).value "data" = .array [] ∧
    (PersistenceService.saveLibraryDataResources tallyDate [.thesis sampleThesis]
      5000).value "count" = .double 0 :=
  ⟨rfl, rfl⟩

end Ensiary
